import Mathlib

/-!
# License selection and normalisation engine

A shallow embedding of `pkg/types/licensetypes/license.go`, `pkg/types/licensetypes/plan.go`,
`ee/licensing/httplicensing/provider.go`, `ee/zeus/httpzeus/provider.go` and
`ee/query-service/app/api/featureFlags.go`.

Conventions of the embedding

* Go `map[string]any` is an association list; a lookup returns the first entry for a key,
  an assignment replaces every entry for the key, `delete` removes every entry for the key.
* Go `(T, error)` results are `Except GoError T`.
* `int64` values are `Int`; the only arithmetic on them is comparison.
* Functions of packages that are not part of the embedded files (`valuer.NewUUID`,
  `valuer.NewString`, `time.Parse`, `Time.Format`, `json.Unmarshal`) are fields of `Env`.
* `time.Now()` is an explicit argument.
-/

set_option autoImplicit false
set_option maxRecDepth 100000

namespace Licensetypes

/-! ## Errors (`pkg/errors`) -/

/-- The error types of `pkg/errors` that the embedded files use. -/
inductive Typ where
  | TypeInvalidInput
  | TypeNotFound
  | TypeUnauthenticated
  | TypeForbidden
  | TypeInternal
  deriving DecidableEq, Repr

/-- The error codes of `pkg/errors` that the embedded files use. -/
inductive Code where
  | CodeInvalidInput
  | CodeNotFound
  | CodeUnauthenticated
  | CodeForbidden
  | CodeInternal
  | CodeUnknown
  deriving DecidableEq, Repr

/-- A Go `error` value: either the typed error of `pkg/errors` (type, code, message, wrapped
cause) or an error of another package, which carries only a message. -/
inductive GoError where
  | base (t : Typ) (c : Code) (m : String)
  | wrapped (cause : GoError) (t : Typ) (c : Code) (m : String)
  | foreign (m : String)
  deriving DecidableEq, Repr

/-- The error type `errors.Unwrapb` reports: the type of a `pkg/errors` error, and
`TypeInternal` for an error of another package. -/
def GoError.typ : GoError → Typ
  | .base t _ _ => t
  | .wrapped _ t _ _ => t
  | .foreign _ => .TypeInternal

/-- The message of the outermost error. -/
def GoError.message : GoError → String
  | .base _ _ m => m
  | .wrapped _ _ _ m => m
  | .foreign m => m

/-- Go: `errors.Newf(t, c, format, args...)`, with the message already formatted. -/
def Newf (t : Typ) (c : Code) (m : String) : GoError := .base t c m

/-- Go: `errors.NewInvalidInputf(c, format, args...)`. -/
def NewInvalidInputf (c : Code) (m : String) : GoError := Newf .TypeInvalidInput c m

/-- Go: `errors.Wrapf(cause, t, c, format, args...)`. -/
def Wrapf (cause : GoError) (t : Typ) (c : Code) (m : String) : GoError := .wrapped cause t c m

/-- Go: `errors.Ast(err, typ)`. -/
def Ast (err : GoError) (t : Typ) : Bool := decide (err.typ = t)

/-! ## Values -/

/-- Go: `valuer.UUID`, represented by its canonical string form. -/
structure UUID where
  val : String
  deriving DecidableEq, Repr

/-- Go: `valuer.UUID{}`, the zero UUID. -/
def UUID.zero : UUID := ⟨"00000000-0000-0000-0000-000000000000"⟩

/-- Go: `UUID.StringValue`. -/
def UUID.StringValue (u : UUID) : String := u.val

/-- Go: `valuer.String`. -/
structure ValuerString where
  val : String
  deriving DecidableEq, Repr

/-- Go: `time.Time`, as seconds since the Unix epoch. -/
structure Time where
  unix : Int
  deriving DecidableEq, Repr

/-- Go: `time.Time{}`, the zero time (January 1, year 1, 00:00 UTC). -/
def Time.zero : Time := ⟨-62135596800⟩

/-- A finite `float64`, the number `mant * 2 ^ exp`; `json.Unmarshal` stores every JSON number
of a `map[string]any` as such a value. -/
structure Float64 where
  mant : Int
  exp : Int
  deriving DecidableEq, Repr

/-- The `float64` of an integer. -/
def Float64.ofInt (n : Int) : Float64 := ⟨n, 0⟩

/-- Go: `int64(f)`: the fraction is discarded (truncation towards zero). A value outside the
`int64` range converts to the minimum `int64`, which is what the conversion gives on amd64 (the
language leaves that case to the implementation). -/
def Float64.toInt64 (f : Float64) : Int :=
  let t : Int := if 0 ≤ f.exp then f.mant * 2 ^ f.exp.toNat else Int.tdiv f.mant (2 ^ (-f.exp).toNat)
  if -2 ^ 63 ≤ t ∧ t < 2 ^ 63 then t else -2 ^ 63

/-- Go: `licensetypes.Feature`. -/
structure Feature where
  Name : ValuerString
  Active : Bool
  Usage : Int
  UsageLimit : Int
  Route : String
  deriving DecidableEq, Repr

/-- A Go value of type `any` as it occurs in a license data map: what `json.Unmarshal` produces
(`nil`, `bool`, `float64`, `string`, `[]any`, `map[string]any`) and the `[]*Feature` the
constructors store under `features`. -/
inductive Value where
  | null
  | bool (b : Bool)
  | float64 (f : Float64)
  | string (s : String)
  | slice (xs : List Value)
  | map (m : List (String × Value))
  | features (fs : List Feature)

/-- Go: `map[string]any`. -/
abbrev GoMap := List (String × Value)

/-- Go: `val, ok := m[k]`. -/
def GoMap.get (m : GoMap) (k : String) : Option Value := List.lookup k m

/-- Go: `m[k] = v`. -/
def GoMap.set (m : GoMap) (k : String) (v : Value) : GoMap :=
  (k, v) :: m.filter (fun e => !(e.1 == k))

/-- Go: `delete(m, k)`. -/
def GoMap.delete (m : GoMap) (k : String) : GoMap :=
  m.filter (fun e => !(e.1 == k))

/-- Go: the type assertion `val.(string)`. -/
def Value.asString : Value → Option String
  | .string s => some s
  | _ => none

/-- Go: the type assertion `val.(float64)`. -/
def Value.asFloat64 : Value → Option Float64
  | .float64 f => some f
  | _ => none

/-- Go: the type assertion `val.(map[string]any)`. -/
def Value.asMap : Value → Option GoMap
  | .map m => some m
  | _ => none

/-! ## External functions -/

/-- The functions of other packages that the embedded code calls. -/
structure Env where
  /-- Go: `valuer.NewUUID`. -/
  NewUUID : String → Except GoError UUID
  /-- Go: `valuer.NewString`. -/
  NewString : String → ValuerString
  /-- Go: `time.Parse(time.RFC3339, s)`. -/
  ParseRFC3339 : String → Except GoError Time
  /-- Go: `t.UTC().Format(time.RFC3339)`. -/
  FormatRFC3339 : Time → String
  /-- Go: `json.Unmarshal(data, &m)` for `m` an empty `map[string]any`. -/
  Unmarshal : String → Except GoError GoMap

/-! ## `plan.go` -/

/-- Go: `licensetypes.DotMetricsEnabled`. -/
def DotMetricsEnabled (x : Env) : ValuerString := x.NewString "dot_metrics_enabled"

/-- Go: `licensetypes.AllFeatures`. -/
def AllFeatures (x : Env) : List Feature :=
  [ { Name := x.NewString "sso", Active := true, Usage := 0, UsageLimit := -1, Route := "" },
    { Name := x.NewString "onboarding", Active := true, Usage := 0, UsageLimit := -1, Route := "" },
    { Name := x.NewString "chat_support", Active := true, Usage := 0, UsageLimit := -1, Route := "" },
    { Name := x.NewString "gateway", Active := true, Usage := 0, UsageLimit := -1, Route := "" },
    { Name := x.NewString "premium_support", Active := true, Usage := 0, UsageLimit := -1, Route := "" },
    { Name := x.NewString "anomaly_detection", Active := true, Usage := 0, UsageLimit := -1, Route := "" },
    { Name := x.NewString "dot_metrics_enabled", Active := true, Usage := 0, UsageLimit := -1, Route := "" } ]

/-! ## `license.go` -/

/-- Go: `licensetypes.StorableLicense`. -/
structure StorableLicense where
  ID : UUID
  CreatedAt : Time
  UpdatedAt : Time
  Key : String
  Data : GoMap
  LastValidatedAt : Time
  OrgID : UUID

/-- Go: `licensetypes.License`. -/
structure License where
  ID : UUID
  Key : String
  Data : GoMap
  PlanName : ValuerString
  Features : List Feature
  Status : ValuerString
  State : String
  FreeUntil : Time
  ValidFrom : Int
  ValidUntil : Int
  CreatedAt : Time
  UpdatedAt : Time
  LastValidatedAt : Time
  OrganizationID : UUID

/-- Go: `NewStorableLicenseFromLicense`. -/
def NewStorableLicenseFromLicense (license : License) : StorableLicense :=
  { ID := license.ID
    CreatedAt := license.CreatedAt
    UpdatedAt := license.UpdatedAt
    Key := license.Key
    Data := license.Data
    LastValidatedAt := license.LastValidatedAt
    OrgID := license.OrganizationID }

/-- Go: `extractKeyFromMapStringInterface[T]`. The type parameter is given by its type
assertion `assertT` and by `typeName`, the text of `reflect.TypeOf(zeroValue)`. -/
def extractKeyFromMapStringInterface {T : Type} (assertT : Value → Option T) (typeName : String)
    (data : GoMap) (key : String) : Except GoError T :=
  match data.get key with
  | some val =>
    match assertT val with
    | some value => .ok value
    | none => .error (NewInvalidInputf .CodeInvalidInput (key ++ " key is not a valid " ++ typeName))
  | none => .error (NewInvalidInputf .CodeInvalidInput (key ++ " key is missing"))

/-- Go: `extractKeyFromMapStringInterface[string]`. -/
def extractString (data : GoMap) (key : String) : Except GoError String :=
  extractKeyFromMapStringInterface Value.asString "string" data key

/-- Go: `extractKeyFromMapStringInterface[float64]`. -/
def extractFloat64 (data : GoMap) (key : String) : Except GoError Float64 :=
  extractKeyFromMapStringInterface Value.asFloat64 "float64" data key

/-- Go: `extractKeyFromMapStringInterface[map[string]any]`; `reflect.TypeOf` of a nil
`map[string]any` prints as `map[string]interface {}`. -/
def extractMap (data : GoMap) (key : String) : Except GoError GoMap :=
  extractKeyFromMapStringInterface Value.asMap "map[string]interface \x7b\x7d" data key

/-- The value of `x` when it is a result, the fallback `d` when it is an error: the Go idiom
`v, err := f(); if err != nil { v = d }`. -/
def orDefault {T : Type} (x : Except GoError T) (d : T) : T :=
  match x with
  | .ok v => v
  | .error _ => d

/-- Go: `NewLicenseFromStorableLicense`. The assignment `storableLicense.Data["features"]`
writes into the map the record and the license share; the returned license carries it. -/
def NewLicenseFromStorableLicense (x : Env) (storableLicense : StorableLicense) :
    Except GoError License :=
  match extractString storableLicense.Data "status" with
  | .error err => .error err
  | .ok statusStr =>
    let status := x.NewString statusStr
    match extractMap storableLicense.Data "plan" with
    | .error err => .error err
    | .ok planMap =>
      match extractString planMap "name" with
      | .error err => .error err
      | .ok planNameStr =>
        let planName := x.NewString planNameStr
        let features := [] ++ AllFeatures x
        let data := storableLicense.Data.set "features" (.features features)
        let _validFrom := orDefault (extractFloat64 data "valid_from") (Float64.ofInt 0)
        let validFrom := _validFrom.toInt64
        let _validUntil := orDefault (extractFloat64 data "valid_until") (Float64.ofInt 0)
        let validUntil := _validUntil.toInt64
        let state := orDefault (extractString data "state") ""
        let freeUntilStr := orDefault (extractString data "free_until") ""
        let freeUntil := orDefault (x.ParseRFC3339 freeUntilStr) Time.zero
        .ok { ID := storableLicense.ID
              Key := storableLicense.Key
              Data := data
              PlanName := planName
              Features := features
              ValidFrom := validFrom
              ValidUntil := validUntil
              Status := status
              State := state
              FreeUntil := freeUntil
              CreatedAt := storableLicense.CreatedAt
              UpdatedAt := storableLicense.UpdatedAt
              LastValidatedAt := storableLicense.LastValidatedAt
              OrganizationID := storableLicense.OrgID }

/-- The expiry test of the selector: `license.ValidUntil == -1 || license.ValidUntil > now`. -/
def notExpired (now : Int) (license : License) : Bool :=
  license.ValidUntil == -1 || decide (license.ValidUntil > now)

/-- The body of the loop of `GetActiveLicenseFromStorableLicenses` after the record is parsed:
the two `if` statements, in source order, on the running `activeLicense`. -/
def selectStep (now : Int) (activeLicense : Option License) (license : License) : Option License :=
  let activeLicense :=
    if activeLicense.isNone && (license.ValidFrom != 0) && notExpired now license
    then some license else activeLicense
  match activeLicense with
  | some active =>
    if decide (license.ValidFrom > active.ValidFrom) && notExpired now license
    then some license else some active
  | none => none

/-- The loop of `GetActiveLicenseFromStorableLicenses`: the first record that does not parse
ends the scan with its error. -/
def selectLoop (x : Env) (now : Int) :
    List StorableLicense → Option License → Except GoError (Option License)
  | [], activeLicense => .ok activeLicense
  | storableLicense :: rest, activeLicense =>
    match NewLicenseFromStorableLicense x storableLicense with
    | .error err => .error err
    | .ok license => selectLoop x now rest (selectStep now activeLicense license)

/-- Go: `GetActiveLicenseFromStorableLicenses`; `now` is the value of `time.Now().Unix()`. -/
def GetActiveLicenseFromStorableLicenses (x : Env) (now : Int)
    (storableLicenses : List StorableLicense) (organizationID : UUID) : Except GoError License :=
  match selectLoop x now storableLicenses none with
  | .error err => .error err
  | .ok none =>
    .error (Newf .TypeNotFound .CodeNotFound
      ("no active license found for the organization " ++ organizationID.StringValue))
  | .ok (some activeLicense) => .ok activeLicense

/-- The loop body of the selector with the list position of the record beside each license: in
the source `activeLicense` is a pointer to the license built in one iteration, and the position
stands for that identity. -/
def selectStepAt (now : Int) (activeLicense : Option (Nat × License)) (idx : Nat)
    (license : License) : Option (Nat × License) :=
  let activeLicense :=
    if activeLicense.isNone && (license.ValidFrom != 0) && notExpired now license
    then some (idx, license) else activeLicense
  match activeLicense with
  | some active =>
    if decide (license.ValidFrom > active.2.ValidFrom) && notExpired now license
    then some (idx, license) else some active
  | none => none

/-- The loop of the selector with list positions; `idx` is the position of the head record. -/
def selectLoopAt (x : Env) (now : Int) :
    List StorableLicense → Nat → Option (Nat × License) → Except GoError (Option (Nat × License))
  | [], _, activeLicense => .ok activeLicense
  | storableLicense :: rest, idx, activeLicense =>
    match NewLicenseFromStorableLicense x storableLicense with
    | .error err => .error err
    | .ok license => selectLoopAt x now rest (idx + 1) (selectStepAt now activeLicense idx license)

/-- The selector with the list position of the record the returned license was built from. -/
def GetActiveLicenseAt (x : Env) (now : Int) (storableLicenses : List StorableLicense)
    (organizationID : UUID) : Except GoError (Nat × License) :=
  match selectLoopAt x now storableLicenses 0 none with
  | .error err => .error err
  | .ok none =>
    .error (Newf .TypeNotFound .CodeNotFound
      ("no active license found for the organization " ++ organizationID.StringValue))
  | .ok (some activeLicense) => .ok activeLicense

/-- Go: the body of `NewLicense` after `json.Unmarshal`, on the decoded map; `now` is the value
of `time.Now()`. -/
def NewLicenseFromMap (x : Env) (now : Time) (licenseData : GoMap) (organizationID : UUID) :
    Except GoError License :=
  match extractString licenseData "id" with
  | .error err => .error err
  | .ok licenseIDStr =>
    match x.NewUUID licenseIDStr with
    | .error err => .error err
    | .ok licenseID =>
      let licenseData := licenseData.delete "id"
      match extractString licenseData "key" with
      | .error err => .error err
      | .ok licenseKey =>
        let licenseData := licenseData.delete "key"
        match extractString licenseData "status" with
        | .error err => .error err
        | .ok statusStr =>
          let status := x.NewString statusStr
          match extractMap licenseData "plan" with
          | .error err => .error err
          | .ok planMap =>
            match extractString planMap "name" with
            | .error err => .error err
            | .ok planNameStr =>
              let planName := x.NewString planNameStr
              let state := orDefault (extractString licenseData "state") ""
              let freeUntilStr := orDefault (extractString licenseData "free_until") ""
              let freeUntil := orDefault (x.ParseRFC3339 freeUntilStr) Time.zero
              let features := [] ++ AllFeatures x
              let licenseData := licenseData.set "features" (.features features)
              let _validFrom := orDefault (extractFloat64 licenseData "valid_from") (Float64.ofInt 0)
              let validFrom := _validFrom.toInt64
              let _validUntil := orDefault (extractFloat64 licenseData "valid_until") (Float64.ofInt 0)
              let validUntil := _validUntil.toInt64
              .ok { ID := licenseID
                    Key := licenseKey
                    Data := licenseData
                    PlanName := planName
                    Features := features
                    ValidFrom := validFrom
                    ValidUntil := validUntil
                    Status := status
                    State := state
                    FreeUntil := freeUntil
                    CreatedAt := now
                    UpdatedAt := now
                    LastValidatedAt := now
                    OrganizationID := organizationID }

/-- Go: `NewLicense`. -/
def NewLicense (x : Env) (now : Time) (data : String) (organizationID : UUID) :
    Except GoError License :=
  match x.Unmarshal data with
  | .error err =>
    .error (Wrapf err .TypeInternal .CodeInternal "failed to unmarshal license data")
  | .ok licenseData => NewLicenseFromMap x now licenseData organizationID

/-- Go: `NewSyntheticCloudLicense`; `now` is the value of `time.Now()`. -/
def NewSyntheticCloudLicense (x : Env) (now : Time) (organizationID : UUID) : License :=
  let createdAt := x.FormatRFC3339 now
  let data : GoMap :=
    [ ("key", .string ""),
      ("status", .string "VALID"),
      ("state", .string "ACTIVE"),
      ("platform", .string "CLOUD"),
      ("created_at", .string createdAt),
      ("updated_at", .string createdAt),
      ("plan", .map
        [ ("name", .string "cloud"),
          ("is_active", .bool true),
          ("description", .string ""),
          ("created_at", .string createdAt),
          ("updated_at", .string createdAt) ]),
      ("plan_id", .string ""),
      ("free_until", .string ""),
      ("valid_from", .float64 (Float64.ofInt 0)),
      ("valid_until", .float64 (Float64.ofInt (-1))),
      ("event_queue", .map
        [ ("event", .string ""),
          ("status", .string ""),
          ("scheduled_at", .string ""),
          ("created_at", .string createdAt),
          ("updated_at", .string createdAt) ]),
      ("features", .features (AllFeatures x)) ]
  { ID := UUID.zero
    Key := ""
    Data := data
    PlanName := x.NewString "cloud"
    Features := AllFeatures x
    Status := x.NewString "VALID"
    State := "ACTIVE"
    FreeUntil := Time.zero
    ValidFrom := 0
    ValidUntil := -1
    CreatedAt := now
    UpdatedAt := now
    LastValidatedAt := now
    OrganizationID := organizationID }

/-- Go: `License.Update`. The receiver is passed in and returned: the result is the license
after the call and the error. `now` is the clock `NewLicense` reads, `currentTime` the value of
the later `time.Now()`. -/
def License.Update (x : Env) (now currentTime : Time) (license : License) (data : String) :
    License × Option GoError :=
  match NewLicense x now data license.OrganizationID with
  | .error err => (license, some err)
  | .ok updatedLicense =>
    ({ license with
        Data := updatedLicense.Data
        Features := updatedLicense.Features
        ID := updatedLicense.ID
        Key := updatedLicense.Key
        PlanName := updatedLicense.PlanName
        Status := updatedLicense.Status
        ValidFrom := updatedLicense.ValidFrom
        ValidUntil := updatedLicense.ValidUntil
        UpdatedAt := currentTime
        LastValidatedAt := currentTime }, none)

/-- Go: `licensetypes.PostableLicense`. -/
structure PostableLicense where
  Key : String
  deriving DecidableEq, Repr

/-- Go: `PostableLicense.UnmarshalJSON`. The receiver is passed in and returned: the result is
the receiver after the call and the error. `decodeKey` is `json.Unmarshal(data,
&postableLicense)` for the local struct with the one field `Key`: its error, or the value of
`Key` after decoding (the empty string when nothing was decoded into it). -/
def PostableLicense.UnmarshalJSON (decodeKey : String → Except GoError String)
    (p : PostableLicense) (data : String) : PostableLicense × Option GoError :=
  match decodeKey data with
  | .error _ =>
    (p, some (Newf .TypeInvalidInput .CodeInvalidInput "failed to unmarshal payload"))
  | .ok key =>
    if key = "" then
      (p, some (Newf .TypeInvalidInput .CodeInvalidInput "license key cannot be empty"))
    else ({ p with Key := key }, none)

/-- The array a `[]*Feature` value points to: the array of the package variable `AllFeatures`,
or an array the call allocated. -/
inductive Backing where
  | AllFeatures
  | allocated
  deriving DecidableEq, Repr

/-- A Go slice `[]*Feature`: the array it points to and its elements. -/
structure FeatureSlice where
  backing : Backing
  elems : List Feature

end Licensetypes

/-! ## `ee/licensing/httplicensing/provider.go` -/

namespace Httplicensing

open Licensetypes

/-- Go: `provider.GetActive`. `getAll` is the result of `provider.store.GetAll`; `nowUnix` is
the clock the selector reads and `now` the clock the synthetic license is stamped with. -/
def GetActive (x : Env) (getAll : Except GoError (List StorableLicense)) (nowUnix : Int)
    (now : Time) (organizationID : UUID) : Except GoError License :=
  match getAll with
  | .error err => .error err
  | .ok storableLicenses =>
    match GetActiveLicenseFromStorableLicenses x nowUnix storableLicenses organizationID with
    | .error err =>
      if Ast err .TypeNotFound then .ok (NewSyntheticCloudLicense x now organizationID)
      else .error err
    | .ok activeLicense => .ok activeLicense

/-- Go: `provider.Activate`. `GetLicense` is `provider.zeus.GetLicense` and `Create` is
`provider.store.Create`; the result is the error returned and the records `Create` was called
with, in call order. -/
def Activate (x : Env) (now : Time) (GetLicense : String → Except GoError String)
    (Create : StorableLicense → Option GoError) (organizationID : UUID) (key : String) :
    Option GoError × List StorableLicense :=
  match GetLicense key with
  | .error err =>
    (some (Wrapf err .TypeInternal .CodeInternal
      "unable to fetch license data with upstream server"), [])
  | .ok data =>
    match NewLicense x now data organizationID with
    | .error err =>
      (some (Wrapf err .TypeInternal .CodeInternal "failed to create license entity"), [])
    | .ok license =>
      let storableLicense := NewStorableLicenseFromLicense license
      (Create storableLicense, [storableLicense])

/-- Go: `provider.GetFeatureFlags`: it returns the package variable `AllFeatures` and no
error. -/
def GetFeatureFlags (x : Env) (_organizationID : UUID) : FeatureSlice × Option GoError :=
  (⟨.AllFeatures, AllFeatures x⟩, none)

end Httplicensing

/-! ## `ee/zeus/httpzeus/provider.go` -/

namespace Httpzeus

open Licensetypes

/-- Go: `*http.Response` as far as `Provider.do` reads it: the status code and the result of
`io.ReadAll(response.Body)`. -/
structure Response where
  StatusCode : Int
  Body : Except GoError String

/-- Go: `Provider.errFromStatusCode`. -/
def errFromStatusCode (statusCode : Int) : GoError :=
  if statusCode = 400 then Newf .TypeInvalidInput .CodeInvalidInput "bad request"
  else if statusCode = 401 then Newf .TypeUnauthenticated .CodeUnauthenticated "unauthenticated"
  else if statusCode = 403 then Newf .TypeForbidden .CodeForbidden "forbidden"
  else if statusCode = 404 then Newf .TypeNotFound .CodeNotFound "not found"
  else Newf .TypeInternal .CodeInternal "internal"

/-- Go: `Provider.do` (`do` is a keyword of Lean). `newRequest` is the error of
`http.NewRequestWithContext`, `clientDo` the result of `provider.httpClient.Do`; the integer
division of Go truncates towards zero. -/
def doRequest (newRequest : Option GoError) (clientDo : Except GoError Response) :
    Except GoError String :=
  match newRequest with
  | some err => .error err
  | none =>
    match clientDo with
    | .error err => .error err
    | .ok response =>
      match response.Body with
      | .error err => .error err
      | .ok body =>
        if Int.tdiv response.StatusCode 100 = 2 then .ok body
        else .error (errFromStatusCode response.StatusCode)

end Httpzeus

/-! ## `ee/query-service/app/api/featureFlags.go` -/

namespace Api

open Licensetypes

/-- What the handler does with the response writer: `render.Error`, a panic of
`valuer.MustNewUUID`, or `ah.Respond` with the feature set. -/
inductive Rendered where
  | error (err : GoError)
  | panic
  | respond (featureSet : List Feature)

/-- Go: the statement `featureSet[idx].Active = true` under its two conditions, on one
feature. -/
def forceDotMetrics (x : Env) (IsDotMetricsEnabled : Bool) (feature : Feature) : Feature :=
  if IsDotMetricsEnabled && (feature.Name == DotMetricsEnabled x)
  then { feature with Active := true } else feature

/-- Go: `APIHandler.getFeatureFlags`. The entries of `AllFeatures` are pointers to shared
features: `catalog` holds the values of those features before the call, and the second
component of the result their values after it. `copy` copies the pointers, so the assignment
to `Active` in the loop writes to the shared feature. `claims` is the result of
`authtypes.ClaimsFromContext` (the `OrgID` of the claims), `BooleanOrEmpty` the evaluation of
the flag by the flagger, `FeatureUseSpanMetrics` the name of the flag and
`IsDotMetricsEnabled` the constant of package `constants`. -/
def getFeatureFlags (x : Env) (FeatureUseSpanMetrics : String) (IsDotMetricsEnabled : Bool)
    (claims : Except GoError String) (BooleanOrEmpty : UUID → Bool) (catalog : List Feature) :
    Rendered × List Feature :=
  match claims with
  | .error err => (.error err, catalog)
  | .ok claimsOrgID =>
    match x.NewUUID claimsOrgID with
    | .error _ => (.panic, catalog)
    | .ok orgID =>
      let useSpanMetrics := BooleanOrEmpty orgID
      let added : Feature :=
        { Name := x.NewString FeatureUseSpanMetrics
          Active := useSpanMetrics
          Usage := 0
          UsageLimit := -1
          Route := "" }
      let catalog := catalog.map (forceDotMetrics x IsDotMetricsEnabled)
      let added := forceDotMetrics x IsDotMetricsEnabled added
      (.respond (catalog ++ [added]), catalog)

/-- The handler called `n` times in a row: what each call renders and the values of the shared
features after the last call. -/
def getFeatureFlagsTimes (x : Env) (FeatureUseSpanMetrics : String) (IsDotMetricsEnabled : Bool)
    (claims : Except GoError String) (BooleanOrEmpty : UUID → Bool) :
    Nat → List Feature → List Rendered × List Feature
  | 0, catalog => ([], catalog)
  | n + 1, catalog =>
    let first := getFeatureFlags x FeatureUseSpanMetrics IsDotMetricsEnabled claims
      BooleanOrEmpty catalog
    let rest := getFeatureFlagsTimes x FeatureUseSpanMetrics IsDotMetricsEnabled claims
      BooleanOrEmpty n first.2
    (first.1 :: rest.1, rest.2)

end Api

/-! ## A concrete environment

The external functions as far as the examples below need them, for evaluating the code on
concrete inputs. -/

namespace Sample

open Licensetypes

/-- Whether `c` is a hexadecimal digit. -/
def isHex (c : Char) : Bool :=
  c.isDigit || (decide ('a' ≤ c) && decide (c ≤ 'f')) || (decide ('A' ≤ c) && decide (c ≤ 'F'))

/-- Whether 36 characters have the shape `xxxxxxxx-xxxx-xxxx-xxxx-xxxxxxxxxxxx`. -/
def canonicalShape (cs : List Char) : Bool :=
  cs.length == 36 &&
    (List.range 36).all (fun i =>
      if i == 8 || i == 13 || i == 18 || i == 23 then cs.getD i ' ' == '-'
      else isHex (cs.getD i ' '))

/-- The `uuid.Parse` of `github.com/google/uuid`, which `valuer.NewUUID` calls, on ASCII
strings: the canonical form, the same after `urn:uuid:` or inside one leading and one trailing
character, and 32 hexadecimal digits are accepted; the result is the lower-case canonical
form. -/
def NewUUID (s : String) : Except GoError UUID :=
  let cs := s.toList
  let canon (ds : List Char) : Except GoError UUID :=
    if canonicalShape ds then .ok ⟨String.mk (ds.map Char.toLower)⟩
    else .error (.foreign "invalid UUID format")
  if cs.length == 36 then canon cs
  else if cs.length == 45 then
    if (cs.take 9).map Char.toLower == "urn:uuid:".toList then canon (cs.drop 9)
    else .error (.foreign "invalid urn prefix")
  else if cs.length == 38 then canon ((cs.drop 1).take 36)
  else if cs.length == 32 then
    if cs.all isHex then
      let ds := cs.map Char.toLower
      .ok ⟨String.mk (ds.take 8 ++ [ '-' ] ++ (ds.drop 8).take 4 ++ [ '-' ] ++ (ds.drop 12).take 4
        ++ [ '-' ] ++ (ds.drop 16).take 4 ++ [ '-' ] ++ ds.drop 20)⟩
    else .error (.foreign "invalid UUID format")
  else .error (.foreign ("invalid UUID length: " ++ toString cs.length))

/-- Whether `c` is ASCII white space. -/
def isSpace (c : Char) : Bool :=
  c == ' ' || c == '\t' || c == '\n' || c == '\r'

/-- The `valuer.NewString` of the repository on ASCII strings: surrounding white space is
removed and letters are lower-cased. -/
def NewString (s : String) : ValuerString :=
  ⟨String.mk ((((s.toList.dropWhile isSpace).reverse.dropWhile isSpace).reverse).map Char.toLower)⟩

/-- The value of a run of decimal digits. -/
def digitsValue (cs : List Char) : Nat :=
  cs.foldl (fun n c => 10 * n + (c.toNat - '0'.toNat)) 0

/-- The number of days from 1970-01-01 to the given civil date. -/
def daysFromCivil (y m d : Int) : Int :=
  let y := if m ≤ 2 then y - 1 else y
  let era := Int.fdiv y 400
  let yoe := y - era * 400
  let mp := if m > 2 then m - 3 else m + 9
  let doy := Int.fdiv (153 * mp + 2) 5 + d - 1
  let doe := yoe * 365 + Int.fdiv yoe 4 - Int.fdiv yoe 100 + doy
  era * 146097 + doe - 719468

/-- The number of days of month `m` in year `y`. -/
def daysIn (y m : Int) : Int :=
  if m == 2 then (if (y % 4 == 0 && y % 100 != 0) || y % 400 == 0 then 29 else 28)
  else if m == 4 || m == 6 || m == 9 || m == 11 then 30 else 31

/-- The RFC 3339 parser restricted to the form `YYYY-MM-DDTHH:MM:SSZ`; every other string,
the empty string in particular, is rejected. -/
def ParseRFC3339 (s : String) : Except GoError Time :=
  let cs := s.toList
  let shape := cs.length == 20 &&
    (List.range 20).all (fun i =>
      if i == 4 || i == 7 then cs.getD i ' ' == '-'
      else if i == 10 then cs.getD i ' ' == 'T'
      else if i == 13 || i == 16 then cs.getD i ' ' == ':'
      else if i == 19 then cs.getD i ' ' == 'Z'
      else (cs.getD i ' ').isDigit)
  let y : Int := digitsValue (cs.take 4)
  let m : Int := digitsValue ((cs.drop 5).take 2)
  let d : Int := digitsValue ((cs.drop 8).take 2)
  let hh : Int := digitsValue ((cs.drop 11).take 2)
  let mm : Int := digitsValue ((cs.drop 14).take 2)
  let ss : Int := digitsValue ((cs.drop 17).take 2)
  if shape && decide (1 ≤ m) && decide (m ≤ 12) && decide (1 ≤ d) && decide (d ≤ daysIn y m)
      && decide (hh < 24) && decide (mm < 60) && decide (ss < 60)
  then .ok ⟨daysFromCivil y m d * 86400 + hh * 3600 + mm * 60 + ss⟩
  else .error (.foreign ("parsing time " ++ s ++ ": cannot parse as RFC 3339"))

/-- A decimal number padded with zeros on the left to `w` digits. -/
def pad (w : Nat) (n : Int) : String :=
  let ds := (Nat.toDigits 10 n.toNat)
  String.mk (List.replicate (w - ds.length) '0' ++ ds)

/-- The RFC 3339 text of a time in UTC, `YYYY-MM-DDTHH:MM:SSZ`. -/
def FormatRFC3339 (t : Time) : String :=
  let days := Int.fdiv t.unix 86400
  let secs := t.unix - days * 86400
  let z := days + 719468
  let era := Int.fdiv z 146097
  let doe := z - era * 146097
  let yoe := Int.fdiv (doe - Int.fdiv doe 1460 + Int.fdiv doe 36524 - Int.fdiv doe 146096) 365
  let doy := doe - (365 * yoe + Int.fdiv yoe 4 - Int.fdiv yoe 100)
  let mp := Int.fdiv (5 * doy + 2) 153
  let d := doy - Int.fdiv (153 * mp + 2) 5 + 1
  let m := if mp < 10 then mp + 3 else mp - 9
  let y := yoe + era * 400 + (if m ≤ 2 then 1 else 0)
  pad 4 y ++ "-" ++ pad 2 m ++ "-" ++ pad 2 d ++ "T" ++ pad 2 (Int.fdiv secs 3600) ++ ":"
    ++ pad 2 (Int.fdiv (secs % 3600) 60) ++ ":" ++ pad 2 (secs % 60) ++ "Z"

/-- The concrete environment. `Unmarshal` is given by the table `payloads` of JSON texts and
the maps they decode to; a text that is not in the table is rejected. -/
def env (payloads : List (String × GoMap)) : Env :=
  { NewUUID := NewUUID
    NewString := NewString
    ParseRFC3339 := ParseRFC3339
    FormatRFC3339 := FormatRFC3339
    Unmarshal := fun data =>
      match List.lookup data payloads with
      | some m => .ok m
      | none => .error (.foreign "invalid character") }

/-- A stored record whose data holds `status`, `plan.name`, `valid_from` and `valid_until`. -/
def record (id key : String) (validFrom validUntil : Int) : StorableLicense :=
  { ID := ⟨id⟩
    CreatedAt := ⟨1700000000⟩
    UpdatedAt := ⟨1700000000⟩
    Key := key
    Data :=
      [ ("status", .string "VALID"),
        ("plan", .map [ ("name", .string "ENTERPRISE") ]),
        ("valid_from", .float64 (Float64.ofInt validFrom)),
        ("valid_until", .float64 (Float64.ofInt validUntil)) ]
    LastValidatedAt := ⟨1700000000⟩
    OrgID := ⟨"0196f794-ff30-7bee-a5f4-ef5ad315715e"⟩ }

/-- The organization of the examples. -/
def org : UUID := ⟨"0196f794-ff30-7bee-a5f4-ef5ad315715e"⟩

/-- A stored record with an empty data map. -/
def emptyRecord (id key : String) : StorableLicense :=
  { ID := ⟨id⟩
    CreatedAt := ⟨1700000000⟩
    UpdatedAt := ⟨1700000000⟩
    Key := key
    Data := []
    LastValidatedAt := ⟨1700000000⟩
    OrgID := ⟨"0196f794-ff30-7bee-a5f4-ef5ad315715e"⟩ }

/-- Three records that are eligible at time 1700000000; the last two have the same
`valid_from`. -/
def tieRecords : List StorableLicense :=
  [ record "00000000-0000-0000-0000-00000000000a" "key-a" 1500000000 (-1),
    record "00000000-0000-0000-0000-00000000000b" "key-b" 1600000000 (-1),
    record "00000000-0000-0000-0000-00000000000c" "key-c" 1600000000 (-1) ]

/-- The license of the second record of `tieRecords`. -/
def tieLicense : License :=
  { ID := ⟨"00000000-0000-0000-0000-00000000000b"⟩
    Key := "key-b"
    Data := (record "" "" 1600000000 (-1)).Data.set "features"
      (.features (AllFeatures (env [])))
    PlanName := ⟨"enterprise"⟩
    Features := AllFeatures (env [])
    Status := ⟨"valid"⟩
    State := ""
    FreeUntil := Time.zero
    ValidFrom := 1600000000
    ValidUntil := -1
    CreatedAt := ⟨1700000000⟩
    UpdatedAt := ⟨1700000000⟩
    LastValidatedAt := ⟨1700000000⟩
    OrganizationID := org }

/-- The text of a license payload as the upstream authority sends it. -/
def payloadText : String :=
  "\x7b\"id\":\"0196f794-ff30-7bee-a5f4-ef5ad315715f\",\"key\":\"key-a\",\"status\":\"VALID\"," ++
  "\"plan\":\x7b\"name\":\"ENTERPRISE\"\x7d,\"state\":\"EVALUATING\"," ++
  "\"free_until\":\"2023-10-05T14:48:00Z\",\"valid_from\":1600000000,\"valid_until\":-1\x7d"

/-- The map `json.Unmarshal` decodes `payloadText` to. -/
def payloadMap : GoMap :=
  [ ("id", .string "0196f794-ff30-7bee-a5f4-ef5ad315715f"),
    ("key", .string "key-a"),
    ("status", .string "VALID"),
    ("plan", .map [ ("name", .string "ENTERPRISE") ]),
    ("state", .string "EVALUATING"),
    ("free_until", .string "2023-10-05T14:48:00Z"),
    ("valid_from", .float64 (Float64.ofInt 1600000000)),
    ("valid_until", .float64 (Float64.ofInt (-1))) ]

/-- The license `NewLicense` builds from `payloadText` at time 1700000000. -/
def payloadLicense : License :=
  { ID := ⟨"0196f794-ff30-7bee-a5f4-ef5ad315715f"⟩
    Key := "key-a"
    Data :=
      [ ("features", .features (AllFeatures (env []))),
        ("status", .string "VALID"),
        ("plan", .map [ ("name", .string "ENTERPRISE") ]),
        ("state", .string "EVALUATING"),
        ("free_until", .string "2023-10-05T14:48:00Z"),
        ("valid_from", .float64 (Float64.ofInt 1600000000)),
        ("valid_until", .float64 (Float64.ofInt (-1))) ]
    PlanName := ⟨"enterprise"⟩
    Features := AllFeatures (env [])
    Status := ⟨"valid"⟩
    State := "EVALUATING"
    FreeUntil := ⟨1696517280⟩
    ValidFrom := 1600000000
    ValidUntil := -1
    CreatedAt := ⟨1700000000⟩
    UpdatedAt := ⟨1700000000⟩
    LastValidatedAt := ⟨1700000000⟩
    OrganizationID := org }

/-- The map `json.Unmarshal` decodes `badIdText` to. -/
def badIdMap : GoMap :=
  [ ("id", .string ""),
    ("status", .string "VALID"),
    ("plan", .map [ ("name", .string "ENTERPRISE") ]) ]

/-- The text of a license payload that has no `plan`. -/
def noPlanText : String :=
  "\x7b\"id\":\"0196f794-ff30-7bee-a5f4-ef5ad315715f\",\"key\":\"key-a\",\"status\":\"VALID\"\x7d"

/-- The map `json.Unmarshal` decodes `noPlanText` to. -/
def noPlanMap : GoMap :=
  [ ("id", .string "0196f794-ff30-7bee-a5f4-ef5ad315715f"),
    ("key", .string "key-a"),
    ("status", .string "VALID") ]

/-- The text of a license payload whose `id` is the empty string and which has no `key`. -/
def badIdText : String :=
  "\x7b\"id\":\"\",\"status\":\"VALID\",\"plan\":\x7b\"name\":\"ENTERPRISE\"\x7d\x7d"

/-- The text of a license payload with a non-string `state`, an unparseable `free_until`, no
`valid_from`, a fractional `valid_until` and an `id` entry inside `plan`. -/
def sparseText : String :=
  "\x7b\"id\":\"0196f794-ff30-7bee-a5f4-ef5ad315715f\",\"key\":\"key-a\",\"status\":\"VALID\"," ++
  "\"plan\":\x7b\"name\":\"ENTERPRISE\",\"id\":\"p-1\"\x7d,\"state\":7," ++
  "\"free_until\":\"soon\",\"valid_until\":1800000000.5,\"features\":[]\x7d"

/-- The map `json.Unmarshal` decodes `sparseText` to. -/
def sparseMap : GoMap :=
  [ ("id", .string "0196f794-ff30-7bee-a5f4-ef5ad315715f"),
    ("key", .string "key-a"),
    ("status", .string "VALID"),
    ("plan", .map [ ("name", .string "ENTERPRISE"), ("id", .string "p-1") ]),
    ("state", .float64 (Float64.ofInt 7)),
    ("free_until", .string "soon"),
    ("valid_until", .float64 ⟨3600000001, -1⟩),
    ("features", .slice []) ]

/-- A stored record with the given `status` and `state`; `plan` is present when `withPlan`
holds. -/
def taggedRecord (id key status state : String) (withPlan : Bool)
    (validFrom validUntil : Int) : StorableLicense :=
  { ID := ⟨id⟩
    CreatedAt := ⟨1700000000⟩
    UpdatedAt := ⟨1700000000⟩
    Key := key
    Data :=
      [ ("status", .string status), ("state", .string state) ] ++
      (if withPlan then [ ("plan", .map [ ("name", .string "ENTERPRISE") ]) ] else []) ++
      [ ("valid_from", .float64 (Float64.ofInt validFrom)),
        ("valid_until", .float64 (Float64.ofInt validUntil)) ]
    LastValidatedAt := ⟨1700000000⟩
    OrgID := ⟨"0196f794-ff30-7bee-a5f4-ef5ad315715e"⟩ }

/-- The license `NewLicense` builds from `sparseText` at time 1700000000. -/
def sparseLicense : License :=
  { ID := ⟨"0196f794-ff30-7bee-a5f4-ef5ad315715f"⟩
    Key := "key-a"
    Data :=
      [ ("features", .features (AllFeatures (env []))),
        ("status", .string "VALID"),
        ("plan", .map [ ("name", .string "ENTERPRISE"), ("id", .string "p-1") ]),
        ("state", .float64 (Float64.ofInt 7)),
        ("free_until", .string "soon"),
        ("valid_until", .float64 ⟨3600000001, -1⟩) ]
    PlanName := ⟨"enterprise"⟩
    Features := AllFeatures (env [])
    Status := ⟨"valid"⟩
    State := ""
    FreeUntil := Time.zero
    ValidFrom := 0
    ValidUntil := 1800000000
    CreatedAt := ⟨1700000000⟩
    UpdatedAt := ⟨1700000000⟩
    LastValidatedAt := ⟨1700000000⟩
    OrganizationID := org }

/-- The text of a later payload for the same license: `state` is "ACTIVE" and there is no
`free_until`. -/
def renewalText : String :=
  "\x7b\"id\":\"0196f794-ff30-7bee-a5f4-ef5ad315715f\",\"key\":\"key-a\",\"status\":\"VALID\"," ++
  "\"plan\":\x7b\"name\":\"ENTERPRISE\"\x7d,\"state\":\"ACTIVE\"," ++
  "\"valid_from\":1600000000,\"valid_until\":-1\x7d"

/-- The map `json.Unmarshal` decodes `renewalText` to. -/
def renewalMap : GoMap :=
  [ ("id", .string "0196f794-ff30-7bee-a5f4-ef5ad315715f"),
    ("key", .string "key-a"),
    ("status", .string "VALID"),
    ("plan", .map [ ("name", .string "ENTERPRISE") ]),
    ("state", .string "ACTIVE"),
    ("valid_from", .float64 (Float64.ofInt 1600000000)),
    ("valid_until", .float64 (Float64.ofInt (-1))) ]

/-- The decoding of a request body into the struct with the field `Key`, by a table of the
bodies and what they decode to; a body that is not in the table is rejected. -/
def decodeKey (bodies : List (String × String)) (data : String) : Except GoError String :=
  match List.lookup data bodies with
  | some key => .ok key
  | none => .error (.foreign "invalid character")

/-- A stored record whose data holds a `features` entry of its own. -/
def featureRecord : StorableLicense :=
  { ID := ⟨"00000000-0000-0000-0000-00000000000a"⟩
    CreatedAt := ⟨1700000000⟩
    UpdatedAt := ⟨1700000000⟩
    Key := "key-a"
    Data :=
      [ ("status", .string "VALID"),
        ("features", .slice [ .string "sso" ]),
        ("plan", .map [ ("name", .string "ENTERPRISE") ]),
        ("valid_from", .float64 (Float64.ofInt 1600000000)),
        ("valid_until", .float64 (Float64.ofInt (-1))) ]
    LastValidatedAt := ⟨1700000000⟩
    OrgID := org }

/-- The license `NewLicenseFromStorableLicense` builds from `featureRecord`. -/
def featureLicense : License :=
  { ID := ⟨"00000000-0000-0000-0000-00000000000a"⟩
    Key := "key-a"
    Data :=
      [ ("features", .features (AllFeatures (env []))),
        ("status", .string "VALID"),
        ("plan", .map [ ("name", .string "ENTERPRISE") ]),
        ("valid_from", .float64 (Float64.ofInt 1600000000)),
        ("valid_until", .float64 (Float64.ofInt (-1))) ]
    PlanName := ⟨"enterprise"⟩
    Features := AllFeatures (env [])
    Status := ⟨"valid"⟩
    State := ""
    FreeUntil := Time.zero
    ValidFrom := 1600000000
    ValidUntil := -1
    CreatedAt := ⟨1700000000⟩
    UpdatedAt := ⟨1700000000⟩
    LastValidatedAt := ⟨1700000000⟩
    OrganizationID := org }

end Sample

/-! ## Predicates of the specification -/

namespace Spec

open Licensetypes

/-- Selector, eligibility: `validFrom != 0` and (`validUntil == -1` or `validUntil > now`). -/
def eligible (now : Int) (license : License) : Bool :=
  (license.ValidFrom != 0) && (license.ValidUntil == -1 || decide (license.ValidUntil > now))

/-- A record parses: `NewLicenseFromStorableLicense` returns a license for it. -/
def parses (x : Env) (s : StorableLicense) : Bool :=
  match NewLicenseFromStorableLicense x s with
  | .ok _ => true
  | .error _ => false

/-- A record is an eligible candidate: it parses and its license is eligible. -/
def eligibleRecord (x : Env) (now : Int) (s : StorableLicense) : Bool :=
  match NewLicenseFromStorableLicense x s with
  | .ok license => eligible now license
  | .error _ => false

/-- The `validFrom` of a record: that of its license, and `0` when it does not parse. -/
def validFromOf (x : Env) (s : StorableLicense) : Int :=
  match NewLicenseFromStorableLicense x s with
  | .ok license => license.ValidFrom
  | .error _ => 0

/-- A record is currently valid: it parses, `validFrom != 0`, `validFrom <= now`, and
`validUntil == -1` or `validUntil > now`. -/
def currentlyValidRecord (x : Env) (now : Int) (s : StorableLicense) : Bool :=
  match NewLicenseFromStorableLicense x s with
  | .ok license =>
    (license.ValidFrom != 0) && decide (license.ValidFrom ≤ now) &&
      (license.ValidUntil == -1 || decide (license.ValidUntil > now))
  | .error _ => false

/-- A record is future-dated and not expired: it parses, `validFrom > now`, and
`validUntil == -1` or `validUntil > now`. -/
def futureDatedRecord (x : Env) (now : Int) (s : StorableLicense) : Bool :=
  match NewLicenseFromStorableLicense x s with
  | .ok license =>
    decide (license.ValidFrom > now) &&
      (license.ValidUntil == -1 || decide (license.ValidUntil > now))
  | .error _ => false

/-- The error the selector reports when no license is active. -/
def notFoundError (organizationID : UUID) : GoError :=
  .base .TypeNotFound .CodeNotFound
    ("no active license found for the organization " ++ organizationID.val)

/-- The state of the scan after the records `pre`: with no active license, no record of `pre`
is eligible; with the active license `A` of position `k`, the record at `k` parses to `A`, no
eligible record of `pre` has a greater `validFrom`, and every eligible record before `k` has
a smaller one. -/
def scanned (x : Env) (now : Int) (pre : List StorableLicense) :
    Option (Nat × License) → Prop
  | none => ∀ s ∈ pre, eligibleRecord x now s = false
  | some (k, A) =>
    (∃ s, pre[k]? = some s ∧ NewLicenseFromStorableLicense x s = .ok A) ∧
    (∀ (j : Nat) s, pre[j]? = some s → eligibleRecord x now s = true →
      validFromOf x s ≤ A.ValidFrom) ∧
    (∀ (j : Nat) s, j < k → pre[j]? = some s → eligibleRecord x now s = true →
      validFromOf x s < A.ValidFrom)

/-- Whether a map entry is present and a string. -/
def isString : Option Value → Bool
  | some (.string _) => true
  | _ => false

/-- The first required entry, in the order `id`, `key`, `status`, `plan`, `name` of `plan`,
that is absent or has the wrong type (not a string, not an object for `plan`). -/
def firstOffending (m : GoMap) : Option String :=
  if !isString (m.get "id") then some "id"
  else if !isString (m.get "key") then some "key"
  else if !isString (m.get "status") then some "status"
  else
    match m.get "plan" with
    | some (.map plan) => if !isString (GoMap.get plan "name") then some "name" else none
    | _ => some "plan"

/-- The `id` entry, when it is a string, is read by `valuer.NewUUID`. -/
def idReadable (x : Env) (m : GoMap) : Bool :=
  match m.get "id" with
  | some (.string s) =>
    match x.NewUUID s with
    | .ok _ => true
    | .error _ => false
  | _ => true

/-- The message of the error names the key `k`: it is one of the messages of
`extractKeyFromMapStringInterface` for `k`. -/
def namesKey (e : GoError) (k : String) : Bool :=
  e.message == k ++ " key is missing" ||
    e.message == k ++ " key is not a valid string" ||
    e.message == k ++ " key is not a valid map[string]interface \x7b\x7d"

/-- The `state` of a decoded payload: the entry when it is a string, the empty string when it
is absent or not a string. -/
def stateOf (m : GoMap) : String :=
  match m.get "state" with
  | some (.string v) => v
  | _ => ""

/-- The `free_until` of a decoded payload: the time of the entry when it is a string that
parses, the zero time when it is absent, not a string or unparseable. -/
def freeUntilOf (x : Env) (m : GoMap) : Time :=
  match m.get "free_until" with
  | some (.string v) =>
    match x.ParseRFC3339 v with
    | .ok t => t
    | .error _ => Time.zero
  | _ => Time.zero

/-- The number under `k` of a decoded payload as an integer: the entry converted to `int64`
when it is a number, `0` when it is absent or not a number. -/
def numberOf (m : GoMap) (k : String) : Int :=
  match m.get k with
  | some (.float64 f) => f.toInt64
  | _ => 0

/-- The license holds the `id` and the `key` of the decoded payload `m` in its typed fields and
not in its data map. -/
def promoted (x : Env) (m : GoMap) (L : License) : Prop :=
  L.Data.get "id" = none ∧ L.Data.get "key" = none ∧
    (∃ idStr, m.get "id" = some (.string idStr) ∧ x.NewUUID idStr = .ok L.ID) ∧
    m.get "key" = some (.string L.Key)

/-- The entries of two data maps under `k` are the same, or both are strings. -/
def sameOrStrings (d1 d2 : GoMap) (k : String) : Prop :=
  d1.get k = d2.get k ∨ (isString (d1.get k) = true ∧ isString (d2.get k) = true)

/-- Two stored records differ only in the string values their data hold under `status` and
`state`. -/
def differOnlyInStatusState (r1 r2 : StorableLicense) : Prop :=
  r1.ID = r2.ID ∧ r1.Key = r2.Key ∧ r1.CreatedAt = r2.CreatedAt ∧
    r1.UpdatedAt = r2.UpdatedAt ∧ r1.LastValidatedAt = r2.LastValidatedAt ∧
    r1.OrgID = r2.OrgID ∧
    (∀ k, k ≠ "status" → k ≠ "state" → r1.Data.get k = r2.Data.get k) ∧
    sameOrStrings r1.Data r2.Data "status" ∧ sameOrStrings r1.Data r2.Data "state"

/-- What the selector compares of its running active license: the list position and the
`validFrom`. -/
def selectionKey (a : Option (Nat × License)) : Option (Nat × Int) :=
  a.map (fun p => (p.1, p.2.ValidFrom))

/-- The entry of the dynamic flag in the feature-flag listing: the name of the flag, `Active`
the result of the evaluation, `Usage` 0, `UsageLimit` -1 and no route. -/
def dynamicFlag (x : Env) (name : String) (active : Bool) : Feature :=
  { Name := x.NewString name, Active := active, Usage := 0, UsageLimit := -1, Route := "" }

/-- The typed fields of a license agree with its data map: `PlanName` is the `valuer.String` of
`Data["plan"]["name"]`, `Status` that of `Data["status"]`, `State` is `Data["state"]` or "",
`FreeUntil` the parsed `Data["free_until"]` or the zero time, `ValidFrom` and `ValidUntil` are
`Data["valid_from"]` and `Data["valid_until"]` or 0. -/
def agreesWithData (x : Env) (L : License) : Prop :=
  (∃ planMap name, L.Data.get "plan" = some (.map planMap) ∧
      GoMap.get planMap "name" = some (.string name) ∧ L.PlanName = x.NewString name) ∧
    (∃ status, L.Data.get "status" = some (.string status) ∧ L.Status = x.NewString status) ∧
    L.State = stateOf L.Data ∧ L.FreeUntil = freeUntilOf x L.Data ∧
    L.ValidFrom = numberOf L.Data "valid_from" ∧ L.ValidUntil = numberOf L.Data "valid_until"

end Spec

/-! ## Lemmas on maps and extraction -/

namespace Licensetypes

theorem GoMap.get_delete_ne (m : GoMap) (k k2 : String) (h : k2 ≠ k) :
    (m.delete k).get k2 = m.get k2 := by
  have hb : (k2 == k) = false := by simpa using h
  unfold GoMap.delete GoMap.get
  induction m with
  | nil => rfl
  | cons e rest ih =>
    obtain ⟨a, b⟩ := e
    by_cases hak : a = k
    · subst hak
      simp [List.filter_cons, List.lookup_cons, hb, ih]
    · by_cases hk2 : k2 = a
      · subst hk2
        simp [List.filter_cons, List.lookup_cons, hak]
      · have hb2 : (k2 == a) = false := by simpa using hk2
        simp [List.filter_cons, List.lookup_cons, hak, hb2, ih]

theorem GoMap.get_set_ne (m : GoMap) (k k2 : String) (v : Value) (h : k2 ≠ k) :
    (m.set k v).get k2 = m.get k2 := by
  have hb : (k2 == k) = false := by simpa using h
  have hd := GoMap.get_delete_ne m k k2 h
  unfold GoMap.delete GoMap.get at hd
  unfold GoMap.set GoMap.get
  rw [List.lookup_cons, hb]
  exact hd

theorem GoMap.get_set_self (m : GoMap) (k : String) (v : Value) :
    (m.set k v).get k = some v := by
  simp [GoMap.set, GoMap.get, List.lookup_cons]

theorem GoMap.get_delete_self (m : GoMap) (k : String) :
    (m.delete k).get k = none := by
  unfold GoMap.delete GoMap.get
  induction m with
  | nil => rfl
  | cons e rest ih =>
    obtain ⟨a, b⟩ := e
    by_cases hak : a = k
    · subst hak
      simp [List.filter_cons, ih]
    · have hb : (k == a) = false := by simpa using (Ne.symm hak)
      simp [List.filter_cons, List.lookup_cons, hak, hb, ih]

theorem extract_error_typ {T : Type} (assertT : Value → Option T) (typeName : String)
    (data : GoMap) (key : String) (e : GoError)
    (h : extractKeyFromMapStringInterface assertT typeName data key = .error e) :
    e.typ = .TypeInvalidInput := by
  unfold extractKeyFromMapStringInterface at h
  split at h
  · split at h
    · cases h
    · cases h; rfl
  · cases h; rfl

theorem NewLicenseFromStorableLicense_error_typ (x : Env) (s : StorableLicense) (e : GoError)
    (h : NewLicenseFromStorableLicense x s = .error e) : e.typ = .TypeInvalidInput := by
  unfold NewLicenseFromStorableLicense at h
  split at h
  · rename_i err he
    cases h
    exact extract_error_typ _ _ _ _ _ he
  · split at h
    · rename_i err he
      cases h
      exact extract_error_typ _ _ _ _ _ he
    · split at h
      · rename_i err he
        cases h
        exact extract_error_typ _ _ _ _ _ he
      · cases h

end Licensetypes

/-! ## Lemmas on the selector -/

namespace Licensetypes

open Spec

theorem selectStep_none (now : Int) (L : License) :
    selectStep now none L = if eligible now L then some L else none := by
  unfold selectStep eligible notExpired
  by_cases h : ((L.ValidFrom != 0) && (L.ValidUntil == -1 || decide (L.ValidUntil > now))) = true
  · simp only [Option.isNone_none, Bool.true_and, h, if_true]
    simp
  · simp only [Option.isNone_none, Bool.true_and, h, if_false]
    simp

theorem selectStep_some (now : Int) (A L : License) :
    selectStep now (some A) L =
      if (decide (L.ValidFrom > A.ValidFrom) && notExpired now L) = true then some L
      else some A := by
  unfold selectStep
  simp

theorem eligible_notExpired (now : Int) (L : License) (h : eligible now L = true) :
    notExpired now L = true := by
  unfold eligible at h
  unfold notExpired
  simp only [Bool.and_eq_true] at h
  exact h.2

theorem selectStep_keeps (now : Int) (A L : License) :
    ∃ R, selectStep now (some A) L = some R ∧ A.ValidFrom ≤ R.ValidFrom := by
  rw [selectStep_some]
  by_cases h : (decide (L.ValidFrom > A.ValidFrom) && notExpired now L) = true
  · refine ⟨L, by simp [h], ?_⟩
    simp only [Bool.and_eq_true, decide_eq_true_eq] at h
    omega
  · exact ⟨A, by simp [h], le_refl _⟩

theorem selectStep_eligible (now : Int) (a : Option License) (L : License)
    (h : eligible now L = true) :
    ∃ R, selectStep now a L = some R ∧ L.ValidFrom ≤ R.ValidFrom := by
  cases a with
  | none => exact ⟨L, by simp [selectStep_none, h], le_refl _⟩
  | some A =>
    rw [selectStep_some]
    by_cases hc : (decide (L.ValidFrom > A.ValidFrom) && notExpired now L) = true
    · exact ⟨L, by simp [hc], le_refl _⟩
    · refine ⟨A, by simp [hc], ?_⟩
      have hne := eligible_notExpired now L h
      simp only [hne, Bool.and_true, decide_eq_true_eq] at hc
      omega

theorem selectStep_source (now : Int) (a : Option License) (L R : License)
    (h : selectStep now a L = some R) :
    a = some R ∨ (R = L ∧ notExpired now L = true) := by
  cases a with
  | none =>
    rw [selectStep_none] at h
    by_cases he : eligible now L = true
    · simp only [he, if_true, Option.some.injEq] at h
      exact Or.inr ⟨h.symm, eligible_notExpired now L he⟩
    · simp [he] at h
  | some A =>
    rw [selectStep_some] at h
    by_cases hc : (decide (L.ValidFrom > A.ValidFrom) && notExpired now L) = true
    · simp only [hc, if_true, Option.some.injEq] at h
      simp only [Bool.and_eq_true] at hc
      exact Or.inr ⟨h.symm, hc.2⟩
    · simp only [hc] at h
      simp only [Bool.false_eq_true, if_false, Option.some.injEq] at h
      exact Or.inl (by rw [h])

theorem selectLoop_total (x : Env) (now : Int) (l : List StorableLicense)
    (hp : ∀ s ∈ l, parses x s = true) (a : Option License) :
    ∃ r, selectLoop x now l a = .ok r := by
  induction l generalizing a with
  | nil => exact ⟨a, rfl⟩
  | cons s rest ih =>
    have hs := hp s (List.mem_cons_self _ _)
    unfold parses at hs
    unfold selectLoop
    cases hparse : NewLicenseFromStorableLicense x s with
    | error e => simp [hparse] at hs
    | ok L => exact ih (fun t ht => hp t (List.mem_cons_of_mem _ ht)) _

theorem selectLoop_error (x : Env) (now : Int) (l : List StorableLicense) (a : Option License)
    (e : GoError) (h : selectLoop x now l a = .error e) :
    ∃ s ∈ l, NewLicenseFromStorableLicense x s = .error e := by
  induction l generalizing a with
  | nil => simp [selectLoop] at h
  | cons s rest ih =>
    unfold selectLoop at h
    cases hparse : NewLicenseFromStorableLicense x s with
    | error e2 =>
      simp only [hparse] at h
      cases h
      exact ⟨s, List.mem_cons_self _ _, hparse⟩
    | ok L =>
      simp only [hparse] at h
      obtain ⟨t, ht, hte⟩ := ih _ h
      exact ⟨t, List.mem_cons_of_mem _ ht, hte⟩

theorem selectLoop_parses (x : Env) (now : Int) (l : List StorableLicense) (a r : Option License)
    (h : selectLoop x now l a = .ok r) : ∀ s ∈ l, parses x s = true := by
  induction l generalizing a with
  | nil => intro s hs; cases hs
  | cons s rest ih =>
    unfold selectLoop at h
    cases hparse : NewLicenseFromStorableLicense x s with
    | error e2 => simp [hparse] at h
    | ok L =>
      simp only [hparse] at h
      intro t ht
      rcases List.mem_cons.mp ht with rfl | ht
      · simp [parses, hparse]
      · exact ih _ h t ht

theorem selectLoop_keeps (x : Env) (now : Int) (l : List StorableLicense) (A : License)
    (r : Option License) (h : selectLoop x now l (some A) = .ok r) :
    ∃ R, r = some R ∧ A.ValidFrom ≤ R.ValidFrom := by
  induction l generalizing A with
  | nil =>
    simp only [selectLoop, Except.ok.injEq] at h
    exact ⟨A, h.symm, le_refl _⟩
  | cons s rest ih =>
    unfold selectLoop at h
    cases hparse : NewLicenseFromStorableLicense x s with
    | error e2 => simp [hparse] at h
    | ok L =>
      simp only [hparse] at h
      obtain ⟨B, hB, hAB⟩ := selectStep_keeps now A L
      rw [hB] at h
      obtain ⟨R, hR, hBR⟩ := ih B h
      exact ⟨R, hR, le_trans hAB hBR⟩

theorem selectLoop_dominates (x : Env) (now : Int) (l : List StorableLicense)
    (a r : Option License) (h : selectLoop x now l a = .ok r) :
    ∀ s ∈ l, ∀ L, NewLicenseFromStorableLicense x s = .ok L → eligible now L = true →
      ∃ R, r = some R ∧ L.ValidFrom ≤ R.ValidFrom := by
  induction l generalizing a with
  | nil => intro s hs; cases hs
  | cons s rest ih =>
    unfold selectLoop at h
    cases hparse : NewLicenseFromStorableLicense x s with
    | error e2 => simp [hparse] at h
    | ok L0 =>
      simp only [hparse] at h
      intro t ht L hL hel
      rcases List.mem_cons.mp ht with rfl | ht
      · rw [hparse] at hL
        have hEq : L0 = L := Except.ok.inj hL
        subst hEq
        obtain ⟨B, hB, hLB⟩ := selectStep_eligible now a L0 hel
        rw [hB] at h
        obtain ⟨R, hR, hBR⟩ := selectLoop_keeps x now rest B r h
        exact ⟨R, hR, le_trans hLB hBR⟩
      · exact ih _ h t ht L hL hel

theorem selectLoop_source (x : Env) (now : Int) (l : List StorableLicense)
    (a : Option License) (R : License) (h : selectLoop x now l a = .ok (some R)) :
    a = some R ∨
      ∃ s ∈ l, NewLicenseFromStorableLicense x s = .ok R ∧ notExpired now R = true := by
  induction l generalizing a with
  | nil =>
    simp only [selectLoop, Except.ok.injEq] at h
    exact Or.inl h
  | cons s rest ih =>
    unfold selectLoop at h
    cases hparse : NewLicenseFromStorableLicense x s with
    | error e2 => simp [hparse] at h
    | ok L =>
      simp only [hparse] at h
      rcases ih _ h with hstep | ⟨t, ht, htR, hne⟩
      · rcases selectStep_source now a L R hstep with ha | ⟨hRL, hne⟩
        · exact Or.inl ha
        · subst hRL
          exact Or.inr ⟨s, List.mem_cons_self _ _, hparse, hne⟩
      · exact Or.inr ⟨t, List.mem_cons_of_mem _ ht, htR, hne⟩

theorem selectLoop_none (x : Env) (now : Int) (l : List StorableLicense) (r : Option License)
    (hno : ∀ s ∈ l, eligibleRecord x now s = false)
    (h : selectLoop x now l none = .ok r) : r = none := by
  induction l with
  | nil =>
    simp only [selectLoop, Except.ok.injEq] at h
    exact h.symm
  | cons s rest ih =>
    unfold selectLoop at h
    cases hparse : NewLicenseFromStorableLicense x s with
    | error e2 => simp [hparse] at h
    | ok L =>
      simp only [hparse] at h
      have hs := hno s (List.mem_cons_self _ _)
      unfold eligibleRecord at hs
      simp only [hparse] at hs
      rw [selectStep_none] at h
      simp only [hs] at h
      exact ih (fun t ht => hno t (List.mem_cons_of_mem _ ht)) h

end Licensetypes

/-! ## The selector: results -/

namespace Licensetypes

open Spec

theorem selector_ok_iff (x : Env) (now : Int) (l : List StorableLicense) (org : UUID)
    (L : License) :
    GetActiveLicenseFromStorableLicenses x now l org = .ok L ↔
      selectLoop x now l none = .ok (some L) := by
  unfold GetActiveLicenseFromStorableLicenses
  cases h : selectLoop x now l none with
  | error e => simp
  | ok r =>
    cases r with
    | none => simp
    | some R => simp

theorem selector_error_iff (x : Env) (now : Int) (l : List StorableLicense) (org : UUID)
    (e : GoError) :
    GetActiveLicenseFromStorableLicenses x now l org = .error e ↔
      selectLoop x now l none = .error e ∨
        (selectLoop x now l none = .ok none ∧ e = notFoundError org) := by
  unfold GetActiveLicenseFromStorableLicenses notFoundError Newf UUID.StringValue
  cases h : selectLoop x now l none with
  | error e2 => simp
  | ok r =>
    cases r with
    | none =>
      simp only [Except.error.injEq, Except.ok.injEq, true_and, false_or, reduceCtorEq]
      exact eq_comm
    | some R => simp

theorem selector_source (x : Env) (now : Int) (l : List StorableLicense) (org : UUID)
    (L : License) (h : GetActiveLicenseFromStorableLicenses x now l org = .ok L) :
    ∃ s ∈ l, NewLicenseFromStorableLicense x s = .ok L ∧ notExpired now L = true := by
  rw [selector_ok_iff] at h
  rcases selectLoop_source x now l none L h with h0 | h1
  · cases h0
  · exact h1

theorem selector_of_eligible (x : Env) (now : Int) (l : List StorableLicense) (org : UUID)
    (hp : ∀ s ∈ l, parses x s = true) (s : StorableLicense) (hs : s ∈ l)
    (he : eligibleRecord x now s = true) :
    ∃ L, GetActiveLicenseFromStorableLicenses x now l org = .ok L ∧
      validFromOf x s ≤ L.ValidFrom := by
  obtain ⟨r, hr⟩ := selectLoop_total x now l hp none
  unfold eligibleRecord at he
  unfold validFromOf
  cases hparse : NewLicenseFromStorableLicense x s with
  | error e => simp [hparse] at he
  | ok Ls =>
    simp only [hparse] at he
    obtain ⟨R, hR, hle⟩ := selectLoop_dominates x now l none r hr s hs Ls hparse he
    subst hR
    exact ⟨R, (selector_ok_iff x now l org R).mpr hr, hle⟩

theorem selector_notFound (x : Env) (now : Int) (l : List StorableLicense) (org : UUID)
    (hp : ∀ s ∈ l, parses x s = true) (hno : ∀ s ∈ l, eligibleRecord x now s = false) :
    GetActiveLicenseFromStorableLicenses x now l org = .error (notFoundError org) := by
  obtain ⟨r, hr⟩ := selectLoop_total x now l hp none
  have hnone := selectLoop_none x now l r hno hr
  subst hnone
  exact (selector_error_iff x now l org _).mpr (Or.inr ⟨hr, rfl⟩)

end Licensetypes

/-! ## Claims on the selector -/

namespace Claims

open Licensetypes Spec

/-- C1, evaluated at the failing input: at time 1700000000, for the records with
`valid_from = -86400` and `valid_from = 0` (both `valid_until = -1`), in this order, the selector
returns the second record, a license with `ValidFrom = 0`. -/
theorem C1_selects_validFrom_zero :
    (GetActiveLicenseFromStorableLicenses (Sample.env []) 1700000000
        [ Sample.record "00000000-0000-0000-0000-00000000000a" "key-a" (-86400) (-1),
          Sample.record "00000000-0000-0000-0000-00000000000b" "key-b" 0 (-1) ] Sample.org).map
      (fun L => (L.ID.val, L.Key, L.ValidFrom, L.ValidUntil))
      = .ok ("00000000-0000-0000-0000-00000000000b", "key-b", 0, -1) := by
  rfl

/-- C2, counterexample: at time 200 the record with `valid_from = 100` is currently valid, and
the selector returns the record with `valid_from = 300`, which has not started yet. -/
theorem C2_future_dated_shadows :
    currentlyValidRecord (Sample.env []) 200
        (Sample.record "00000000-0000-0000-0000-00000000000a" "key-a" 100 (-1)) = true ∧
      (GetActiveLicenseFromStorableLicenses (Sample.env []) 200
          [ Sample.record "00000000-0000-0000-0000-00000000000a" "key-a" 100 (-1),
            Sample.record "00000000-0000-0000-0000-00000000000b" "key-b" 300 (-1) ]
          Sample.org).map (fun L => (L.Key, decide (L.ValidFrom > 200)))
        = .ok ("key-b", true) :=
  ⟨by rfl, by rfl⟩

/-- C2, amended: for a list whose records all parse and that contains a currently valid
license, the selector returns a license that is not expired and whose `validFrom` is at least
that of every eligible record. That license does not have `validFrom > now` when no record of
the list is future-dated and not expired (`validFrom > now` with `validUntil == -1` or
`validUntil > now`), and it has `validFrom > now` whenever the list contains an eligible
record with `validFrom > now`: a future-dated renewal that has not expired shadows the
currently valid license. -/
theorem C2_future_dated_renewal_shadows (x : Env) (now : Int) (l : List StorableLicense)
    (org : UUID) (hp : ∀ s ∈ l, parses x s = true)
    (hcur : ∃ s ∈ l, currentlyValidRecord x now s = true) :
    ∃ L, GetActiveLicenseFromStorableLicenses x now l org = .ok L ∧
      (L.ValidUntil = -1 ∨ L.ValidUntil > now) ∧
      (∀ s ∈ l, eligibleRecord x now s = true → validFromOf x s ≤ L.ValidFrom) ∧
      ((∀ s ∈ l, futureDatedRecord x now s = false) → ¬ L.ValidFrom > now) ∧
      ((∃ s ∈ l, eligibleRecord x now s = true ∧ validFromOf x s > now) →
        L.ValidFrom > now) := by
  obtain ⟨c, hc, hcv⟩ := hcur
  have he : eligibleRecord x now c = true := by
    unfold currentlyValidRecord at hcv
    unfold eligibleRecord eligible
    cases hparse : NewLicenseFromStorableLicense x c with
    | error e => simp [hparse] at hcv
    | ok Lc =>
      simp only [hparse, Bool.and_eq_true] at hcv
      simp only [Bool.and_eq_true]
      exact ⟨hcv.1.1, hcv.2⟩
  obtain ⟨L, hL, _⟩ := selector_of_eligible x now l org hp c hc he
  obtain ⟨s0, hs0, hparse0, hne0⟩ := selector_source x now l org L hL
  have hdom : ∀ s ∈ l, eligibleRecord x now s = true → validFromOf x s ≤ L.ValidFrom := by
    intro s hs hes
    obtain ⟨L2, hL2, hle⟩ := selector_of_eligible x now l org hp s hs hes
    rw [hL] at hL2
    have hEq : L = L2 := Except.ok.inj hL2
    rw [hEq]
    exact hle
  refine ⟨L, hL, ?_, hdom, ?_, ?_⟩
  · unfold notExpired at hne0
    simpa using hne0
  · intro hfut
    have hf := hfut s0 hs0
    unfold futureDatedRecord at hf
    unfold notExpired at hne0
    simp only [hparse0, hne0, Bool.and_true, decide_eq_false_iff_not] at hf
    exact hf
  · rintro ⟨s, hs, hes, hgt⟩
    have := hdom s hs hes
    omega

/-- C2, amended, at a concrete input: at time 200 a currently valid record, an expired one and
a future-dated renewal; the selector returns the renewal. -/
theorem C2_future_dated_renewal_witness :
    (∃ s ∈ [ Sample.record "00000000-0000-0000-0000-00000000000a" "key-a" 100 (-1),
        Sample.record "00000000-0000-0000-0000-00000000000b" "key-b" 150 180,
        Sample.record "00000000-0000-0000-0000-00000000000c" "key-c" 300 (-1) ],
        eligibleRecord (Sample.env []) 200 s = true ∧ validFromOf (Sample.env []) s > 200) ∧
    ∃ L, GetActiveLicenseFromStorableLicenses (Sample.env []) 200
        [ Sample.record "00000000-0000-0000-0000-00000000000a" "key-a" 100 (-1),
          Sample.record "00000000-0000-0000-0000-00000000000b" "key-b" 150 180,
          Sample.record "00000000-0000-0000-0000-00000000000c" "key-c" 300 (-1) ] Sample.org
        = .ok L ∧ (L.ValidUntil = -1 ∨ L.ValidUntil > 200) ∧ L.ValidFrom > 200 := by
  have hfuture : ∃ s ∈ [ Sample.record "00000000-0000-0000-0000-00000000000a" "key-a" 100 (-1),
      Sample.record "00000000-0000-0000-0000-00000000000b" "key-b" 150 180,
      Sample.record "00000000-0000-0000-0000-00000000000c" "key-c" 300 (-1) ],
      eligibleRecord (Sample.env []) 200 s = true ∧ validFromOf (Sample.env []) s > 200 :=
    ⟨Sample.record "00000000-0000-0000-0000-00000000000c" "key-c" 300 (-1), by simp,
      by rfl, by decide⟩
  obtain ⟨L, hL, hne, _, _, hshadow⟩ :=
    C2_future_dated_renewal_shadows (Sample.env []) 200
      [ Sample.record "00000000-0000-0000-0000-00000000000a" "key-a" 100 (-1),
        Sample.record "00000000-0000-0000-0000-00000000000b" "key-b" 150 180,
        Sample.record "00000000-0000-0000-0000-00000000000c" "key-c" 300 (-1) ] Sample.org
      (by
        intro s hs
        simp only [List.mem_cons, List.mem_singleton, List.not_mem_nil, or_false] at hs
        rcases hs with rfl | rfl | rfl <;> rfl)
      ⟨_, List.mem_cons_self _ _, by rfl⟩
  exact ⟨hfuture, L, hL, hne, hshadow hfuture⟩

theorem parses_of_eligibleRecord (x : Env) (now : Int) (s : StorableLicense)
    (h : eligibleRecord x now s = true) : parses x s = true := by
  unfold eligibleRecord at h
  unfold parses
  cases hparse : NewLicenseFromStorableLicense x s with
  | error e => simp [hparse] at h
  | ok L => rfl

/-- C3: for a non-empty list of records that are all eligible at `now`, and for every
permutation of it, the selector returns a license whose `validFrom` is the maximum `validFrom`
of the list; for two candidates with `validFrom` 100 and 200 and `validUntil` -1 it returns the
one with `validFrom` 200 in either order. -/
theorem C3_returns_maximum_validFrom (x : Env) (now : Int) (l : List StorableLicense)
    (org : UUID) (hne : l ≠ []) (hel : ∀ s ∈ l, eligibleRecord x now s = true)
    (l2 : List StorableLicense) (hperm : l2.Perm l) :
    (∃ L, GetActiveLicenseFromStorableLicenses x now l2 org = .ok L ∧
        (∃ s ∈ l, validFromOf x s = L.ValidFrom) ∧ ∀ s ∈ l, validFromOf x s ≤ L.ValidFrom) ∧
      (GetActiveLicenseFromStorableLicenses x now
          [ Sample.record "00000000-0000-0000-0000-00000000000a" "key-a" 100 (-1),
            Sample.record "00000000-0000-0000-0000-00000000000b" "key-b" 200 (-1) ] org).map
        (fun L => (L.Key, L.ValidFrom)) = .ok ("key-b", 200) ∧
      (GetActiveLicenseFromStorableLicenses x now
          [ Sample.record "00000000-0000-0000-0000-00000000000b" "key-b" 200 (-1),
            Sample.record "00000000-0000-0000-0000-00000000000a" "key-a" 100 (-1) ] org).map
        (fun L => (L.Key, L.ValidFrom)) = .ok ("key-b", 200) := by
  refine ⟨?_, by rfl, by rfl⟩
  have hel2 : ∀ s ∈ l2, eligibleRecord x now s = true :=
    fun s hs => hel s (hperm.mem_iff.mp hs)
  have hp2 : ∀ s ∈ l2, parses x s = true :=
    fun s hs => parses_of_eligibleRecord x now s (hel2 s hs)
  obtain ⟨s0, rest, hl⟩ := List.exists_cons_of_ne_nil hne
  have hs0 : s0 ∈ l2 := hperm.mem_iff.mpr (by rw [hl]; exact List.mem_cons_self _ _)
  obtain ⟨L, hL, _⟩ := selector_of_eligible x now l2 org hp2 s0 hs0 (hel2 s0 hs0)
  refine ⟨L, hL, ?_, ?_⟩
  · obtain ⟨s, hs, hparse, _⟩ := selector_source x now l2 org L hL
    refine ⟨s, hperm.mem_iff.mp hs, ?_⟩
    unfold validFromOf
    rw [hparse]
  · intro s hs
    have hs2 : s ∈ l2 := hperm.mem_iff.mpr hs
    obtain ⟨L2, hL2, hle⟩ := selector_of_eligible x now l2 org hp2 s hs2 (hel2 s hs2)
    rw [hL] at hL2
    have hEq : L = L2 := Except.ok.inj hL2
    rw [hEq]
    exact hle

/-- C3 at a concrete input: three eligible records, given to the selector in another order. -/
theorem C3_returns_maximum_witness :
    ∃ L, GetActiveLicenseFromStorableLicenses (Sample.env []) 1700000000
        [ Sample.record "00000000-0000-0000-0000-00000000000c" "key-c" 1600000000 1800000000,
          Sample.record "00000000-0000-0000-0000-00000000000a" "key-a" 1500000000 (-1),
          Sample.record "00000000-0000-0000-0000-00000000000b" "key-b" 1650000000 (-1) ]
        Sample.org = .ok L ∧
      (∃ s ∈ [ Sample.record "00000000-0000-0000-0000-00000000000a" "key-a" 1500000000 (-1),
          Sample.record "00000000-0000-0000-0000-00000000000b" "key-b" 1650000000 (-1),
          Sample.record "00000000-0000-0000-0000-00000000000c" "key-c" 1600000000 1800000000 ],
          validFromOf (Sample.env []) s = L.ValidFrom) ∧
      ∀ s ∈ [ Sample.record "00000000-0000-0000-0000-00000000000a" "key-a" 1500000000 (-1),
          Sample.record "00000000-0000-0000-0000-00000000000b" "key-b" 1650000000 (-1),
          Sample.record "00000000-0000-0000-0000-00000000000c" "key-c" 1600000000 1800000000 ],
          validFromOf (Sample.env []) s ≤ L.ValidFrom :=
  (C3_returns_maximum_validFrom (Sample.env []) 1700000000
    [ Sample.record "00000000-0000-0000-0000-00000000000a" "key-a" 1500000000 (-1),
      Sample.record "00000000-0000-0000-0000-00000000000b" "key-b" 1650000000 (-1),
      Sample.record "00000000-0000-0000-0000-00000000000c" "key-c" 1600000000 1800000000 ]
    Sample.org (by simp)
    (by
      intro s hs
      simp only [List.mem_cons, List.mem_singleton, List.not_mem_nil, or_false] at hs
      rcases hs with rfl | rfl | rfl <;> rfl)
    [ Sample.record "00000000-0000-0000-0000-00000000000c" "key-c" 1600000000 1800000000,
      Sample.record "00000000-0000-0000-0000-00000000000a" "key-a" 1500000000 (-1),
      Sample.record "00000000-0000-0000-0000-00000000000b" "key-b" 1650000000 (-1) ]
    (by
      refine List.Perm.trans (List.Perm.swap _ _ _) (List.Perm.cons _ ?_)
      exact List.Perm.swap _ _ _)).1

/-- C4: when every record parses, the selector fails with a NotFound-typed error if and only
if no candidate is eligible, and the error then names the organization; the single candidate
`validFrom = 100`, `validUntil = 150` at `now = 200` yields NotFound, and so does the empty
list. -/
theorem C4_notFound_iff_no_eligible (x : Env) (now : Int) (l : List StorableLicense)
    (org : UUID) (hp : ∀ s ∈ l, parses x s = true) :
    ((∃ e, GetActiveLicenseFromStorableLicenses x now l org = .error e ∧
          e.typ = .TypeNotFound) ↔ ∀ s ∈ l, eligibleRecord x now s = false) ∧
      ((∀ s ∈ l, eligibleRecord x now s = false) →
        GetActiveLicenseFromStorableLicenses x now l org = .error (notFoundError org)) ∧
      GetActiveLicenseFromStorableLicenses x 200
          [ Sample.record "00000000-0000-0000-0000-00000000000a" "key-a" 100 150 ] org
        = .error (notFoundError org) ∧
      GetActiveLicenseFromStorableLicenses x now [] org = .error (notFoundError org) := by
  have hfail : (∀ s ∈ l, eligibleRecord x now s = false) →
      GetActiveLicenseFromStorableLicenses x now l org = .error (notFoundError org) := by
    intro hno
    obtain ⟨r, hr⟩ := selectLoop_total x now l hp none
    have hnone := selectLoop_none x now l r hno hr
    subst hnone
    exact (selector_error_iff x now l org _).mpr (Or.inr ⟨hr, rfl⟩)
  refine ⟨⟨?_, ?_⟩, hfail, by rfl, by rfl⟩
  · rintro ⟨e, he, _⟩ s hs
    cases hes : eligibleRecord x now s with
    | false => rfl
    | true =>
      obtain ⟨L, hL, _⟩ := selector_of_eligible x now l org hp s hs hes
      rw [hL] at he
      cases he
  · intro hno
    exact ⟨notFoundError org, hfail hno, rfl⟩

/-- C4 at a concrete input: two records that parse, both expired at the evaluation time. -/
theorem C4_notFound_witness :
    ((∃ e, GetActiveLicenseFromStorableLicenses (Sample.env []) 1700000000
          [ Sample.record "00000000-0000-0000-0000-00000000000a" "key-a" 1500000000 1600000000,
            Sample.record "00000000-0000-0000-0000-00000000000b" "key-b" 1600000000 1650000000 ]
          Sample.org = .error e ∧ e.typ = .TypeNotFound) ↔
      ∀ s ∈ [ Sample.record "00000000-0000-0000-0000-00000000000a" "key-a" 1500000000 1600000000,
          Sample.record "00000000-0000-0000-0000-00000000000b" "key-b" 1600000000 1650000000 ],
        eligibleRecord (Sample.env []) 1700000000 s = false) :=
  (C4_notFound_iff_no_eligible (Sample.env []) 1700000000
    [ Sample.record "00000000-0000-0000-0000-00000000000a" "key-a" 1500000000 1600000000,
      Sample.record "00000000-0000-0000-0000-00000000000b" "key-b" 1600000000 1650000000 ]
    Sample.org
    (by
      intro s hs
      simp only [List.mem_cons, List.mem_singleton, List.not_mem_nil, or_false] at hs
      rcases hs with rfl | rfl <;> rfl)).1

/-- C5, counterexample: for a list whose only record has an empty data map the selector
returns the InvalidInput error of the parser, which is not a NotFound error. -/
theorem C5_invalidInput_returned :
    GetActiveLicenseFromStorableLicenses (Sample.env []) 1700000000
        [ Sample.emptyRecord "00000000-0000-0000-0000-00000000000a" "key-a" ] Sample.org
      = .error (.base .TypeInvalidInput .CodeInvalidInput "status key is missing") ∧
    (GoError.base .TypeInvalidInput .CodeInvalidInput "status key is missing").typ
      ≠ .TypeNotFound :=
  ⟨by rfl, by decide⟩

/-- C5, amended: the selector returns either one license, and then every record parses; or
the NotFound error naming the organization, and then every record parses; or the error of a
record of the list that does not parse, and that error has type InvalidInput. It returns no
other error. -/
theorem C5_license_notFound_or_parse_error (x : Env) (now : Int) (l : List StorableLicense)
    (org : UUID) :
    (∃ L, GetActiveLicenseFromStorableLicenses x now l org = .ok L ∧
        ∀ s ∈ l, parses x s = true) ∨
      (GetActiveLicenseFromStorableLicenses x now l org = .error (notFoundError org) ∧
        (notFoundError org).typ = .TypeNotFound ∧ ∀ s ∈ l, parses x s = true) ∨
      (∃ e, GetActiveLicenseFromStorableLicenses x now l org = .error e ∧
        e.typ = .TypeInvalidInput ∧ ∃ s ∈ l, NewLicenseFromStorableLicense x s = .error e) := by
  cases h : selectLoop x now l none with
  | error e =>
    right; right
    obtain ⟨s, hs, hse⟩ := selectLoop_error x now l none e h
    exact ⟨e, (selector_error_iff x now l org e).mpr (Or.inl h),
      NewLicenseFromStorableLicense_error_typ x s e hse, s, hs, hse⟩
  | ok r =>
    have hp := selectLoop_parses x now l none r h
    cases r with
    | none =>
      right; left
      exact ⟨(selector_error_iff x now l org _).mpr (Or.inr ⟨h, rfl⟩), rfl, hp⟩
    | some R =>
      left
      exact ⟨R, (selector_ok_iff x now l org R).mpr h, hp⟩

end Claims

/-! ## The selector with list positions -/

namespace Licensetypes

open Spec

theorem selectStepAt_none (now : Int) (i : Nat) (L : License) :
    selectStepAt now none i L = if eligible now L then some (i, L) else none := by
  unfold selectStepAt eligible notExpired
  by_cases h : ((L.ValidFrom != 0) && (L.ValidUntil == -1 || decide (L.ValidUntil > now))) = true
  · simp only [Option.isNone_none, Bool.true_and, h, if_true]
    simp
  · simp only [Option.isNone_none, Bool.true_and, h, if_false]
    simp

theorem selectStepAt_some (now : Int) (k : Nat) (A : License) (i : Nat) (L : License) :
    selectStepAt now (some (k, A)) i L =
      if (decide (L.ValidFrom > A.ValidFrom) && notExpired now L) = true then some (i, L)
      else some (k, A) := by
  unfold selectStepAt
  simp

theorem selectStepAt_erase (now : Int) (a : Option (Nat × License)) (i : Nat) (L : License) :
    (selectStepAt now a i L).map Prod.snd = selectStep now (a.map Prod.snd) L := by
  cases a with
  | none =>
    simp only [Option.map_none', selectStepAt_none, selectStep_none]
    by_cases h : eligible now L = true <;> simp [h]
  | some p =>
    obtain ⟨k, A⟩ := p
    simp only [Option.map_some', selectStepAt_some, selectStep_some]
    by_cases h : (decide (L.ValidFrom > A.ValidFrom) && notExpired now L) = true
    · simp only [h, if_true, Option.map_some']
    · simp only [h]
      simp

theorem selectLoopAt_erase (x : Env) (now : Int) (l : List StorableLicense) (i : Nat)
    (a : Option (Nat × License)) :
    (selectLoopAt x now l i a).map (Option.map Prod.snd) =
      selectLoop x now l (a.map Prod.snd) := by
  induction l generalizing i a with
  | nil => rfl
  | cons s rest ih =>
    unfold selectLoopAt selectLoop
    cases hparse : NewLicenseFromStorableLicense x s with
    | error e => rfl
    | ok L =>
      simp only []
      rw [ih, selectStepAt_erase]

theorem GetActiveLicenseAt_erase (x : Env) (now : Int) (l : List StorableLicense) (org : UUID) :
    (GetActiveLicenseAt x now l org).map Prod.snd =
      GetActiveLicenseFromStorableLicenses x now l org := by
  have h := selectLoopAt_erase x now l 0 none
  unfold GetActiveLicenseAt GetActiveLicenseFromStorableLicenses
  simp only [Option.map_none'] at h
  rw [← h]
  cases selectLoopAt x now l 0 none with
  | error e => rfl
  | ok r =>
    cases r with
    | none => rfl
    | some p => rfl

theorem getElem?_concat_cases (pre : List StorableLicense) (s t : StorableLicense) (j : Nat)
    (h : (pre ++ [s])[j]? = some t) :
    (j < pre.length ∧ pre[j]? = some t) ∨ (j = pre.length ∧ t = s) := by
  by_cases hj : j < pre.length
  · rw [List.getElem?_append_left hj] at h
    exact Or.inl ⟨hj, h⟩
  · rw [List.getElem?_append_right (Nat.le_of_not_lt hj)] at h
    by_cases h0 : j - pre.length = 0
    · rw [h0] at h
      simp only [List.getElem?_cons_zero, Option.some.injEq] at h
      exact Or.inr ⟨by omega, h.symm⟩
    · obtain ⟨n, hn⟩ := Nat.exists_eq_succ_of_ne_zero h0
      rw [hn] at h
      simp at h

theorem eligibleRecord_of_parse (x : Env) (now : Int) (s : StorableLicense) (L : License)
    (hparse : NewLicenseFromStorableLicense x s = .ok L) :
    eligibleRecord x now s = eligible now L ∧ validFromOf x s = L.ValidFrom := by
  unfold eligibleRecord validFromOf
  rw [hparse]
  exact ⟨rfl, rfl⟩

theorem scanned_step (x : Env) (now : Int) (pre : List StorableLicense)
    (a : Option (Nat × License)) (s : StorableLicense) (L : License)
    (hparse : NewLicenseFromStorableLicense x s = .ok L) (ha : scanned x now pre a) :
    scanned x now (pre ++ [s]) (selectStepAt now a pre.length L) := by
  obtain ⟨hes, hvs⟩ := eligibleRecord_of_parse x now s L hparse
  cases a with
  | none =>
    rw [selectStepAt_none]
    unfold scanned at ha
    by_cases he : eligible now L = true
    · simp only [he, if_true]
      unfold scanned
      refine ⟨⟨s, List.getElem?_concat_length pre s, hparse⟩, ?_, ?_⟩
      · intro j t ht het
        rcases getElem?_concat_cases pre s t j ht with ⟨_, hpre⟩ | ⟨_, rfl⟩
        · have := ha t (List.getElem?_mem hpre)
          rw [this] at het
          cases het
        · rw [hvs]
      · intro j t hj ht het
        rcases getElem?_concat_cases pre s t j ht with ⟨_, hpre⟩ | ⟨hjl, _⟩
        · have := ha t (List.getElem?_mem hpre)
          rw [this] at het
          cases het
        · omega
    · simp only [he]
      unfold scanned
      intro t ht
      rcases List.mem_append.mp ht with hpre | hlast
      · exact ha t hpre
      · rw [List.mem_singleton] at hlast
        subst hlast
        rw [hes]
        simpa using he
  | some p =>
    obtain ⟨k, A⟩ := p
    rw [selectStepAt_some]
    unfold scanned at ha
    obtain ⟨⟨sk, hsk, hskA⟩, hdom, hstrict⟩ := ha
    have hk : k < pre.length := (List.getElem?_eq_some.mp hsk).1
    by_cases hc : (decide (L.ValidFrom > A.ValidFrom) && notExpired now L) = true
    · simp only [hc, if_true]
      simp only [Bool.and_eq_true, decide_eq_true_eq] at hc
      unfold scanned
      refine ⟨⟨s, List.getElem?_concat_length pre s, hparse⟩, ?_, ?_⟩
      · intro j t ht het
        rcases getElem?_concat_cases pre s t j ht with ⟨_, hpre⟩ | ⟨_, rfl⟩
        · have := hdom j t hpre het
          omega
        · rw [hvs]
      · intro j t hj ht het
        rcases getElem?_concat_cases pre s t j ht with ⟨_, hpre⟩ | ⟨hjl, _⟩
        · have := hdom j t hpre het
          omega
        · omega
    · simp only [hc]
      simp only [Bool.false_eq_true, if_false]
      unfold scanned
      refine ⟨⟨sk, ?_, hskA⟩, ?_, ?_⟩
      · rw [List.getElem?_append_left hk]
        exact hsk
      · intro j t ht het
        rcases getElem?_concat_cases pre s t j ht with ⟨_, hpre⟩ | ⟨_, rfl⟩
        · exact hdom j t hpre het
        · rw [hes] at het
          have hne := eligible_notExpired now L het
          simp only [hne, Bool.and_true, decide_eq_true_eq] at hc
          rw [hvs]
          omega
      · intro j t hj ht het
        rcases getElem?_concat_cases pre s t j ht with ⟨_, hpre⟩ | ⟨hjl, _⟩
        · exact hstrict j t hj hpre het
        · omega

theorem scanned_loop (x : Env) (now : Int) (suf pre : List StorableLicense)
    (a r : Option (Nat × License)) (ha : scanned x now pre a)
    (h : selectLoopAt x now suf pre.length a = .ok r) : scanned x now (pre ++ suf) r := by
  induction suf generalizing pre a with
  | nil =>
    simp only [selectLoopAt, Except.ok.injEq] at h
    subst h
    simpa using ha
  | cons s rest ih =>
    unfold selectLoopAt at h
    cases hparse : NewLicenseFromStorableLicense x s with
    | error e => simp [hparse] at h
    | ok L =>
      simp only [hparse] at h
      have hstep := scanned_step x now pre a s L hparse ha
      have hlen : (pre ++ [s]).length = pre.length + 1 := by simp
      rw [← hlen] at h
      have := ih (pre ++ [s]) _ hstep h
      simpa using this

theorem NewLicenseFromStorableLicense_identity (x : Env) (s : StorableLicense) (L : License)
    (h : NewLicenseFromStorableLicense x s = .ok L) :
    L.ID = s.ID ∧ L.Key = s.Key ∧ L.OrganizationID = s.OrgID := by
  unfold NewLicenseFromStorableLicense at h
  split at h
  · cases h
  · split at h
    · cases h
    · split at h
      · cases h
      · have hEq := Except.ok.inj h
        subst hEq
        exact ⟨rfl, rfl, rfl⟩

end Licensetypes

/-! ## Claims on the tie-break and on `provider.GetActive` -/

namespace Claims

open Licensetypes Spec Httplicensing

/-- C6: if the selector returns the license built from the record at list position `i`, then
no record at a position `j < i` is eligible with the same `validFrom`: among eligible candidates
with equal `validFrom` the earliest-encountered one wins. The license returned is the one
`GetActiveLicenseFromStorableLicenses` returns, and its ID and Key are those of the record at
position `i`. -/
theorem C6_earliest_among_equal_validFrom (x : Env) (now : Int) (l : List StorableLicense)
    (org : UUID) (i : Nat) (L : License) (h : GetActiveLicenseAt x now l org = .ok (i, L)) :
    GetActiveLicenseFromStorableLicenses x now l org = .ok L ∧
      (∃ s, l[i]? = some s ∧ NewLicenseFromStorableLicense x s = .ok L ∧
        L.ID = s.ID ∧ L.Key = s.Key) ∧
      ∀ (j : Nat) s, j < i → l[j]? = some s →
        ¬ (eligibleRecord x now s = true ∧ validFromOf x s = L.ValidFrom) := by
  have herase := GetActiveLicenseAt_erase x now l org
  rw [h] at herase
  have hloop : selectLoopAt x now l 0 none = .ok (some (i, L)) := by
    unfold GetActiveLicenseAt at h
    cases hl : selectLoopAt x now l 0 none with
    | error e => simp [hl] at h
    | ok r =>
      cases r with
      | none => simp [hl] at h
      | some p =>
        simp only [hl, Except.ok.injEq] at h
        rw [h]
  have hinit : scanned x now [] none := by
    unfold scanned
    intro s hs
    cases hs
  have hfinal := scanned_loop x now l [] none (some (i, L)) hinit hloop
  simp only [List.nil_append] at hfinal
  unfold scanned at hfinal
  obtain ⟨⟨s, hs, hparse⟩, _, hstrict⟩ := hfinal
  obtain ⟨hid, hkey, _⟩ := NewLicenseFromStorableLicense_identity x s L hparse
  refine ⟨herase.symm, ⟨s, hs, hparse, hid, hkey⟩, ?_⟩
  rintro j t hj ht ⟨het, hvt⟩
  have := hstrict j t hj ht het
  omega

/-- C6 at a concrete input: two eligible records with the same `validFrom` after an older one;
the selector returns the first of the two, the record at position 1. -/
theorem C6_earliest_witness :
    GetActiveLicenseAt (Sample.env []) 1700000000 Sample.tieRecords Sample.org
        = .ok (1, Sample.tieLicense) ∧
      GetActiveLicenseFromStorableLicenses (Sample.env []) 1700000000 Sample.tieRecords
        Sample.org = .ok Sample.tieLicense ∧
      ∀ (j : Nat) s, j < 1 → Sample.tieRecords[j]? = some s →
        ¬ (eligibleRecord (Sample.env []) 1700000000 s = true ∧
          validFromOf (Sample.env []) s = Sample.tieLicense.ValidFrom) :=
  ⟨by rfl,
    (C6_earliest_among_equal_validFrom (Sample.env []) 1700000000 Sample.tieRecords
      Sample.org 1 Sample.tieLicense (by rfl)).1,
    (C6_earliest_among_equal_validFrom (Sample.env []) 1700000000 Sample.tieRecords
      Sample.org 1 Sample.tieLicense (by rfl)).2.2⟩

/-- C7: when the store returns the records of an organization, all of them parse and none is
eligible at the evaluation time (no record at all, or only expired ones), `provider.GetActive`
returns no error and the synthetic license: empty Key, `ValidUntil = -1`, `ValidFrom = 0`,
`OrganizationID` the requested organization and `Features` the catalog `AllFeatures`. -/
theorem C7_synthetic_when_none_eligible (x : Env) (nowUnix : Int) (now : Time)
    (l : List StorableLicense) (org : UUID) (hp : ∀ s ∈ l, parses x s = true)
    (hno : ∀ s ∈ l, eligibleRecord x nowUnix s = false) :
    ∃ L, GetActive x (.ok l) nowUnix now org = .ok L ∧ L = NewSyntheticCloudLicense x now org ∧
      L.Key = "" ∧ L.ValidUntil = -1 ∧ L.ValidFrom = 0 ∧ L.OrganizationID = org ∧
      L.Features = AllFeatures x := by
  have hsel := (selector_notFound x nowUnix l org hp hno)
  refine ⟨NewSyntheticCloudLicense x now org, ?_, rfl, rfl, rfl, rfl, rfl, rfl⟩
  unfold GetActive
  simp only [hsel]
  rfl

/-- C7 at a concrete input: the only stored record expired before the evaluation time. -/
theorem C7_synthetic_witness :
    (∀ s ∈ [ Sample.record "00000000-0000-0000-0000-00000000000a" "key-a" 1500000000
        1600000000 ], eligibleRecord (Sample.env []) 1700000000 s = false) ∧
    ∃ L, GetActive (Sample.env [])
        (.ok [ Sample.record "00000000-0000-0000-0000-00000000000a" "key-a" 1500000000
          1600000000 ]) 1700000000 ⟨1700000000⟩ Sample.org = .ok L ∧
      L = NewSyntheticCloudLicense (Sample.env []) ⟨1700000000⟩ Sample.org ∧
      L.Key = "" ∧ L.ValidUntil = -1 ∧ L.ValidFrom = 0 ∧ L.OrganizationID = Sample.org ∧
      L.Features = AllFeatures (Sample.env []) :=
  ⟨by
      intro s hs
      simp only [List.mem_singleton] at hs
      subst hs
      rfl,
    C7_synthetic_when_none_eligible (Sample.env []) 1700000000 ⟨1700000000⟩
      [ Sample.record "00000000-0000-0000-0000-00000000000a" "key-a" 1500000000 1600000000 ]
      Sample.org
      (by
        intro s hs
        simp only [List.mem_singleton] at hs
        subst hs
        rfl)
      (by
        intro s hs
        simp only [List.mem_singleton] at hs
        subst hs
        rfl)⟩

/-- C8: `provider.GetActive` returns an error exactly when `GetAll` fails or the selector fails
with an error whose type is not NotFound, and it then returns that same error; when the
selector succeeds it returns the selector's license unchanged; on a NotFound error of the
selector it returns the synthetic license and no error. -/
theorem C8_GetActive_error_propagation (x : Env) (getAll : Except GoError (List StorableLicense))
    (nowUnix : Int) (now : Time) (org : UUID) :
    ((∃ e, GetActive x getAll nowUnix now org = .error e) ↔
        ((∃ e, getAll = .error e) ∨
          ∃ l e, getAll = .ok l ∧
            GetActiveLicenseFromStorableLicenses x nowUnix l org = .error e ∧
            e.typ ≠ .TypeNotFound)) ∧
      (∀ e, getAll = .error e → GetActive x getAll nowUnix now org = .error e) ∧
      (∀ l e, getAll = .ok l →
        GetActiveLicenseFromStorableLicenses x nowUnix l org = .error e →
        e.typ ≠ .TypeNotFound → GetActive x getAll nowUnix now org = .error e) ∧
      (∀ l L, getAll = .ok l →
        GetActiveLicenseFromStorableLicenses x nowUnix l org = .ok L →
        GetActive x getAll nowUnix now org = .ok L) ∧
      (∀ l e, getAll = .ok l →
        GetActiveLicenseFromStorableLicenses x nowUnix l org = .error e →
        e.typ = .TypeNotFound →
        GetActive x getAll nowUnix now org = .ok (NewSyntheticCloudLicense x now org)) := by
  have h2 : ∀ e, getAll = .error e → GetActive x getAll nowUnix now org = .error e := by
    intro e he
    subst he
    rfl
  have h3 : ∀ l e, getAll = .ok l →
      GetActiveLicenseFromStorableLicenses x nowUnix l org = .error e →
      e.typ ≠ .TypeNotFound → GetActive x getAll nowUnix now org = .error e := by
    intro l e hl hsel hne
    subst hl
    unfold GetActive
    simp only [hsel, Ast, hne, decide_False, Bool.false_eq_true, if_false]
  have h4 : ∀ l L, getAll = .ok l →
      GetActiveLicenseFromStorableLicenses x nowUnix l org = .ok L →
      GetActive x getAll nowUnix now org = .ok L := by
    intro l L hl hsel
    subst hl
    unfold GetActive
    simp only [hsel]
  have h5 : ∀ l e, getAll = .ok l →
      GetActiveLicenseFromStorableLicenses x nowUnix l org = .error e →
      e.typ = .TypeNotFound →
      GetActive x getAll nowUnix now org = .ok (NewSyntheticCloudLicense x now org) := by
    intro l e hl hsel hnf
    subst hl
    unfold GetActive
    simp only [hsel, Ast, hnf, decide_True, if_true]
  refine ⟨⟨?_, ?_⟩, h2, h3, h4, h5⟩
  · rintro ⟨e, he⟩
    cases hg : getAll with
    | error e2 => exact Or.inl ⟨e2, rfl⟩
    | ok l =>
      right
      cases hsel : GetActiveLicenseFromStorableLicenses x nowUnix l org with
      | ok L =>
        rw [h4 l L hg hsel] at he
        cases he
      | error e2 =>
        by_cases hnf : e2.typ = .TypeNotFound
        · rw [h5 l e2 hg hsel hnf] at he
          cases he
        · exact ⟨l, e2, rfl, hsel, hnf⟩
  · rintro (⟨e, he⟩ | ⟨l, e, hl, hsel, hne⟩)
    · exact ⟨e, h2 e he⟩
    · exact ⟨e, h3 l e hl hsel hne⟩

end Claims

/-! ## Lemmas on the parsers -/

namespace Licensetypes

open Spec

theorem extract_set_ne {T : Type} (assertT : Value → Option T) (typeName : String) (m : GoMap)
    (k k2 : String) (v : Value) (h : k2 ≠ k) :
    extractKeyFromMapStringInterface assertT typeName (m.set k v) k2 =
      extractKeyFromMapStringInterface assertT typeName m k2 := by
  unfold extractKeyFromMapStringInterface
  rw [GoMap.get_set_ne m k k2 v h]

theorem extract_delete_ne {T : Type} (assertT : Value → Option T) (typeName : String)
    (m : GoMap) (k k2 : String) (h : k2 ≠ k) :
    extractKeyFromMapStringInterface assertT typeName (m.delete k) k2 =
      extractKeyFromMapStringInterface assertT typeName m k2 := by
  unfold extractKeyFromMapStringInterface
  rw [GoMap.get_delete_ne m k k2 h]

theorem NewLicenseFromStorableLicense_ok (x : Env) (s : StorableLicense) (statusStr : String)
    (planMap : GoMap) (planNameStr : String)
    (hs : extractString s.Data "status" = .ok statusStr)
    (hp : extractMap s.Data "plan" = .ok planMap)
    (hn : extractString planMap "name" = .ok planNameStr) :
    ∃ L, NewLicenseFromStorableLicense x s = .ok L ∧
      L.ID = s.ID ∧ L.Key = s.Key ∧ L.OrganizationID = s.OrgID ∧
      L.Data = s.Data.set "features" (.features (AllFeatures x)) ∧
      L.PlanName = x.NewString planNameStr ∧ L.Status = x.NewString statusStr ∧
      L.Features = AllFeatures x ∧
      L.ValidFrom = (orDefault (extractFloat64 L.Data "valid_from") (Float64.ofInt 0)).toInt64 ∧
      L.ValidUntil = (orDefault (extractFloat64 L.Data "valid_until") (Float64.ofInt 0)).toInt64 ∧
      L.State = orDefault (extractString L.Data "state") "" ∧
      L.FreeUntil = orDefault (x.ParseRFC3339 (orDefault (extractString L.Data "free_until") ""))
        Time.zero ∧
      L.CreatedAt = s.CreatedAt ∧ L.UpdatedAt = s.UpdatedAt ∧
      L.LastValidatedAt = s.LastValidatedAt := by
  unfold NewLicenseFromStorableLicense
  simp only [hs, hp, hn]
  exact ⟨_, rfl, rfl, rfl, rfl, rfl, rfl, rfl, rfl, rfl, rfl, rfl, rfl, rfl, rfl, rfl⟩

theorem NewLicenseFromMap_ok (x : Env) (now : Time) (m : GoMap) (org : UUID) (L : License)
    (h : NewLicenseFromMap x now m org = .ok L) :
    ∃ idStr statusStr planMap planNameStr,
      extractString m "id" = .ok idStr ∧ x.NewUUID idStr = .ok L.ID ∧
      extractString (m.delete "id") "key" = .ok L.Key ∧
      extractString ((m.delete "id").delete "key") "status" = .ok statusStr ∧
      extractMap ((m.delete "id").delete "key") "plan" = .ok planMap ∧
      extractString planMap "name" = .ok planNameStr ∧
      L.Data = ((m.delete "id").delete "key").set "features" (.features (AllFeatures x)) ∧
      L.PlanName = x.NewString planNameStr ∧ L.Status = x.NewString statusStr ∧
      L.Features = AllFeatures x ∧
      L.ValidFrom = (orDefault (extractFloat64 L.Data "valid_from") (Float64.ofInt 0)).toInt64 ∧
      L.ValidUntil = (orDefault (extractFloat64 L.Data "valid_until") (Float64.ofInt 0)).toInt64 ∧
      L.State = orDefault (extractString ((m.delete "id").delete "key") "state") "" ∧
      L.FreeUntil = orDefault (x.ParseRFC3339
        (orDefault (extractString ((m.delete "id").delete "key") "free_until") "")) Time.zero ∧
      L.CreatedAt = now ∧ L.UpdatedAt = now ∧ L.LastValidatedAt = now ∧
      L.OrganizationID = org := by
  unfold NewLicenseFromMap at h
  cases hid : extractString m "id" with
  | error e => simp [hid] at h
  | ok idStr =>
    cases huuid : x.NewUUID idStr with
    | error e => simp [hid, huuid] at h
    | ok id =>
      cases hkey : extractString (m.delete "id") "key" with
      | error e => simp [hid, huuid, hkey] at h
      | ok key =>
        cases hstatus : extractString ((m.delete "id").delete "key") "status" with
        | error e => simp [hid, huuid, hkey, hstatus] at h
        | ok statusStr =>
          cases hplan : extractMap ((m.delete "id").delete "key") "plan" with
          | error e => simp [hid, huuid, hkey, hstatus, hplan] at h
          | ok planMap =>
            cases hname : extractString planMap "name" with
            | error e => simp [hid, huuid, hkey, hstatus, hplan, hname] at h
            | ok planNameStr =>
              simp only [hid, huuid, hkey, hstatus, hplan, hname] at h
              have hEq := Except.ok.inj h
              subst hEq
              refine ⟨idStr, statusStr, planMap, planNameStr, ?_, ?_, ?_, ?_, ?_, ?_, ?_, ?_, ?_,
                ?_, ?_, ?_, ?_, ?_, ?_, ?_, ?_, ?_⟩
              all_goals first | rfl | assumption

end Licensetypes

/-! ## Claims on the parsers -/

namespace Claims

open Licensetypes Spec

/-- C9: when `NewLicense` succeeds with license `L`, `NewLicenseFromStorableLicense` succeeds on
the storable projection of `L` and yields a license with the same PlanName, ValidFrom,
ValidUntil and Features as `L`, and the same ID, Key and OrganizationID (also the same Status,
State and FreeUntil). -/
theorem C9_roundtrip_through_storable (x : Env) (now : Time) (p : String) (o : UUID)
    (L : License) (h : NewLicense x now p o = .ok L) :
    ∃ L2, NewLicenseFromStorableLicense x (NewStorableLicenseFromLicense L) = .ok L2 ∧
      L2.PlanName = L.PlanName ∧ L2.ValidFrom = L.ValidFrom ∧ L2.ValidUntil = L.ValidUntil ∧
      L2.Features = L.Features ∧ L2.ID = L.ID ∧ L2.Key = L.Key ∧
      L2.OrganizationID = L.OrganizationID ∧ L.OrganizationID = o ∧
      L2.Status = L.Status ∧ L2.State = L.State ∧ L2.FreeUntil = L.FreeUntil := by
  unfold NewLicense at h
  cases hm : x.Unmarshal p with
  | error e => simp [hm] at h
  | ok m =>
    simp only [hm] at h
    obtain ⟨idStr, statusStr, planMap, planNameStr, _, _, _, hstatus, hplan, hname, hdata,
      hpn, hst, hfe, hvf, hvu, hstate, hfree, _, _, _, horg⟩ := NewLicenseFromMap_ok x now m o L h
    have hs2 : extractString (NewStorableLicenseFromLicense L).Data "status" = .ok statusStr := by
      show extractString L.Data "status" = .ok statusStr
      rw [hdata]
      unfold extractString
      rw [extract_set_ne _ _ _ _ _ _ (by decide)]
      exact hstatus
    have hp2 : extractMap (NewStorableLicenseFromLicense L).Data "plan" = .ok planMap := by
      show extractMap L.Data "plan" = .ok planMap
      rw [hdata]
      unfold extractMap
      rw [extract_set_ne _ _ _ _ _ _ (by decide)]
      exact hplan
    obtain ⟨L2, hL2, hid2, hkey2, horg2, hdata2, hpn2, hst2, hfe2, hvf2, hvu2, hstate2, hfree2,
      _, _, _⟩ := NewLicenseFromStorableLicense_ok x (NewStorableLicenseFromLicense L) statusStr
        planMap planNameStr hs2 hp2 hname
    have hd2 : L2.Data = L.Data.set "features" (.features (AllFeatures x)) := hdata2
    have hf : ∀ k, k ≠ "features" → extractFloat64 L2.Data k = extractFloat64 L.Data k := by
      intro k hk
      rw [hd2]
      unfold extractFloat64
      exact extract_set_ne _ _ _ _ _ _ hk
    have hg : ∀ k, k ≠ "features" → extractString L2.Data k = extractString L.Data k := by
      intro k hk
      rw [hd2]
      unfold extractString
      exact extract_set_ne _ _ _ _ _ _ hk
    have hg0 : ∀ k, k ≠ "features" →
        extractString L.Data k = extractString ((m.delete "id").delete "key") k := by
      intro k hk
      rw [hdata]
      unfold extractString
      exact extract_set_ne _ _ _ _ _ _ hk
    refine ⟨L2, hL2, ?_, ?_, ?_, ?_, hid2, hkey2, horg2, horg, ?_, ?_, ?_⟩
    · rw [hpn2, hpn]
    · rw [hvf2, hvf, hf _ (by decide)]
    · rw [hvu2, hvu, hf _ (by decide)]
    · rw [hfe2, hfe]
    · rw [hst2, hst]
    · rw [hstate2, hstate, hg _ (by decide), hg0 _ (by decide)]
    · rw [hfree2, hfree, hg _ (by decide), hg0 _ (by decide)]

/-- C9 at a concrete input: the payload of the upstream authority, parsed and read back. -/
theorem C9_roundtrip_witness :
    NewLicense (Sample.env [ (Sample.payloadText, Sample.payloadMap) ]) ⟨1700000000⟩
        Sample.payloadText Sample.org = .ok Sample.payloadLicense ∧
    ∃ L2, NewLicenseFromStorableLicense (Sample.env [ (Sample.payloadText, Sample.payloadMap) ])
        (NewStorableLicenseFromLicense Sample.payloadLicense) = .ok L2 ∧
      L2.PlanName = Sample.payloadLicense.PlanName ∧
      L2.ValidFrom = Sample.payloadLicense.ValidFrom ∧
      L2.ValidUntil = Sample.payloadLicense.ValidUntil ∧
      L2.Features = Sample.payloadLicense.Features ∧ L2.ID = Sample.payloadLicense.ID ∧
      L2.Key = Sample.payloadLicense.Key ∧
      L2.OrganizationID = Sample.payloadLicense.OrganizationID ∧
      Sample.payloadLicense.OrganizationID = Sample.org ∧
      L2.Status = Sample.payloadLicense.Status ∧ L2.State = Sample.payloadLicense.State ∧
      L2.FreeUntil = Sample.payloadLicense.FreeUntil :=
  ⟨by rfl,
    C9_roundtrip_through_storable (Sample.env [ (Sample.payloadText, Sample.payloadMap) ])
      ⟨1700000000⟩ Sample.payloadText Sample.org Sample.payloadLicense (by rfl)⟩

theorem namesKey_missing (k : String) :
    namesKey (NewInvalidInputf .CodeInvalidInput (k ++ " key is missing")) k = true := by
  simp [namesKey, GoError.message, NewInvalidInputf, Newf]

theorem namesKey_not_string (k : String) :
    namesKey (NewInvalidInputf .CodeInvalidInput (k ++ " key is not a valid " ++ "string")) k
      = true := by
  have h : k ++ " key is not a valid " ++ "string" = k ++ " key is not a valid string" := by
    rw [String.append_assoc]
    rfl
  rw [h]
  simp [namesKey, GoError.message, NewInvalidInputf, Newf]

theorem namesKey_not_map (k : String) :
    namesKey (NewInvalidInputf .CodeInvalidInput
      (k ++ " key is not a valid " ++ "map[string]interface \x7b\x7d")) k = true := by
  have h : k ++ " key is not a valid " ++ "map[string]interface \x7b\x7d"
      = k ++ " key is not a valid map[string]interface \x7b\x7d" := by
    rw [String.append_assoc]
    rfl
  rw [h]
  simp [namesKey, GoError.message, NewInvalidInputf, Newf]

theorem extractString_not_string (m : GoMap) (k : String) (h : isString (m.get k) = false) :
    ∃ e, extractString m k = .error e ∧ e.typ = .TypeInvalidInput ∧ namesKey e k = true := by
  unfold extractString extractKeyFromMapStringInterface
  cases hv : m.get k with
  | none => exact ⟨_, rfl, rfl, namesKey_missing k⟩
  | some v =>
    cases v with
    | string s => simp [hv, isString] at h
    | _ => exact ⟨_, rfl, rfl, namesKey_not_string k⟩

theorem extractString_string (m : GoMap) (k : String) (h : isString (m.get k) = true) :
    ∃ v, extractString m k = .ok v ∧ m.get k = some (.string v) := by
  unfold extractString extractKeyFromMapStringInterface
  cases hv : m.get k with
  | none => simp [hv, isString] at h
  | some v =>
    cases v with
    | string v => exact ⟨v, rfl, rfl⟩
    | _ => simp [hv, isString] at h

theorem extractMap_not_map (m : GoMap) (k : String) (h : ∀ p, m.get k ≠ some (.map p)) :
    ∃ e, extractMap m k = .error e ∧ e.typ = .TypeInvalidInput ∧ namesKey e k = true := by
  unfold extractMap extractKeyFromMapStringInterface
  cases hv : m.get k with
  | none => exact ⟨_, rfl, rfl, namesKey_missing k⟩
  | some v =>
    cases v with
    | map p => exact absurd hv (h p)
    | _ => exact ⟨_, rfl, rfl, namesKey_not_map k⟩

theorem extractMap_map (m : GoMap) (k : String) (p : GoMap) (h : m.get k = some (.map p)) :
    extractMap m k = .ok p := by
  unfold extractMap extractKeyFromMapStringInterface
  rw [h]
  rfl

/-- C10, counterexample: the payload has the string `id` "" and no `key`, so `key` is its first
offending entry; `NewLicense` returns the error of `valuer.NewUUID` for the `id`, whose message
does not name `key`. -/
theorem C10_uuid_error_before_key :
    (Sample.env [ (Sample.badIdText, Sample.badIdMap) ]).Unmarshal Sample.badIdText
        = .ok Sample.badIdMap ∧
      firstOffending Sample.badIdMap = some "key" ∧
      NewLicense (Sample.env [ (Sample.badIdText, Sample.badIdMap) ]) ⟨1700000000⟩
        Sample.badIdText Sample.org = .error (.foreign "invalid UUID length: 0") ∧
      namesKey (.foreign "invalid UUID length: 0") "key" = false :=
  ⟨by rfl, by rfl, by rfl, by rfl⟩

theorem NewLicense_required_entry_error (x : Env) (now : Time) (data : String) (org : UUID)
    (m : GoMap) (k : String) (hm : x.Unmarshal data = .ok m)
    (hoff : firstOffending m = some k) (hid : idReadable x m = true) :
    ∃ e, NewLicense x now data org = .error e ∧ e.typ = .TypeInvalidInput ∧
      namesKey e k = true := by
  unfold NewLicense
  simp only [hm]
  unfold NewLicenseFromMap
  unfold firstOffending at hoff
  by_cases h1 : isString (m.get "id") = true
  · obtain ⟨idStr, hidStr, hget⟩ := extractString_string m "id" h1
    unfold idReadable at hid
    simp only [hget] at hid
    cases huuid : x.NewUUID idStr with
    | error e => simp [huuid] at hid
    | ok id =>
      have hkeyget : (m.delete "id").get "key" = m.get "key" :=
        GoMap.get_delete_ne m "id" "key" (by decide)
      have hd : ∀ k2, k2 ≠ "id" → k2 ≠ "key" →
          ((m.delete "id").delete "key").get k2 = m.get k2 := by
        intro k2 ha hb
        rw [GoMap.get_delete_ne _ "key" k2 hb, GoMap.get_delete_ne _ "id" k2 ha]
      simp only [h1, Bool.not_true, Bool.false_eq_true, if_false] at hoff
      simp only [hidStr, huuid]
      by_cases h2 : isString (m.get "key") = true
      · obtain ⟨key, hkey, _⟩ := extractString_string (m.delete "id") "key" (by rw [hkeyget]; exact h2)
        simp only [h2, Bool.not_true, Bool.false_eq_true, if_false] at hoff
        simp only [hkey]
        by_cases h3 : isString (m.get "status") = true
        · obtain ⟨statusStr, hstatus, _⟩ := extractString_string
            ((m.delete "id").delete "key") "status" (by rw [hd _ (by decide) (by decide)]; exact h3)
          simp only [h3, Bool.not_true, Bool.false_eq_true, if_false] at hoff
          simp only [hstatus]
          by_cases h4 : ∃ p, m.get "plan" = some (.map p)
          · obtain ⟨p, hp⟩ := h4
            have hplan := extractMap_map ((m.delete "id").delete "key") "plan" p
              (by rw [hd _ (by decide) (by decide)]; exact hp)
            simp only [hp] at hoff
            simp only [hplan]
            by_cases h5 : isString (GoMap.get p "name") = true
            · simp [h5] at hoff
            · simp only [Bool.not_eq_true] at h5
              simp only [h5, Bool.not_false, if_true, Option.some.injEq] at hoff
              subst hoff
              obtain ⟨e, he, ht, hn⟩ := extractString_not_string p "name" h5
              exact ⟨e, by simp only [he], ht, hn⟩
          · have h4b : ∀ p, m.get "plan" ≠ some (.map p) := fun p hp => h4 ⟨p, hp⟩
            have hk : k = "plan" := by
              cases hv : m.get "plan" with
              | none => simp [hv] at hoff; exact hoff.symm
              | some v =>
                cases v with
                | map p => exact absurd hv (h4b p)
                | _ => simp [hv] at hoff; exact hoff.symm
            subst hk
            obtain ⟨e, he, ht, hn⟩ := extractMap_not_map ((m.delete "id").delete "key") "plan"
              (by intro p; rw [hd _ (by decide) (by decide)]; exact h4b p)
            exact ⟨e, by simp only [he], ht, hn⟩
        · simp only [Bool.not_eq_true] at h3
          simp only [h3, Bool.not_false, if_true, Option.some.injEq] at hoff
          subst hoff
          obtain ⟨e, he, ht, hn⟩ := extractString_not_string ((m.delete "id").delete "key")
            "status" (by rw [hd _ (by decide) (by decide)]; exact h3)
          exact ⟨e, by simp only [he], ht, hn⟩
      · simp only [Bool.not_eq_true] at h2
        simp only [h2, Bool.not_false, if_true, Option.some.injEq] at hoff
        subst hoff
        obtain ⟨e, he, ht, hn⟩ := extractString_not_string (m.delete "id") "key"
          (by rw [hkeyget]; exact h2)
        exact ⟨e, by simp only [he], ht, hn⟩
  · simp only [Bool.not_eq_true] at h1
    simp only [h1, Bool.not_false, if_true, Option.some.injEq] at hoff
    subst hoff
    obtain ⟨e, he, ht, hn⟩ := extractString_not_string m "id" h1
    exact ⟨e, by simp only [he], ht, hn⟩

theorem NewLicense_uuid_error (x : Env) (now : Time) (data : String) (org : UUID)
    (m : GoMap) (idStr : String) (err : GoError) (hm : x.Unmarshal data = .ok m)
    (hget : m.get "id" = some (.string idStr)) (huuid : x.NewUUID idStr = .error err) :
    NewLicense x now data org = .error err := by
  have hidStr : extractString m "id" = .ok idStr := by
    unfold extractString extractKeyFromMapStringInterface
    rw [hget]
    rfl
  unfold NewLicense
  simp only [hm]
  unfold NewLicenseFromMap
  simp only [hidStr, huuid]

/-- C10, amended: for a decoded payload map in which one of the required entries `id`, `key`,
`status`, `plan` or the `name` entry of `plan` is absent or has the wrong type, and whose `id`,
when it is a string, is read by `valuer.NewUUID`, `NewLicense` returns no license and an error
of type InvalidInput whose message names the first offending key in the order id, key, status,
plan, name. For every decoded payload map whose `id` is a string that `valuer.NewUUID`
rejects, `NewLicense` returns the error of `valuer.NewUUID`, whatever `key`, `status` and
`plan` hold. -/
theorem C10_required_entry_or_uuid_error (x : Env) (now : Time) (data : String) (org : UUID)
    (m : GoMap) (hm : x.Unmarshal data = .ok m) :
    (∀ k, firstOffending m = some k → idReadable x m = true →
        ∃ e, NewLicense x now data org = .error e ∧ e.typ = .TypeInvalidInput ∧
          namesKey e k = true) ∧
      (∀ idStr err, m.get "id" = some (.string idStr) → x.NewUUID idStr = .error err →
        NewLicense x now data org = .error err) :=
  ⟨fun k hoff hid => NewLicense_required_entry_error x now data org m k hm hoff hid,
    fun idStr err hget huuid => NewLicense_uuid_error x now data org m idStr err hm hget huuid⟩

/-- C10, amended, at concrete inputs: a payload without `plan` fails with the InvalidInput
error that names `plan`; a payload whose `id` is the empty string fails with the error of
`valuer.NewUUID`. -/
theorem C10_required_entry_or_uuid_witness :
    (firstOffending Sample.noPlanMap = some "plan" ∧
      NewLicense (Sample.env [ (Sample.noPlanText, Sample.noPlanMap) ]) ⟨1700000000⟩
          Sample.noPlanText Sample.org
        = .error (.base .TypeInvalidInput .CodeInvalidInput "plan key is missing") ∧
      ∃ e, NewLicense (Sample.env [ (Sample.noPlanText, Sample.noPlanMap) ]) ⟨1700000000⟩
          Sample.noPlanText Sample.org = .error e ∧ e.typ = .TypeInvalidInput ∧
        namesKey e "plan" = true) ∧
    (Sample.NewUUID "" = .error (.foreign "invalid UUID length: 0") ∧
      NewLicense (Sample.env [ (Sample.badIdText, Sample.badIdMap) ]) ⟨1700000000⟩
          Sample.badIdText Sample.org = .error (.foreign "invalid UUID length: 0")) :=
  ⟨⟨by rfl, by rfl,
      (C10_required_entry_or_uuid_error (Sample.env [ (Sample.noPlanText, Sample.noPlanMap) ])
        ⟨1700000000⟩ Sample.noPlanText Sample.org Sample.noPlanMap (by rfl)).1 "plan"
        (by rfl) (by rfl)⟩,
    ⟨by rfl,
      (C10_required_entry_or_uuid_error (Sample.env [ (Sample.badIdText, Sample.badIdMap) ])
        ⟨1700000000⟩ Sample.badIdText Sample.org Sample.badIdMap (by rfl)).2 ""
        (.foreign "invalid UUID length: 0") (by rfl) (by rfl)⟩⟩

end Claims

/-! ## More lemmas on `NewLicense` -/

namespace Licensetypes

open Spec

theorem firstOffending_none (m : GoMap) (h : firstOffending m = none) :
    isString (m.get "id") = true ∧ isString (m.get "key") = true ∧
      isString (m.get "status") = true ∧
      ∃ p, m.get "plan" = some (.map p) ∧ isString (GoMap.get p "name") = true := by
  unfold firstOffending at h
  by_cases h1 : isString (m.get "id") = true
  · by_cases h2 : isString (m.get "key") = true
    · by_cases h3 : isString (m.get "status") = true
      · simp only [h1, h2, h3, Bool.not_true, Bool.false_eq_true, if_false] at h
        refine ⟨h1, h2, h3, ?_⟩
        cases hv : m.get "plan" with
        | none => simp [hv] at h
        | some v =>
          cases v with
          | map p =>
            refine ⟨p, rfl, ?_⟩
            simp only [hv] at h
            by_cases h5 : isString (GoMap.get p "name") = true
            · exact h5
            · simp [h5] at h
          | _ => simp [hv] at h
      · simp [h1, h2, h3] at h
    · simp [h1, h2] at h
  · simp [h1] at h

theorem get_residual (m : GoMap) (k : String) (h1 : k ≠ "id") (h2 : k ≠ "key") :
    ((m.delete "id").delete "key").get k = m.get k := by
  rw [GoMap.get_delete_ne _ "key" k h2, GoMap.get_delete_ne _ "id" k h1]

theorem NewLicenseFromMap_total (x : Env) (now : Time) (m : GoMap) (org : UUID)
    (hreq : firstOffending m = none) (hid : idReadable x m = true) :
    ∃ L, NewLicenseFromMap x now m org = .ok L := by
  obtain ⟨h1, h2, h3, p, hp, h5⟩ := firstOffending_none m hreq
  obtain ⟨idStr, hidStr, hget⟩ := Claims.extractString_string m "id" h1
  unfold idReadable at hid
  simp only [hget] at hid
  cases huuid : x.NewUUID idStr with
  | error e => simp [huuid] at hid
  | ok id =>
    obtain ⟨key, hkey, _⟩ := Claims.extractString_string (m.delete "id") "key"
      (by rw [GoMap.get_delete_ne m "id" "key" (by decide)]; exact h2)
    obtain ⟨statusStr, hstatus, _⟩ := Claims.extractString_string
      ((m.delete "id").delete "key") "status"
      (by rw [get_residual m _ (by decide) (by decide)]; exact h3)
    have hplan := Claims.extractMap_map ((m.delete "id").delete "key") "plan" p
      (by rw [get_residual m _ (by decide) (by decide)]; exact hp)
    obtain ⟨planNameStr, hname, _⟩ := Claims.extractString_string p "name" h5
    unfold NewLicenseFromMap
    simp only [hidStr, huuid, hkey, hstatus, hplan, hname]
    exact ⟨_, rfl⟩

theorem orDefault_extractString (m : GoMap) (k : String) :
    orDefault (extractString m k) "" =
      (match m.get k with
        | some (.string v) => v
        | _ => "") := by
  unfold extractString extractKeyFromMapStringInterface orDefault
  cases hv : m.get k with
  | none => rfl
  | some v => cases v <;> rfl

theorem orDefault_extractFloat64 (m : GoMap) (k : String) :
    (orDefault (extractFloat64 m k) (Float64.ofInt 0)).toInt64 = numberOf m k := by
  unfold extractFloat64 extractKeyFromMapStringInterface orDefault numberOf
  cases hv : m.get k with
  | none => rfl
  | some v => cases v <;> rfl

theorem Float64.toInt64_ofInt (n : Int) (h1 : -2 ^ 63 ≤ n) (h2 : n < 2 ^ 63) :
    (Float64.ofInt n).toInt64 = n := by
  unfold Float64.toInt64 Float64.ofInt
  simp only [le_refl, if_true, Int.toNat_zero, pow_zero, mul_one]
  rw [if_pos ⟨h1, h2⟩]

end Licensetypes

/-! ## Claims on `NewLicense` -/

namespace Claims

open Licensetypes Spec

/-- C11: for a decoded payload map whose required entries are valid, `NewLicense` succeeds
whatever the optional entries hold: `State` is the `state` entry when it is a string and `""`
otherwise, `FreeUntil` is the parsed `free_until` when it is a string that parses and the zero
time otherwise, `ValidFrom` and `ValidUntil` are the `valid_from` and `valid_until` entries
converted to `int64` when they are numbers and `0` otherwise; a number that is an integer of
the `int64` range gives that integer. `time.Parse` is taken to reject the empty string. -/
theorem C11_optional_entries_defaulted (x : Env) (now : Time) (data : String) (org : UUID)
    (m : GoMap) (hm : x.Unmarshal data = .ok m) (hreq : firstOffending m = none)
    (hid : idReadable x m = true) (hempty : ∃ e, x.ParseRFC3339 "" = .error e) :
    ∃ L, NewLicense x now data org = .ok L ∧ L.State = stateOf m ∧
      L.FreeUntil = freeUntilOf x m ∧ L.ValidFrom = numberOf m "valid_from" ∧
      L.ValidUntil = numberOf m "valid_until" ∧
      (∀ n : Int, -2 ^ 63 ≤ n → n < 2 ^ 63 →
        m.get "valid_from" = some (.float64 (Float64.ofInt n)) → L.ValidFrom = n) ∧
      (∀ n : Int, -2 ^ 63 ≤ n → n < 2 ^ 63 →
        m.get "valid_until" = some (.float64 (Float64.ofInt n)) → L.ValidUntil = n) := by
  obtain ⟨L, hL⟩ := NewLicenseFromMap_total x now m org hreq hid
  obtain ⟨_, _, _, _, _, _, _, _, _, _, hdata, _, _, _, hvf, hvu, hstate, hfree, _⟩ :=
    NewLicenseFromMap_ok x now m org L hL
  have hnum : ∀ k, k ≠ "id" → k ≠ "key" → k ≠ "features" →
      (orDefault (extractFloat64 L.Data k) (Float64.ofInt 0)).toInt64 = numberOf m k := by
    intro k h1 h2 h3
    rw [orDefault_extractFloat64]
    unfold numberOf
    rw [hdata, GoMap.get_set_ne _ _ _ _ h3, get_residual m k h1 h2]
  have hvf2 : L.ValidFrom = numberOf m "valid_from" := by
    rw [hvf]
    exact hnum _ (by decide) (by decide) (by decide)
  have hvu2 : L.ValidUntil = numberOf m "valid_until" := by
    rw [hvu]
    exact hnum _ (by decide) (by decide) (by decide)
  refine ⟨L, ?_, ?_, ?_, hvf2, hvu2, ?_, ?_⟩
  · unfold NewLicense
    simp only [hm]
    exact hL
  · rw [hstate, orDefault_extractString, get_residual m _ (by decide) (by decide)]
    rfl
  · rw [hfree, orDefault_extractString, get_residual m _ (by decide) (by decide)]
    unfold freeUntilOf
    obtain ⟨e, he⟩ := hempty
    cases hv : m.get "free_until" with
    | none => simp only [he, orDefault]
    | some v =>
      cases v with
      | string t =>
        simp only [orDefault]
        cases x.ParseRFC3339 t <;> rfl
      | _ => simp only [he, orDefault]
  · intro n h1 h2 hn
    rw [hvf2]
    unfold numberOf
    rw [hn]
    exact Float64.toInt64_ofInt n h1 h2
  · intro n h1 h2 hn
    rw [hvu2]
    unfold numberOf
    rw [hn]
    exact Float64.toInt64_ofInt n h1 h2

/-- C11 at a concrete input: `state` is a number, `free_until` does not parse, `valid_from` is
absent and `valid_until` is 1800000000.5. -/
theorem C11_optional_entries_witness :
    firstOffending Sample.sparseMap = none ∧
    ∃ L, NewLicense (Sample.env [ (Sample.sparseText, Sample.sparseMap) ]) ⟨1700000000⟩
        Sample.sparseText Sample.org = .ok L ∧
      L.State = "" ∧ L.FreeUntil = Time.zero ∧ L.ValidFrom = 0 ∧ L.ValidUntil = 1800000000 := by
  refine ⟨by rfl, ?_⟩
  obtain ⟨L, hL, h1, h2, h3, h4, _⟩ :=
    C11_optional_entries_defaulted (Sample.env [ (Sample.sparseText, Sample.sparseMap) ])
      ⟨1700000000⟩ Sample.sparseText Sample.org Sample.sparseMap (by rfl) (by rfl) (by rfl)
      ⟨_, by rfl⟩
  exact ⟨L, hL, h1.trans (by rfl), h2.trans (by rfl), h3.trans (by rfl), h4.trans (by rfl)⟩

theorem extractString_ok_get (m : GoMap) (k v : String) (h : extractString m k = .ok v) :
    m.get k = some (.string v) := by
  unfold extractString extractKeyFromMapStringInterface at h
  cases hv : m.get k with
  | none => simp [hv] at h
  | some w =>
    cases w with
    | string t =>
      simp only [hv, Value.asString, Except.ok.injEq] at h
      rw [h]
    | _ => simp [hv, Value.asString] at h

theorem NewLicenseFromMap_data (x : Env) (now : Time) (m : GoMap) (org : UUID) (L : License)
    (h : NewLicenseFromMap x now m org = .ok L) :
    promoted x m L ∧ L.Features = AllFeatures x ∧
      L.Data.get "features" = some (.features (AllFeatures x)) ∧
      ∀ k, k ≠ "id" → k ≠ "key" → k ≠ "features" → L.Data.get k = m.get k := by
  obtain ⟨idStr, _, _, _, hid, huuid, hkey, _, _, _, hdata, _, _, hfe, _⟩ :=
    NewLicenseFromMap_ok x now m org L h
  have hkey2 := extractString_ok_get _ _ _ hkey
  rw [GoMap.get_delete_ne m "id" "key" (by decide)] at hkey2
  refine ⟨⟨?_, ?_, ⟨idStr, extractString_ok_get _ _ _ hid, huuid⟩, hkey2⟩, hfe, ?_, ?_⟩
  · rw [hdata, GoMap.get_set_ne _ _ _ _ (by decide), GoMap.get_delete_ne _ "key" "id" (by decide)]
    exact GoMap.get_delete_self m "id"
  · rw [hdata, GoMap.get_set_ne _ _ _ _ (by decide)]
    exact GoMap.get_delete_self _ "key"
  · rw [hdata]
    exact GoMap.get_set_self _ _ _
  · intro k h1 h2 h3
    rw [hdata, GoMap.get_set_ne _ _ _ _ h3, get_residual m k h1 h2]

theorem NewLicense_data (x : Env) (now : Time) (p : String) (o : UUID) (m : GoMap)
    (L : License) (hm : x.Unmarshal p = .ok m) (h : NewLicense x now p o = .ok L) :
    promoted x m L ∧ L.Features = AllFeatures x ∧
      L.Data.get "features" = some (.features (AllFeatures x)) ∧
      ∀ k, k ≠ "id" → k ≠ "key" → k ≠ "features" → L.Data.get k = m.get k := by
  unfold NewLicense at h
  simp only [hm] at h
  exact NewLicenseFromMap_data x now m o L h

theorem NewLicenseFromStorableLicense_data (x : Env) (s : StorableLicense) (L : License)
    (h : NewLicenseFromStorableLicense x s = .ok L) :
    L.Features = AllFeatures x ∧
      L.Data = s.Data.set "features" (.features (AllFeatures x)) := by
  unfold NewLicenseFromStorableLicense at h
  split at h
  · cases h
  · split at h
    · cases h
    · split at h
      · cases h
      · have hEq := Except.ok.inj h
        subst hEq
        exact ⟨rfl, rfl⟩

/-- C12: when `NewLicense` succeeds on a payload, the data map of the license has neither the
key `id` nor the key `key`, the field `ID` is the UUID of the payload's `id` and the field `Key`
is the payload's `key`; the same holds for a license after a successful `License.Update` with
the payload. -/
theorem C12_id_and_key_promoted (x : Env) (now : Time) (p : String) (o : UUID) (m : GoMap)
    (hm : x.Unmarshal p = .ok m) :
    (∀ L, NewLicense x now p o = .ok L → promoted x m L) ∧
      (∀ (license : License) (currentTime : Time),
        (License.Update x now currentTime license p).2 = none →
        promoted x m (License.Update x now currentTime license p).1) := by
  constructor
  · intro L hL
    exact (NewLicense_data x now p o m L hm hL).1
  · intro license currentTime hnone
    unfold License.Update at hnone ⊢
    cases hU : NewLicense x now p license.OrganizationID with
    | error e => simp [hU] at hnone
    | ok U =>
      simp only [hU]
      exact (NewLicense_data x now p license.OrganizationID m U hm hU).1

/-- C12 at a concrete input: the payload of the upstream authority, parsed by `NewLicense` and
applied to the synthetic license by `License.Update`. -/
theorem C12_id_and_key_promoted_witness :
    promoted (Sample.env [ (Sample.payloadText, Sample.payloadMap) ]) Sample.payloadMap
        Sample.payloadLicense ∧
      promoted (Sample.env [ (Sample.payloadText, Sample.payloadMap) ]) Sample.payloadMap
        (License.Update (Sample.env [ (Sample.payloadText, Sample.payloadMap) ])
          ⟨1700000000⟩ ⟨1700000001⟩
          (NewSyntheticCloudLicense (Sample.env [ (Sample.payloadText, Sample.payloadMap) ])
            ⟨1600000000⟩ Sample.org) Sample.payloadText).1 :=
  ⟨(C12_id_and_key_promoted (Sample.env [ (Sample.payloadText, Sample.payloadMap) ])
      ⟨1700000000⟩ Sample.payloadText Sample.org Sample.payloadMap (by rfl)).1
      Sample.payloadLicense (by rfl),
    (C12_id_and_key_promoted (Sample.env [ (Sample.payloadText, Sample.payloadMap) ])
      ⟨1700000000⟩ Sample.payloadText Sample.org Sample.payloadMap (by rfl)).2
      _ ⟨1700000001⟩ (by rfl)⟩

theorem extractString_of_get (m : GoMap) (k v : String) (h : m.get k = some (.string v)) :
    extractString m k = .ok v := by
  unfold extractString extractKeyFromMapStringInterface
  rw [h]
  rfl

/-- C13: for a payload on which `NewLicense` succeeds and for a stored record on which
`NewLicenseFromStorableLicense` succeeds, `Features` of the license is the catalog
`AllFeatures` and the data map holds the same sequence under `features`, whatever the input
held; the catalog has the seven entries sso, onboarding, chat_support, gateway,
premium_support, anomaly_detection, dot_metrics_enabled in this order, every one active with
usage 0, limit -1 and no route. Both constructors do succeed, with the catalog attached, on
every input whose required entries are valid. -/
theorem C13_features_are_the_catalog (x : Env) (now : Time) (p : String) (o : UUID)
    (L : License) (s : StorableLicense) (L2 : License)
    (h1 : NewLicense x now p o = .ok L) (h2 : NewLicenseFromStorableLicense x s = .ok L2) :
    L.Features = AllFeatures x ∧
      L.Data.get "features" = some (.features (AllFeatures x)) ∧
      L2.Features = AllFeatures x ∧
      L2.Data.get "features" = some (.features (AllFeatures x)) ∧
      (AllFeatures x).map (fun f => f.Name) =
        [ x.NewString "sso", x.NewString "onboarding", x.NewString "chat_support",
          x.NewString "gateway", x.NewString "premium_support",
          x.NewString "anomaly_detection", x.NewString "dot_metrics_enabled" ] ∧
      (AllFeatures x).length = 7 ∧
      (∀ f ∈ AllFeatures x,
        f.Active = true ∧ f.Usage = 0 ∧ f.UsageLimit = -1 ∧ f.Route = "") ∧
      (∀ q m, x.Unmarshal q = .ok m → firstOffending m = none → idReadable x m = true →
        ∃ L3, NewLicense x now q o = .ok L3 ∧ L3.Features = AllFeatures x ∧
          L3.Data.get "features" = some (.features (AllFeatures x))) ∧
      (∀ (r : StorableLicense) status plan name,
        r.Data.get "status" = some (.string status) → r.Data.get "plan" = some (.map plan) →
        GoMap.get plan "name" = some (.string name) →
        ∃ L3, NewLicenseFromStorableLicense x r = .ok L3 ∧ L3.Features = AllFeatures x ∧
          L3.Data.get "features" = some (.features (AllFeatures x))) := by
  have hmap : ∀ q m L3, x.Unmarshal q = .ok m → NewLicense x now q o = .ok L3 →
      L3.Features = AllFeatures x ∧
        L3.Data.get "features" = some (.features (AllFeatures x)) := by
    intro q m L3 hm hL
    obtain ⟨_, hf, hd, _⟩ := NewLicense_data x now q o m L3 hm hL
    exact ⟨hf, hd⟩
  have hrec : ∀ r L3, NewLicenseFromStorableLicense x r = .ok L3 →
      L3.Features = AllFeatures x ∧
        L3.Data.get "features" = some (.features (AllFeatures x)) := by
    intro r L3 hL
    obtain ⟨hf, hd⟩ := NewLicenseFromStorableLicense_data x r L3 hL
    refine ⟨hf, ?_⟩
    rw [hd]
    exact GoMap.get_set_self _ _ _
  have hL : L.Features = AllFeatures x ∧
      L.Data.get "features" = some (.features (AllFeatures x)) := by
    cases hm : x.Unmarshal p with
    | error e => simp [NewLicense, hm] at h1
    | ok m => exact hmap p m L hm h1
  refine ⟨hL.1, hL.2, (hrec s L2 h2).1, (hrec s L2 h2).2, rfl, rfl, ?_, ?_, ?_⟩
  · intro f hf
    simp only [AllFeatures, List.mem_cons, List.mem_singleton, List.not_mem_nil, or_false] at hf
    rcases hf with rfl | rfl | rfl | rfl | rfl | rfl | rfl <;> exact ⟨rfl, rfl, rfl, rfl⟩
  · intro q m hm hreq hid
    obtain ⟨L3, hL3⟩ := NewLicenseFromMap_total x now m o hreq hid
    have hq : NewLicense x now q o = .ok L3 := by
      unfold NewLicense
      simp only [hm]
      exact hL3
    exact ⟨L3, hq, hmap q m L3 hm hq⟩
  · intro r status plan name hs hp hn
    have hp2 : extractMap r.Data "plan" = .ok plan := extractMap_map r.Data "plan" plan hp
    obtain ⟨L3, hL3, _⟩ := NewLicenseFromStorableLicense_ok x r status plan name
      (extractString_of_get _ _ _ hs) hp2 (extractString_of_get _ _ _ hn)
    exact ⟨L3, hL3, hrec r L3 hL3⟩

/-- C13 at concrete inputs: a payload and a stored record that both hold a `features` entry of
their own; both constructors succeed, and `Features` and the `features` entry of the data map
are the catalog. -/
theorem C13_features_witness :
    Sample.sparseMap.get "features" = some (.slice []) ∧
      Sample.featureRecord.Data.get "features" = some (.slice [ .string "sso" ]) ∧
      NewLicense (Sample.env [ (Sample.sparseText, Sample.sparseMap) ]) ⟨1700000000⟩
        Sample.sparseText Sample.org = .ok Sample.sparseLicense ∧
      NewLicenseFromStorableLicense (Sample.env [ (Sample.sparseText, Sample.sparseMap) ])
        Sample.featureRecord = .ok Sample.featureLicense ∧
      Sample.sparseLicense.Features
        = AllFeatures (Sample.env [ (Sample.sparseText, Sample.sparseMap) ]) ∧
      Sample.sparseLicense.Data.get "features" = some
        (.features (AllFeatures (Sample.env [ (Sample.sparseText, Sample.sparseMap) ]))) ∧
      Sample.featureLicense.Features
        = AllFeatures (Sample.env [ (Sample.sparseText, Sample.sparseMap) ]) ∧
      Sample.featureLicense.Data.get "features" = some
        (.features (AllFeatures (Sample.env [ (Sample.sparseText, Sample.sparseMap) ]))) :=
  ⟨by rfl, by rfl, by rfl, by rfl,
    (C13_features_are_the_catalog (Sample.env [ (Sample.sparseText, Sample.sparseMap) ])
      ⟨1700000000⟩ Sample.sparseText Sample.org Sample.sparseLicense Sample.featureRecord
      Sample.featureLicense (by rfl) (by rfl)).1,
    (C13_features_are_the_catalog (Sample.env [ (Sample.sparseText, Sample.sparseMap) ])
      ⟨1700000000⟩ Sample.sparseText Sample.org Sample.sparseLicense Sample.featureRecord
      Sample.featureLicense (by rfl) (by rfl)).2.1,
    (C13_features_are_the_catalog (Sample.env [ (Sample.sparseText, Sample.sparseMap) ])
      ⟨1700000000⟩ Sample.sparseText Sample.org Sample.sparseLicense Sample.featureRecord
      Sample.featureLicense (by rfl) (by rfl)).2.2.1,
    (C13_features_are_the_catalog (Sample.env [ (Sample.sparseText, Sample.sparseMap) ])
      ⟨1700000000⟩ Sample.sparseText Sample.org Sample.sparseLicense Sample.featureRecord
      Sample.featureLicense (by rfl) (by rfl)).2.2.2.1⟩

/-- C14: when `NewLicense` succeeds on the decoded payload map `m`, the data map of the license
has exactly the keys of `m` without `id` and `key` and with `features`, and under every key of
`m` other than `id`, `key` and `features` it holds the value `m` holds. -/
theorem C14_other_entries_preserved (x : Env) (now : Time) (p : String) (o : UUID) (m : GoMap)
    (L : License) (hm : x.Unmarshal p = .ok m) (h : NewLicense x now p o = .ok L) :
    (∀ k, k ≠ "id" → k ≠ "key" → k ≠ "features" → L.Data.get k = m.get k) ∧
      L.Data.get "id" = none ∧ L.Data.get "key" = none ∧
      L.Data.get "features" = some (.features (AllFeatures x)) ∧
      ∀ k, (L.Data.get k).isSome = true ↔
        (k = "features" ∨ (k ≠ "id" ∧ k ≠ "key" ∧ (m.get k).isSome = true)) := by
  obtain ⟨⟨hid, hkey, _, _⟩, _, hfeat, hrest⟩ := NewLicense_data x now p o m L hm h
  refine ⟨hrest, hid, hkey, hfeat, ?_⟩
  intro k
  by_cases h3 : k = "features"
  · subst h3
    simp [hfeat]
  · by_cases h1 : k = "id"
    · subst h1
      simp [hid]
    · by_cases h2 : k = "key"
      · subst h2
        simp [hkey]
      · rw [hrest k h1 h2 h3]
        simp [h1, h2, h3]

/-- C14 at a concrete input: a payload with a `features` entry of its own and an `id` inside
`plan`; the entries `status`, `plan`, `state`, `free_until` and `valid_until` are kept. -/
theorem C14_other_entries_witness :
    NewLicense (Sample.env [ (Sample.sparseText, Sample.sparseMap) ]) ⟨1700000000⟩
        Sample.sparseText Sample.org = .ok Sample.sparseLicense ∧
      (∀ k, k ≠ "id" → k ≠ "key" → k ≠ "features" →
        Sample.sparseLicense.Data.get k = Sample.sparseMap.get k) ∧
      Sample.sparseLicense.Data.get "id" = none ∧
      Sample.sparseLicense.Data.get "key" = none :=
  ⟨by rfl,
    (C14_other_entries_preserved (Sample.env [ (Sample.sparseText, Sample.sparseMap) ])
      ⟨1700000000⟩ Sample.sparseText Sample.org Sample.sparseMap Sample.sparseLicense
      (by rfl) (by rfl)).1,
    (C14_other_entries_preserved (Sample.env [ (Sample.sparseText, Sample.sparseMap) ])
      ⟨1700000000⟩ Sample.sparseText Sample.org Sample.sparseMap Sample.sparseLicense
      (by rfl) (by rfl)).2.1,
    (C14_other_entries_preserved (Sample.env [ (Sample.sparseText, Sample.sparseMap) ])
      ⟨1700000000⟩ Sample.sparseText Sample.org Sample.sparseMap Sample.sparseLicense
      (by rfl) (by rfl)).2.2.1⟩

end Claims

/-! ## Claims on the synthetic license -/

namespace Claims

open Licensetypes Spec

/-- C15, counterexample: with `valuer.NewString` trimming and lower-casing its argument, the
`Status` of the synthetic license of the sample organization is the `valuer.String` with the
text "valid", which is not the one with the text "VALID". -/
theorem C15_synthetic_status_is_lower_case :
    (NewSyntheticCloudLicense (Sample.env []) ⟨1700000000⟩ Sample.org).Status = ⟨"valid"⟩ ∧
      (NewSyntheticCloudLicense (Sample.env []) ⟨1700000000⟩ Sample.org).Status
        ≠ ⟨"VALID"⟩ :=
  ⟨by rfl, by decide⟩

/-- C15, amended: for every organization `o`, `NewSyntheticCloudLicense` returns a license
with the zero-value ID, `Key = ""`, `ValidFrom = 0`, `ValidUntil = -1`, `State = "ACTIVE"`,
`OrganizationID = o` and `Features` the catalog `AllFeatures`; `Status` is
`valuer.NewString("VALID")` and `PlanName` is `valuer.NewString("cloud")`, and with
`valuer.NewString` trimming and lower-casing its argument their texts are "valid" and
"cloud". -/
theorem C15_synthetic_license_fields (x : Env) (now : Time) (o : UUID)
    (hns : ∀ v, x.NewString v = Sample.NewString v) :
    (NewSyntheticCloudLicense x now o).ID = UUID.zero ∧
      (NewSyntheticCloudLicense x now o).Key = "" ∧
      (NewSyntheticCloudLicense x now o).ValidFrom = 0 ∧
      (NewSyntheticCloudLicense x now o).ValidUntil = -1 ∧
      (NewSyntheticCloudLicense x now o).Status = x.NewString "VALID" ∧
      (NewSyntheticCloudLicense x now o).Status.val = "valid" ∧
      (NewSyntheticCloudLicense x now o).State = "ACTIVE" ∧
      (NewSyntheticCloudLicense x now o).PlanName = x.NewString "cloud" ∧
      (NewSyntheticCloudLicense x now o).PlanName.val = "cloud" ∧
      (NewSyntheticCloudLicense x now o).OrganizationID = o ∧
      (NewSyntheticCloudLicense x now o).Features = AllFeatures x := by
  have hstatus : (NewSyntheticCloudLicense x now o).Status.val = "valid" := by
    show (x.NewString "VALID").val = "valid"
    rw [hns]
    rfl
  have hplan : (NewSyntheticCloudLicense x now o).PlanName.val = "cloud" := by
    show (x.NewString "cloud").val = "cloud"
    rw [hns]
    rfl
  exact ⟨rfl, rfl, rfl, rfl, rfl, hstatus, rfl, rfl, hplan, rfl, rfl⟩

/-- C15, amended, at a concrete input: the synthetic license of the sample organization. -/
theorem C15_synthetic_license_witness :
    (NewSyntheticCloudLicense (Sample.env []) ⟨1700000000⟩ Sample.org).ID = UUID.zero ∧
      (NewSyntheticCloudLicense (Sample.env []) ⟨1700000000⟩ Sample.org).Key = "" ∧
      (NewSyntheticCloudLicense (Sample.env []) ⟨1700000000⟩ Sample.org).ValidFrom = 0 ∧
      (NewSyntheticCloudLicense (Sample.env []) ⟨1700000000⟩ Sample.org).ValidUntil = -1 ∧
      (NewSyntheticCloudLicense (Sample.env []) ⟨1700000000⟩ Sample.org).Status
        = (Sample.env []).NewString "VALID" ∧
      (NewSyntheticCloudLicense (Sample.env []) ⟨1700000000⟩ Sample.org).Status.val
        = "valid" ∧
      (NewSyntheticCloudLicense (Sample.env []) ⟨1700000000⟩ Sample.org).State = "ACTIVE" ∧
      (NewSyntheticCloudLicense (Sample.env []) ⟨1700000000⟩ Sample.org).PlanName
        = (Sample.env []).NewString "cloud" ∧
      (NewSyntheticCloudLicense (Sample.env []) ⟨1700000000⟩ Sample.org).PlanName.val
        = "cloud" ∧
      (NewSyntheticCloudLicense (Sample.env []) ⟨1700000000⟩ Sample.org).OrganizationID
        = Sample.org ∧
      (NewSyntheticCloudLicense (Sample.env []) ⟨1700000000⟩ Sample.org).Features
        = AllFeatures (Sample.env []) :=
  C15_synthetic_license_fields (Sample.env []) ⟨1700000000⟩ Sample.org (fun _ => rfl)

/-- C16: for every organization `o`, `NewLicenseFromStorableLicense` succeeds on the storable
projection of `NewSyntheticCloudLicense(o)` and yields the same PlanName ("cloud"), Status
("VALID"), State ("ACTIVE"), ValidFrom (0), ValidUntil (-1), FreeUntil (zero time), Key ("")
and Features as the synthetic license. `time.Parse` is taken to reject the empty string. -/
theorem C16_synthetic_data_mirrors_fields (x : Env) (now : Time) (o : UUID)
    (hempty : ∃ e, x.ParseRFC3339 "" = .error e) :
    ∃ L2, NewLicenseFromStorableLicense x
        (NewStorableLicenseFromLicense (NewSyntheticCloudLicense x now o)) = .ok L2 ∧
      L2.PlanName = (NewSyntheticCloudLicense x now o).PlanName ∧
      L2.PlanName = x.NewString "cloud" ∧
      L2.Status = (NewSyntheticCloudLicense x now o).Status ∧
      L2.Status = x.NewString "VALID" ∧
      L2.State = (NewSyntheticCloudLicense x now o).State ∧ L2.State = "ACTIVE" ∧
      L2.ValidFrom = (NewSyntheticCloudLicense x now o).ValidFrom ∧ L2.ValidFrom = 0 ∧
      L2.ValidUntil = (NewSyntheticCloudLicense x now o).ValidUntil ∧ L2.ValidUntil = -1 ∧
      L2.FreeUntil = (NewSyntheticCloudLicense x now o).FreeUntil ∧ L2.FreeUntil = Time.zero ∧
      L2.Key = (NewSyntheticCloudLicense x now o).Key ∧ L2.Key = "" ∧
      L2.Features = (NewSyntheticCloudLicense x now o).Features := by
  obtain ⟨L2, hL2, _, hkey, _, hdata, hpn, hst, hfe, hvf, hvu, hstate, hfree, _⟩ :=
    NewLicenseFromStorableLicense_ok x
      (NewStorableLicenseFromLicense (NewSyntheticCloudLicense x now o)) "VALID"
      [ ("name", .string "cloud"), ("is_active", .bool true), ("description", .string ""),
        ("created_at", .string (x.FormatRFC3339 now)),
        ("updated_at", .string (x.FormatRFC3339 now)) ] "cloud" (by rfl) (by rfl) (by rfl)
  obtain ⟨e, he⟩ := hempty
  have hvf0 : L2.ValidFrom = 0 := by
    rw [hvf, hdata]
    rfl
  have hvu1 : L2.ValidUntil = -1 := by
    rw [hvu, hdata]
    rfl
  have hstate1 : L2.State = "ACTIVE" := by
    rw [hstate, hdata]
    rfl
  have hfree0 : L2.FreeUntil = Time.zero := by
    rw [hfree, hdata]
    have hs : orDefault (extractString
        ((NewStorableLicenseFromLicense (NewSyntheticCloudLicense x now o)).Data.set "features"
          (.features (AllFeatures x))) "free_until") "" = "" := by rfl
    rw [hs, he]
    rfl
  exact ⟨L2, hL2, hpn, hpn, hst, hst, hstate1, hstate1, hvf0, hvf0, hvu1, hvu1, hfree0, hfree0,
    hkey, hkey, hfe⟩

/-- C16 at a concrete input: the synthetic license of the sample organization. -/
theorem C16_synthetic_data_witness :
    ∃ L2, NewLicenseFromStorableLicense (Sample.env [])
        (NewStorableLicenseFromLicense
          (NewSyntheticCloudLicense (Sample.env []) ⟨1700000000⟩ Sample.org)) = .ok L2 ∧
      L2.PlanName = (Sample.env []).NewString "cloud" ∧
      L2.Status = (Sample.env []).NewString "VALID" ∧ L2.State = "ACTIVE" ∧
      L2.ValidFrom = 0 ∧ L2.ValidUntil = -1 ∧ L2.FreeUntil = Time.zero ∧ L2.Key = "" ∧
      L2.Features = AllFeatures (Sample.env []) := by
  obtain ⟨L2, h, _, h1, _, h2, _, h3, _, h4, _, h5, _, h6, _, h7, h8⟩ :=
    C16_synthetic_data_mirrors_fields (Sample.env []) ⟨1700000000⟩ Sample.org ⟨_, by rfl⟩
  exact ⟨L2, h, h1, h2, h3, h4, h5, h6, h7, h8⟩

end Claims

/-! ## Independence of the selection from `status` and `state` -/

namespace Licensetypes

open Spec

theorem extract_congr {T : Type} (assertT : Value → Option T) (typeName : String)
    (d1 d2 : GoMap) (k : String) (h : d1.get k = d2.get k) :
    extractKeyFromMapStringInterface assertT typeName d1 k =
      extractKeyFromMapStringInterface assertT typeName d2 k := by
  unfold extractKeyFromMapStringInterface
  rw [h]

theorem extractString_sameOrStrings (d1 d2 : GoMap) (k : String)
    (h : sameOrStrings d1 d2 k) :
    (∃ e, extractString d1 k = .error e ∧ extractString d2 k = .error e) ∨
      (∃ a b, extractString d1 k = .ok a ∧ extractString d2 k = .ok b) := by
  rcases h with heq | ⟨h1, h2⟩
  · have hc : extractString d1 k = extractString d2 k := extract_congr _ _ d1 d2 k heq
    cases h1 : extractString d1 k with
    | error e => exact Or.inl ⟨e, rfl, by rw [← hc, h1]⟩
    | ok a => exact Or.inr ⟨a, a, rfl, by rw [← hc, h1]⟩
  · obtain ⟨a, ha, _⟩ := Claims.extractString_string d1 k h1
    obtain ⟨b, hb, _⟩ := Claims.extractString_string d2 k h2
    exact Or.inr ⟨a, b, ha, hb⟩

theorem NewLicenseFromStorableLicense_related (x : Env) (r1 r2 : StorableLicense)
    (h : differOnlyInStatusState r1 r2) :
    (∃ e, NewLicenseFromStorableLicense x r1 = .error e ∧
        NewLicenseFromStorableLicense x r2 = .error e) ∨
      (∃ L1 L2, NewLicenseFromStorableLicense x r1 = .ok L1 ∧
        NewLicenseFromStorableLicense x r2 = .ok L2 ∧
        L1.ValidFrom = L2.ValidFrom ∧ L1.ValidUntil = L2.ValidUntil) := by
  obtain ⟨_, _, _, _, _, _, hrest, hstatus, _⟩ := h
  have hplan : extractMap r1.Data "plan" = extractMap r2.Data "plan" :=
    extract_congr _ _ _ _ _ (hrest _ (by decide) (by decide))
  rcases extractString_sameOrStrings _ _ _ hstatus with ⟨e, h1, h2⟩ | ⟨a, b, h1, h2⟩
  · left
    refine ⟨e, ?_, ?_⟩
    · unfold NewLicenseFromStorableLicense
      simp only [h1]
    · unfold NewLicenseFromStorableLicense
      simp only [h2]
  · cases hp : extractMap r1.Data "plan" with
    | error e =>
      left
      refine ⟨e, ?_, ?_⟩
      · unfold NewLicenseFromStorableLicense
        simp only [h1, hp]
      · unfold NewLicenseFromStorableLicense
        simp only [h2, ← hplan, hp]
    | ok pm =>
      cases hn : extractString pm "name" with
      | error e =>
        left
        refine ⟨e, ?_, ?_⟩
        · unfold NewLicenseFromStorableLicense
          simp only [h1, hp, hn]
        · unfold NewLicenseFromStorableLicense
          simp only [h2, ← hplan, hp, hn]
      | ok n =>
        right
        obtain ⟨L1, hL1, _, _, _, hd1, _, _, _, hvf1, hvu1, _⟩ :=
          NewLicenseFromStorableLicense_ok x r1 a pm n h1 hp hn
        obtain ⟨L2, hL2, _, _, _, hd2, _, _, _, hvf2, hvu2, _⟩ :=
          NewLicenseFromStorableLicense_ok x r2 b pm n h2 (by rw [← hplan, hp]) hn
        have hnum : ∀ k, k ≠ "status" → k ≠ "state" → k ≠ "features" →
            extractFloat64 L1.Data k = extractFloat64 L2.Data k := by
          intro k ha hb hc
          rw [hd1, hd2]
          unfold extractFloat64
          rw [extract_set_ne _ _ _ _ _ _ hc, extract_set_ne _ _ _ _ _ _ hc]
          exact extract_congr _ _ _ _ _ (hrest k ha hb)
        refine ⟨L1, L2, hL1, hL2, ?_, ?_⟩
        · rw [hvf1, hvf2, hnum _ (by decide) (by decide) (by decide)]
        · rw [hvu1, hvu2, hnum _ (by decide) (by decide) (by decide)]

theorem selectStepAt_related (now : Int) (a1 a2 : Option (Nat × License)) (i : Nat)
    (L1 L2 : License) (hvf : L1.ValidFrom = L2.ValidFrom) (hvu : L1.ValidUntil = L2.ValidUntil)
    (ha : selectionKey a1 = selectionKey a2) :
    selectionKey (selectStepAt now a1 i L1) = selectionKey (selectStepAt now a2 i L2) := by
  have hel : eligible now L1 = eligible now L2 := by
    unfold eligible
    rw [hvf, hvu]
  have hne : notExpired now L1 = notExpired now L2 := by
    unfold notExpired
    rw [hvu]
  cases a1 with
  | none =>
    cases a2 with
    | none =>
      rw [selectStepAt_none, selectStepAt_none, hel]
      by_cases h : eligible now L2 = true
      · simp [h, selectionKey, hvf]
      · simp [h, selectionKey]
    | some p => simp [selectionKey] at ha
  | some p =>
    cases a2 with
    | none => simp [selectionKey] at ha
    | some q =>
      obtain ⟨k1, A1⟩ := p
      obtain ⟨k2, A2⟩ := q
      simp only [selectionKey, Option.map_some', Option.some.injEq, Prod.mk.injEq] at ha
      obtain ⟨hk, hA⟩ := ha
      rw [selectStepAt_some, selectStepAt_some, hne, hvf, hA]
      by_cases h : (decide (L2.ValidFrom > A2.ValidFrom) && notExpired now L2) = true
      · simp [h, selectionKey, hvf]
      · simp [h, selectionKey, hk, hA]

theorem selectLoopAt_related (x : Env) (now : Int) (l1 l2 : List StorableLicense)
    (h : List.Forall₂ differOnlyInStatusState l1 l2) (i : Nat)
    (a1 a2 : Option (Nat × License)) (ha : selectionKey a1 = selectionKey a2) :
    (∃ e, selectLoopAt x now l1 i a1 = .error e ∧ selectLoopAt x now l2 i a2 = .error e) ∨
      (∃ r1 r2, selectLoopAt x now l1 i a1 = .ok r1 ∧ selectLoopAt x now l2 i a2 = .ok r2 ∧
        selectionKey r1 = selectionKey r2) := by
  induction h generalizing i a1 a2 with
  | nil => exact Or.inr ⟨a1, a2, rfl, rfl, ha⟩
  | @cons r1 r2 t1 t2 hr _ ih =>
    unfold selectLoopAt
    rcases NewLicenseFromStorableLicense_related x r1 r2 hr with
      ⟨e, h1, h2⟩ | ⟨L1, L2, h1, h2, hvf, hvu⟩
    · exact Or.inl ⟨e, by simp only [h1], by simp only [h2]⟩
    · simp only [h1, h2]
      exact ih (i + 1) _ _ (selectStepAt_related now a1 a2 i L1 L2 hvf hvu ha)

theorem GetActiveLicenseAt_position (x : Env) (now : Int) (l : List StorableLicense)
    (org : UUID) (i : Nat) (L : License) (h : GetActiveLicenseAt x now l org = .ok (i, L)) :
    ∃ s, l[i]? = some s ∧ NewLicenseFromStorableLicense x s = .ok L := by
  have hloop : selectLoopAt x now l 0 none = .ok (some (i, L)) := by
    unfold GetActiveLicenseAt at h
    cases hl : selectLoopAt x now l 0 none with
    | error e => simp [hl] at h
    | ok r =>
      cases r with
      | none => simp [hl] at h
      | some p =>
        simp only [hl, Except.ok.injEq] at h
        rw [h]
  have hinit : scanned x now [] none := by
    unfold scanned
    intro s hs
    cases hs
  have hfinal := scanned_loop x now l [] none (some (i, L)) hinit hloop
  simp only [List.nil_append] at hfinal
  unfold scanned at hfinal
  exact hfinal.1

theorem GetActiveLicenseAt_related (x : Env) (now : Int) (l1 l2 : List StorableLicense)
    (org : UUID) (h : List.Forall₂ differOnlyInStatusState l1 l2) :
    (∃ e, GetActiveLicenseAt x now l1 org = .error e ∧
        GetActiveLicenseAt x now l2 org = .error e) ∨
      (∃ i L1 L2, GetActiveLicenseAt x now l1 org = .ok (i, L1) ∧
        GetActiveLicenseAt x now l2 org = .ok (i, L2)) := by
  unfold GetActiveLicenseAt
  rcases selectLoopAt_related x now l1 l2 h 0 none none rfl with
    ⟨e, h1, h2⟩ | ⟨r1, r2, h1, h2, hk⟩
  · exact Or.inl ⟨e, by simp only [h1], by simp only [h2]⟩
  · cases r1 with
    | none =>
      cases r2 with
      | none =>
        exact Or.inl ⟨Newf .TypeNotFound .CodeNotFound
          ("no active license found for the organization " ++ org.StringValue),
          by simp only [h1], by simp only [h2]⟩
      | some q => simp [selectionKey] at hk
    | some p =>
      cases r2 with
      | none => simp [selectionKey] at hk
      | some q =>
        obtain ⟨k1, A1⟩ := p
        obtain ⟨k2, A2⟩ := q
        simp only [selectionKey, Option.map_some', Option.some.injEq, Prod.mk.injEq] at hk
        obtain ⟨hk1, _⟩ := hk
        subst hk1
        exact Or.inr ⟨k1, A1, A2, by simp only [h1], by simp only [h2]⟩

end Licensetypes

/-! ## Claims on the independence from `status` and `state` -/

namespace Claims

open Licensetypes Spec

theorem taggedRecord_differ (id key s1 t1 s2 t2 : String) (withPlan : Bool) (vf vu : Int) :
    differOnlyInStatusState (Sample.taggedRecord id key s1 t1 withPlan vf vu)
      (Sample.taggedRecord id key s2 t2 withPlan vf vu) := by
  refine ⟨rfl, rfl, rfl, rfl, rfl, rfl, ?_, Or.inr ⟨rfl, rfl⟩, Or.inr ⟨rfl, rfl⟩⟩
  intro k h1 h2
  have hb1 : (k == "status") = false := by simpa using h1
  have hb2 : (k == "state") = false := by simpa using h2
  simp only [Sample.taggedRecord, GoMap.get, List.cons_append, List.nil_append,
    List.lookup_cons, hb1, hb2]

/-- C17, counterexample: two lists of one record each that differ only in the strings under
`status` and `state`; the record has no `plan`, and for both lists the selector fails with the
InvalidInput error of the parser: neither NotFound nor a license. -/
theorem C17_both_fail_with_parse_error :
    List.Forall₂ differOnlyInStatusState
        [ Sample.taggedRecord "00000000-0000-0000-0000-00000000000a" "key-a" "VALID" "ACTIVE"
            false 100 (-1) ]
        [ Sample.taggedRecord "00000000-0000-0000-0000-00000000000a" "key-a" "EXPIRED"
            "CANCELLED" false 100 (-1) ] ∧
      GetActiveLicenseFromStorableLicenses (Sample.env []) 200
        [ Sample.taggedRecord "00000000-0000-0000-0000-00000000000a" "key-a" "VALID" "ACTIVE"
            false 100 (-1) ] Sample.org
        = .error (.base .TypeInvalidInput .CodeInvalidInput "plan key is missing") ∧
      GetActiveLicenseFromStorableLicenses (Sample.env []) 200
        [ Sample.taggedRecord "00000000-0000-0000-0000-00000000000a" "key-a" "EXPIRED"
            "CANCELLED" false 100 (-1) ] Sample.org
        = .error (.base .TypeInvalidInput .CodeInvalidInput "plan key is missing") ∧
      (GoError.base .TypeInvalidInput .CodeInvalidInput "plan key is missing").typ
        ≠ .TypeNotFound :=
  ⟨List.Forall₂.cons (taggedRecord_differ _ _ _ _ _ _ _ _ _) List.Forall₂.nil,
    by rfl, by rfl, by decide⟩

/-- C17, amended: for two lists of stored licenses of equal length that differ only in the
strings stored under `status` and `state`, and for the same evaluation time, the selector gives
the same outcome: both fail with the same error, which is NotFound or the InvalidInput error
of a record that does not parse, or both return the license built from the record at the same
list position; when every record parses, both fail with NotFound or both return that
license. -/
theorem C17_selection_ignores_status_and_state (x : Env) (now : Int)
    (l1 l2 : List StorableLicense) (org : UUID)
    (h : List.Forall₂ differOnlyInStatusState l1 l2) :
    l1.length = l2.length ∧
      ((∃ e, GetActiveLicenseFromStorableLicenses x now l1 org = .error e ∧
          GetActiveLicenseFromStorableLicenses x now l2 org = .error e ∧
          (e = notFoundError org ∨
            (e.typ = .TypeInvalidInput ∧
              ∃ s ∈ l1, NewLicenseFromStorableLicense x s = .error e))) ∨
        (∃ i L1 L2 s1 s2, GetActiveLicenseAt x now l1 org = .ok (i, L1) ∧
          GetActiveLicenseAt x now l2 org = .ok (i, L2) ∧
          GetActiveLicenseFromStorableLicenses x now l1 org = .ok L1 ∧
          GetActiveLicenseFromStorableLicenses x now l2 org = .ok L2 ∧
          l1[i]? = some s1 ∧ NewLicenseFromStorableLicense x s1 = .ok L1 ∧
          l2[i]? = some s2 ∧ NewLicenseFromStorableLicense x s2 = .ok L2)) ∧
      ((∀ s ∈ l1, parses x s = true) →
        (GetActiveLicenseFromStorableLicenses x now l1 org = .error (notFoundError org) ∧
          GetActiveLicenseFromStorableLicenses x now l2 org = .error (notFoundError org)) ∨
        (∃ i L1 L2, GetActiveLicenseAt x now l1 org = .ok (i, L1) ∧
          GetActiveLicenseAt x now l2 org = .ok (i, L2) ∧
          GetActiveLicenseFromStorableLicenses x now l1 org = .ok L1 ∧
          GetActiveLicenseFromStorableLicenses x now l2 org = .ok L2)) := by
  have hmain : (∃ e, GetActiveLicenseFromStorableLicenses x now l1 org = .error e ∧
          GetActiveLicenseFromStorableLicenses x now l2 org = .error e ∧
          (e = notFoundError org ∨
            (e.typ = .TypeInvalidInput ∧
              ∃ s ∈ l1, NewLicenseFromStorableLicense x s = .error e))) ∨
        (∃ i L1 L2 s1 s2, GetActiveLicenseAt x now l1 org = .ok (i, L1) ∧
          GetActiveLicenseAt x now l2 org = .ok (i, L2) ∧
          GetActiveLicenseFromStorableLicenses x now l1 org = .ok L1 ∧
          GetActiveLicenseFromStorableLicenses x now l2 org = .ok L2 ∧
          l1[i]? = some s1 ∧ NewLicenseFromStorableLicense x s1 = .ok L1 ∧
          l2[i]? = some s2 ∧ NewLicenseFromStorableLicense x s2 = .ok L2) := by
    have e1 := GetActiveLicenseAt_erase x now l1 org
    have e2 := GetActiveLicenseAt_erase x now l2 org
    rcases GetActiveLicenseAt_related x now l1 l2 org h with
      ⟨e, h1, h2⟩ | ⟨i, L1, L2, h1, h2⟩
    · left
      rw [h1] at e1
      rw [h2] at e2
      refine ⟨e, e1.symm, e2.symm, ?_⟩
      rcases (selector_error_iff x now l1 org e).mp e1.symm with hl | ⟨_, hnf⟩
      · obtain ⟨s, hs, hse⟩ := selectLoop_error x now l1 none e hl
        exact Or.inr ⟨NewLicenseFromStorableLicense_error_typ x s e hse, s, hs, hse⟩
      · exact Or.inl hnf
    · right
      obtain ⟨s1, hs1, hp1⟩ := GetActiveLicenseAt_position x now l1 org i L1 h1
      obtain ⟨s2, hs2, hp2⟩ := GetActiveLicenseAt_position x now l2 org i L2 h2
      rw [h1] at e1
      rw [h2] at e2
      exact ⟨i, L1, L2, s1, s2, h1, h2, e1.symm, e2.symm, hs1, hp1, hs2, hp2⟩
  refine ⟨h.length_eq, hmain, ?_⟩
  intro hp
  rcases hmain with ⟨e, h1, h2, hnf | ⟨_, s, hs, hse⟩⟩ | ⟨i, L1, L2, _, _, h1, h2, h3, h4, _⟩
  · subst hnf
    exact Or.inl ⟨h1, h2⟩
  · have := hp s hs
    unfold parses at this
    simp [hse] at this
  · exact Or.inr ⟨i, L1, L2, h1, h2, h3, h4⟩

/-- C17, amended, at a concrete input: two records each, the second of the greater
`valid_from`; both lists select position 1. -/
theorem C17_selection_witness :
    ∃ i L1 L2, GetActiveLicenseAt (Sample.env []) 1700000000
        [ Sample.taggedRecord "00000000-0000-0000-0000-00000000000a" "key-a" "VALID" "ACTIVE"
            true 1500000000 (-1),
          Sample.taggedRecord "00000000-0000-0000-0000-00000000000b" "key-b" "VALID" "ACTIVE"
            true 1600000000 (-1) ] Sample.org = .ok (i, L1) ∧
      GetActiveLicenseAt (Sample.env []) 1700000000
        [ Sample.taggedRecord "00000000-0000-0000-0000-00000000000a" "key-a" "VALID" "ACTIVE"
            true 1500000000 (-1),
          Sample.taggedRecord "00000000-0000-0000-0000-00000000000b" "key-b" "EXPIRED"
            "CANCELLED" true 1600000000 (-1) ] Sample.org = .ok (i, L2) ∧
      i = 1 ∧ L1.Key = "key-b" ∧ L2.Key = "key-b" := by
  rcases (C17_selection_ignores_status_and_state (Sample.env []) 1700000000
    [ Sample.taggedRecord "00000000-0000-0000-0000-00000000000a" "key-a" "VALID" "ACTIVE"
        true 1500000000 (-1),
      Sample.taggedRecord "00000000-0000-0000-0000-00000000000b" "key-b" "VALID" "ACTIVE"
        true 1600000000 (-1) ]
    [ Sample.taggedRecord "00000000-0000-0000-0000-00000000000a" "key-a" "VALID" "ACTIVE"
        true 1500000000 (-1),
      Sample.taggedRecord "00000000-0000-0000-0000-00000000000b" "key-b" "EXPIRED"
        "CANCELLED" true 1600000000 (-1) ]
    Sample.org
    (List.Forall₂.cons (taggedRecord_differ _ _ _ _ _ _ _ _ _)
      (List.Forall₂.cons (taggedRecord_differ _ _ _ _ _ _ _ _ _) List.Forall₂.nil))).2.1 with
    ⟨e, h1, _⟩ | ⟨i, L1, L2, _, _, h1, h2, h3, h4, _⟩
  · have hok : (GetActiveLicenseFromStorableLicenses (Sample.env []) 1700000000
        [ Sample.taggedRecord "00000000-0000-0000-0000-00000000000a" "key-a" "VALID" "ACTIVE"
            true 1500000000 (-1),
          Sample.taggedRecord "00000000-0000-0000-0000-00000000000b" "key-b" "VALID" "ACTIVE"
            true 1600000000 (-1) ] Sample.org).map (fun L => L.Key) = .ok "key-b" := by rfl
    rw [h1] at hok
    cases hok
  · have hk1 : (GetActiveLicenseAt (Sample.env []) 1700000000
        [ Sample.taggedRecord "00000000-0000-0000-0000-00000000000a" "key-a" "VALID" "ACTIVE"
            true 1500000000 (-1),
          Sample.taggedRecord "00000000-0000-0000-0000-00000000000b" "key-b" "VALID" "ACTIVE"
            true 1600000000 (-1) ] Sample.org).map (fun q => (q.1, q.2.Key))
        = .ok (1, "key-b") := by rfl
    have hk2 : (GetActiveLicenseAt (Sample.env []) 1700000000
        [ Sample.taggedRecord "00000000-0000-0000-0000-00000000000a" "key-a" "VALID" "ACTIVE"
            true 1500000000 (-1),
          Sample.taggedRecord "00000000-0000-0000-0000-00000000000b" "key-b" "EXPIRED"
            "CANCELLED" true 1600000000 (-1) ] Sample.org).map (fun q => (q.1, q.2.Key))
        = .ok (1, "key-b") := by rfl
    rw [h1] at hk1
    rw [h2] at hk2
    simp only [Except.map, Except.ok.injEq, Prod.mk.injEq] at hk1 hk2
    exact ⟨i, L1, L2, h1, h2, hk1.1, hk1.2, hk2.2⟩

end Claims

/-! ## Claims on the upstream provider, on `Activate` and on the feature-flag listing -/

namespace Claims

open Licensetypes Spec Httplicensing Httpzeus Api

theorem tdiv_hundred_eq_two (s : Int) : Int.tdiv s 100 = 2 ↔ 200 ≤ s ∧ s ≤ 299 := by
  by_cases hs : 0 ≤ s
  · rw [Int.tdiv_eq_ediv hs (by decide)]
    omega
  · have hneg : 0 ≤ -s := by omega
    have h1 : Int.tdiv s 100 = -(Int.tdiv (-s) 100) := by
      rw [Int.neg_tdiv, neg_neg]
    have h2 := Int.tdiv_nonneg hneg (show (0 : Int) ≤ 100 by decide)
    constructor
    · intro h
      omega
    · intro h
      omega

/-- C18: for every status code `s` of a response that was received and read, `Provider.do`
returns the body and no error if and only if `s / 100 == 2`, that is for 200 to 299, and
otherwise the error of `errFromStatusCode(s)`; that error has type InvalidInput for 400,
Unauthenticated for 401, Forbidden for 403, NotFound for 404 and Internal for every other
code. -/
theorem C18_do_maps_status_codes (s : Int) (body : String) :
    ((∃ b, doRequest none (.ok ⟨s, .ok body⟩) = .ok b) ↔ Int.tdiv s 100 = 2) ∧
      (Int.tdiv s 100 = 2 → doRequest none (.ok ⟨s, .ok body⟩) = .ok body) ∧
      (¬ Int.tdiv s 100 = 2 →
        doRequest none (.ok ⟨s, .ok body⟩) = .error (errFromStatusCode s)) ∧
      (Int.tdiv s 100 = 2 ↔ 200 ≤ s ∧ s ≤ 299) ∧
      (errFromStatusCode 400).typ = .TypeInvalidInput ∧
      (errFromStatusCode 401).typ = .TypeUnauthenticated ∧
      (errFromStatusCode 403).typ = .TypeForbidden ∧
      (errFromStatusCode 404).typ = .TypeNotFound ∧
      (s ≠ 400 → s ≠ 401 → s ≠ 403 → s ≠ 404 → (errFromStatusCode s).typ = .TypeInternal) := by
  have hok : Int.tdiv s 100 = 2 → doRequest none (.ok ⟨s, .ok body⟩) = .ok body := by
    intro h
    simp only [doRequest, h, if_true]
  have herr : ¬ Int.tdiv s 100 = 2 →
      doRequest none (.ok ⟨s, .ok body⟩) = .error (errFromStatusCode s) := by
    intro h
    simp only [doRequest, h, if_false]
  refine ⟨⟨?_, ?_⟩, hok, herr, tdiv_hundred_eq_two s, by rfl, by rfl, by rfl, by rfl, ?_⟩
  · rintro ⟨b, hb⟩
    by_contra hne
    rw [herr hne] at hb
    cases hb
  · intro h
    exact ⟨body, hok h⟩
  · intro h0 h1 h3 h4
    simp only [errFromStatusCode, h0, h1, h3, h4, if_false]
    rfl

/-- C19: `provider.Activate` returns an error of type Internal when the upstream fetch fails
or `NewLicense` rejects the fetched payload, and then does not call `Create`; when both succeed
it calls `Create` once, with the storable projection of the parsed license (same ID, Key and
Data, and `OrgID` the organization), and returns what `Create` returns. -/
theorem C19_Activate (x : Env) (now : Time) (GetLicense : String → Except GoError String)
    (Create : StorableLicense → Option GoError) (o : UUID) (key : String) :
    (∀ err, GetLicense key = .error err →
        ∃ e, Activate x now GetLicense Create o key = (some e, []) ∧ e.typ = .TypeInternal) ∧
      (∀ data err, GetLicense key = .ok data → NewLicense x now data o = .error err →
        ∃ e, Activate x now GetLicense Create o key = (some e, []) ∧ e.typ = .TypeInternal) ∧
      (∀ data L, GetLicense key = .ok data → NewLicense x now data o = .ok L →
        Activate x now GetLicense Create o key =
          (Create (NewStorableLicenseFromLicense L), [ NewStorableLicenseFromLicense L ]) ∧
        (NewStorableLicenseFromLicense L).ID = L.ID ∧
        (NewStorableLicenseFromLicense L).Key = L.Key ∧
        (NewStorableLicenseFromLicense L).Data = L.Data ∧
        (NewStorableLicenseFromLicense L).OrgID = o) := by
  refine ⟨?_, ?_, ?_⟩
  · intro err h
    exact ⟨Wrapf err .TypeInternal .CodeInternal
      "unable to fetch license data with upstream server", by simp only [Activate, h], rfl⟩
  · intro data err h hL
    exact ⟨Wrapf err .TypeInternal .CodeInternal "failed to create license entity",
      by simp only [Activate, h, hL], rfl⟩
  · intro data L h hL
    refine ⟨by simp only [Activate, h, hL], rfl, rfl, rfl, ?_⟩
    unfold NewLicense at hL
    cases hm : x.Unmarshal data with
    | error e => simp [hm] at hL
    | ok m =>
      simp only [hm] at hL
      obtain ⟨_, _, _, _, _, _, _, _, _, _, _, _, _, _, _, _, _, _, _, _, _, horg⟩ :=
        NewLicenseFromMap_ok x now m o L hL
      exact horg

theorem forceDotMetrics_active (x : Env) (b : Bool) (f : Feature) (h : f.Active = true) :
    forceDotMetrics x b f = f := by
  unfold forceDotMetrics
  split
  · cases f
    simp only at h
    subst h
    rfl
  · rfl

theorem forceDotMetrics_catalog (x : Env) (b : Bool) :
    (AllFeatures x).map (forceDotMetrics x b) = AllFeatures x := by
  simp only [AllFeatures, List.map_cons, List.map_nil]
  repeat rw [forceDotMetrics_active x b _ rfl]

theorem forceDotMetrics_other (x : Env) (b : Bool) (f : Feature)
    (h : f.Name ≠ DotMetricsEnabled x) : forceDotMetrics x b f = f := by
  unfold forceDotMetrics
  have hb : (f.Name == DotMetricsEnabled x) = false := by simpa using h
  simp [hb]

/-- C20: for every organization of the claims, every result of the flag evaluation and either
value of `IsDotMetricsEnabled`, with the name of the dynamic flag not the name
`dot_metrics_enabled`: the listing the handler renders is the catalog followed by the dynamic
flag (so it has length `len(AllFeatures) + 1` and its first entries are the catalog entries in
catalog order), the last entry has `Active` equal to the evaluation result, `Usage` 0 and
`UsageLimit` -1, and the shared catalog has the same entries after the call as before it, also
after any number of calls. -/
theorem C20_feature_flag_listing (x : Env) (FeatureUseSpanMetrics : String)
    (IsDotMetricsEnabled : Bool) (claimsOrgID : String) (orgID : UUID)
    (BooleanOrEmpty : UUID → Bool) (hclaims : x.NewUUID claimsOrgID = .ok orgID)
    (hname : x.NewString FeatureUseSpanMetrics ≠ DotMetricsEnabled x) :
    getFeatureFlags x FeatureUseSpanMetrics IsDotMetricsEnabled (.ok claimsOrgID)
        BooleanOrEmpty (AllFeatures x) =
      (.respond (AllFeatures x ++
        [ dynamicFlag x FeatureUseSpanMetrics (BooleanOrEmpty orgID) ]), AllFeatures x) ∧
      (AllFeatures x ++ [ dynamicFlag x FeatureUseSpanMetrics (BooleanOrEmpty orgID) ]).length
        = (AllFeatures x).length + 1 ∧
      (AllFeatures x ++ [ dynamicFlag x FeatureUseSpanMetrics (BooleanOrEmpty orgID) ]).take
          (AllFeatures x).length = AllFeatures x ∧
      (AllFeatures x ++
          [ dynamicFlag x FeatureUseSpanMetrics (BooleanOrEmpty orgID) ])[(AllFeatures x).length]?
        = some (dynamicFlag x FeatureUseSpanMetrics (BooleanOrEmpty orgID)) ∧
      (dynamicFlag x FeatureUseSpanMetrics (BooleanOrEmpty orgID)).Active = BooleanOrEmpty orgID ∧
      (dynamicFlag x FeatureUseSpanMetrics (BooleanOrEmpty orgID)).Usage = 0 ∧
      (dynamicFlag x FeatureUseSpanMetrics (BooleanOrEmpty orgID)).UsageLimit = -1 ∧
      ∀ n, getFeatureFlagsTimes x FeatureUseSpanMetrics IsDotMetricsEnabled (.ok claimsOrgID)
          BooleanOrEmpty n (AllFeatures x) =
        (List.replicate n (.respond (AllFeatures x ++
          [ dynamicFlag x FeatureUseSpanMetrics (BooleanOrEmpty orgID) ])), AllFeatures x) := by
  have hcall : getFeatureFlags x FeatureUseSpanMetrics IsDotMetricsEnabled (.ok claimsOrgID)
        BooleanOrEmpty (AllFeatures x) =
      (.respond (AllFeatures x ++
        [ dynamicFlag x FeatureUseSpanMetrics (BooleanOrEmpty orgID) ]), AllFeatures x) := by
    unfold getFeatureFlags
    simp only [hclaims, forceDotMetrics_catalog]
    rw [forceDotMetrics_other x IsDotMetricsEnabled _ hname]
    rfl
  refine ⟨hcall, by simp, by simp, by simp, rfl, rfl, rfl, ?_⟩
  intro n
  induction n with
  | zero => rfl
  | succ k ih =>
    unfold getFeatureFlagsTimes
    simp only [hcall, ih, List.replicate_succ]

/-- C20 at a concrete input: the flag `use_span_metrics`, evaluated to false, with
`IsDotMetricsEnabled` on, three calls in a row. -/
theorem C20_feature_flag_listing_witness :
    getFeatureFlagsTimes (Sample.env []) "use_span_metrics" true
        (.ok "0196f794-ff30-7bee-a5f4-ef5ad315715e") (fun _ => false) 3
        (AllFeatures (Sample.env [])) =
      (List.replicate 3 (.respond (AllFeatures (Sample.env []) ++
        [ dynamicFlag (Sample.env []) "use_span_metrics" false ])),
        AllFeatures (Sample.env [])) :=
  (C20_feature_flag_listing (Sample.env []) "use_span_metrics" true
    "0196f794-ff30-7bee-a5f4-ef5ad315715e" Sample.org (fun _ => false) (by rfl)
    (by decide)).2.2.2.2.2.2.2 3

end Claims

/-! ## Claims on `provider.GetFeatureFlags`, `License.Update` and `PostableLicense` -/

namespace Claims

open Licensetypes Spec Httplicensing

/-- C21, counterexample: for the sample organization `provider.GetFeatureFlags` returns the
slice of the package variable `AllFeatures`, whose length is 7 and not the catalog size plus
one. -/
theorem C21_returns_the_shared_catalog :
    (GetFeatureFlags (Sample.env []) Sample.org).1.backing = .AllFeatures ∧
      (GetFeatureFlags (Sample.env []) Sample.org).1.elems.length = 7 ∧
      (GetFeatureFlags (Sample.env []) Sample.org).1.elems.length
        ≠ (AllFeatures (Sample.env [])).length + 1 :=
  ⟨rfl, rfl, by decide⟩

/-- C21, amended: for every organization `provider.GetFeatureFlags` returns, with no error,
the shared catalog `AllFeatures` itself: the slice of the package variable, with the catalog's
entries and the catalog's length, and no dynamic flag. -/
theorem C21_GetFeatureFlags_returns_AllFeatures (x : Env) (organizationID : UUID) :
    (GetFeatureFlags x organizationID).2 = none ∧
      (GetFeatureFlags x organizationID).1.backing = .AllFeatures ∧
      (GetFeatureFlags x organizationID).1.elems = AllFeatures x ∧
      (GetFeatureFlags x organizationID).1.elems.length = (AllFeatures x).length ∧
      (GetFeatureFlags x organizationID).1.elems.length = 7 :=
  ⟨rfl, rfl, rfl, rfl, rfl⟩

/-- C22: for every license and every payload, `License.Update` leaves `OrganizationID` and
`CreatedAt` unchanged, whether it succeeds or fails; it fails exactly when `NewLicense` rejects
the payload, with the error of `NewLicense`, and then leaves the whole license unchanged. -/
theorem C22_Update_frame (x : Env) (now currentTime : Time) (license : License)
    (data : String) :
    (License.Update x now currentTime license data).1.OrganizationID
        = license.OrganizationID ∧
      (License.Update x now currentTime license data).1.CreatedAt = license.CreatedAt ∧
      (∀ err, NewLicense x now data license.OrganizationID = .error err →
        License.Update x now currentTime license data = (license, some err)) ∧
      ((License.Update x now currentTime license data).2 ≠ none →
        (License.Update x now currentTime license data).1 = license) ∧
      ((License.Update x now currentTime license data).2 = none ↔
        ∃ U, NewLicense x now data license.OrganizationID = .ok U) := by
  unfold License.Update
  cases hU : NewLicense x now data license.OrganizationID with
  | error e =>
    refine ⟨rfl, rfl, ?_, fun _ => rfl, ?_⟩
    · intro err herr
      cases herr
      rfl
    · simp
  | ok U =>
    refine ⟨rfl, rfl, ?_, ?_, ?_⟩
    · intro err herr
      cases herr
    · intro h
      exact absurd rfl h
    · simp

/-- C23: for every request body, `PostableLicense.UnmarshalJSON` succeeds if and only if the
body decodes with a non-empty `key`, and then sets `Key` to it; if the body does not decode, or
decodes with an empty `key`, it returns an error of type InvalidInput and leaves the receiver
unchanged. -/
theorem C23_UnmarshalJSON (decodeKey : String → Except GoError String) (p : PostableLicense)
    (data : String) :
    ((PostableLicense.UnmarshalJSON decodeKey p data).2 = none ↔
        ∃ key, decodeKey data = .ok key ∧ key ≠ "") ∧
      (∀ key, decodeKey data = .ok key → key ≠ "" →
        PostableLicense.UnmarshalJSON decodeKey p data = (⟨key⟩, none)) ∧
      (∀ e, decodeKey data = .error e →
        PostableLicense.UnmarshalJSON decodeKey p data =
          (p, some (.base .TypeInvalidInput .CodeInvalidInput "failed to unmarshal payload"))) ∧
      (decodeKey data = .ok "" →
        PostableLicense.UnmarshalJSON decodeKey p data =
          (p, some (.base .TypeInvalidInput .CodeInvalidInput "license key cannot be empty"))) ∧
      (∀ err, (PostableLicense.UnmarshalJSON decodeKey p data).2 = some err →
        err.typ = .TypeInvalidInput ∧
        (PostableLicense.UnmarshalJSON decodeKey p data).1 = p) := by
  unfold PostableLicense.UnmarshalJSON
  cases hd : decodeKey data with
  | error e =>
    refine ⟨?_, ?_, ?_, ?_, ?_⟩
    · simp
    · intro key hk
      cases hk
    · intro e2 _
      rfl
    · intro h
      cases h
    · intro err herr
      simp only [Option.some.injEq] at herr
      subst herr
      exact ⟨rfl, rfl⟩
  | ok key =>
    by_cases hk : key = ""
    · subst hk
      refine ⟨?_, ?_, ?_, ?_, ?_⟩
      · simp
      · intro key hkey hne
        simp only [Except.ok.injEq] at hkey
        exact absurd hkey.symm hne
      · intro e he
        cases he
      · intro _
        rfl
      · intro err herr
        simp only [if_true, Option.some.injEq] at herr
        subst herr
        exact ⟨rfl, rfl⟩
    · refine ⟨?_, ?_, ?_, ?_, ?_⟩
      · simp [hk]
      · intro key2 hkey hne
        simp only [Except.ok.injEq] at hkey
        subst hkey
        simp [hk]
      · intro e he
        cases he
      · intro h
        simp only [Except.ok.injEq] at h
        exact absurd h hk
      · intro err herr
        simp [hk] at herr

end Claims

/-! ## Agreement of the typed fields with the data map -/

namespace Licensetypes

open Spec

theorem extractMap_ok_get (m : GoMap) (k : String) (p : GoMap) (h : extractMap m k = .ok p) :
    m.get k = some (.map p) := by
  unfold extractMap extractKeyFromMapStringInterface at h
  cases hv : m.get k with
  | none => simp [hv] at h
  | some w =>
    cases w with
    | map q =>
      simp only [hv, Value.asMap, Except.ok.injEq] at h
      rw [h]
    | _ => simp [hv, Value.asMap] at h

theorem stateOf_extract (m : GoMap) : orDefault (extractString m "state") "" = stateOf m := by
  rw [orDefault_extractString]
  rfl

theorem freeUntilOf_extract (x : Env) (m : GoMap) (hempty : ∃ e, x.ParseRFC3339 "" = .error e) :
    orDefault (x.ParseRFC3339 (orDefault (extractString m "free_until") "")) Time.zero
      = freeUntilOf x m := by
  rw [orDefault_extractString]
  unfold freeUntilOf
  obtain ⟨e, he⟩ := hempty
  cases hv : m.get "free_until" with
  | none => simp only [he, orDefault]
  | some v =>
    cases v with
    | string t =>
      simp only [orDefault]
      cases x.ParseRFC3339 t <;> rfl
    | _ => simp only [he, orDefault]

theorem agreesWithData_of_fields (x : Env) (L : License) (status : String) (planMap : GoMap)
    (name : String) (hempty : ∃ e, x.ParseRFC3339 "" = .error e)
    (hs : extractString L.Data "status" = .ok status)
    (hp : extractMap L.Data "plan" = .ok planMap)
    (hn : extractString planMap "name" = .ok name)
    (hpn : L.PlanName = x.NewString name) (hst : L.Status = x.NewString status)
    (hstate : L.State = orDefault (extractString L.Data "state") "")
    (hfree : L.FreeUntil =
      orDefault (x.ParseRFC3339 (orDefault (extractString L.Data "free_until") "")) Time.zero)
    (hvf : L.ValidFrom =
      (orDefault (extractFloat64 L.Data "valid_from") (Float64.ofInt 0)).toInt64)
    (hvu : L.ValidUntil =
      (orDefault (extractFloat64 L.Data "valid_until") (Float64.ofInt 0)).toInt64) :
    agreesWithData x L := by
  refine ⟨⟨planMap, name, extractMap_ok_get _ _ _ hp, Claims.extractString_ok_get _ _ _ hn, hpn⟩,
    ⟨status, Claims.extractString_ok_get _ _ _ hs, hst⟩, ?_, ?_, ?_, ?_⟩
  · rw [hstate, stateOf_extract]
  · rw [hfree, freeUntilOf_extract x _ hempty]
  · rw [hvf, orDefault_extractFloat64]
  · rw [hvu, orDefault_extractFloat64]

theorem extractString_residual (m : GoMap) (v : Value) (k : String) (h : k ≠ "features") :
    extractString (((m.delete "id").delete "key").set "features" v) k =
      extractString ((m.delete "id").delete "key") k := by
  unfold extractString
  exact extract_set_ne _ _ _ _ _ _ h

theorem agreesWithData_NewLicense (x : Env) (now : Time) (p : String) (o : UUID) (L : License)
    (hempty : ∃ e, x.ParseRFC3339 "" = .error e) (h : NewLicense x now p o = .ok L) :
    agreesWithData x L := by
  unfold NewLicense at h
  cases hm : x.Unmarshal p with
  | error e => simp [hm] at h
  | ok m =>
    simp only [hm] at h
    obtain ⟨_, statusStr, planMap, planNameStr, _, _, _, hstatus, hplan, hname, hdata,
      hpn, hst, _, hvf, hvu, hstate, hfree, _⟩ := NewLicenseFromMap_ok x now m o L h
    refine agreesWithData_of_fields x L statusStr planMap planNameStr hempty ?_ ?_ hname hpn hst
      ?_ ?_ hvf hvu
    · rw [hdata, extractString_residual m _ _ (by decide)]
      exact hstatus
    · rw [hdata]
      unfold extractMap
      rw [extract_set_ne _ _ _ _ _ _ (by decide)]
      exact hplan
    · rw [hstate, hdata, extractString_residual m _ _ (by decide)]
    · rw [hfree, hdata, extractString_residual m _ _ (by decide)]

theorem agreesWithData_NewLicenseFromStorableLicense (x : Env) (s : StorableLicense)
    (L : License) (hempty : ∃ e, x.ParseRFC3339 "" = .error e)
    (h : NewLicenseFromStorableLicense x s = .ok L) : agreesWithData x L := by
  cases hs : extractString s.Data "status" with
  | error e => simp [NewLicenseFromStorableLicense, hs] at h
  | ok statusStr =>
    cases hp : extractMap s.Data "plan" with
    | error e => simp [NewLicenseFromStorableLicense, hs, hp] at h
    | ok planMap =>
      cases hn : extractString planMap "name" with
      | error e => simp [NewLicenseFromStorableLicense, hs, hp, hn] at h
      | ok planNameStr =>
        obtain ⟨L2, hL2, _, _, _, hdata, hpn, hst, _, hvf, hvu, hstate, hfree, _⟩ :=
          NewLicenseFromStorableLicense_ok x s statusStr planMap planNameStr hs hp hn
        rw [h] at hL2
        have hEq : L = L2 := Except.ok.inj hL2
        subst hEq
        refine agreesWithData_of_fields x L statusStr planMap planNameStr hempty ?_ ?_ hn hpn
          hst hstate hfree hvf hvu
        · rw [hdata]
          unfold extractString
          rw [extract_set_ne _ _ _ _ _ _ (by decide)]
          exact hs
        · rw [hdata]
          unfold extractMap
          rw [extract_set_ne _ _ _ _ _ _ (by decide)]
          exact hp

theorem agreesWithData_NewSyntheticCloudLicense (x : Env) (now : Time) (o : UUID)
    (hempty : ∃ e, x.ParseRFC3339 "" = .error e) :
    agreesWithData x (NewSyntheticCloudLicense x now o) := by
  obtain ⟨e, he⟩ := hempty
  refine ⟨⟨_, "cloud", rfl, rfl, rfl⟩, ⟨"VALID", rfl, rfl⟩, rfl, ?_, rfl, rfl⟩
  have hget : (NewSyntheticCloudLicense x now o).Data.get "free_until" = some (.string "") := rfl
  unfold freeUntilOf
  rw [hget]
  simp only [he]
  rfl

theorem Update_fields (x : Env) (now currentTime : Time) (license U : License) (p : String)
    (hU : NewLicense x now p license.OrganizationID = .ok U) :
    (License.Update x now currentTime license p).2 = none ∧
      (License.Update x now currentTime license p).1.Data = U.Data ∧
      (License.Update x now currentTime license p).1.PlanName = U.PlanName ∧
      (License.Update x now currentTime license p).1.Status = U.Status ∧
      (License.Update x now currentTime license p).1.ValidFrom = U.ValidFrom ∧
      (License.Update x now currentTime license p).1.ValidUntil = U.ValidUntil ∧
      (License.Update x now currentTime license p).1.State = license.State ∧
      (License.Update x now currentTime license p).1.FreeUntil = license.FreeUntil := by
  unfold License.Update
  rw [hU]
  exact ⟨rfl, rfl, rfl, rfl, rfl, rfl, rfl, rfl⟩

end Licensetypes

/-! ## Claim on the agreement after `License.Update` -/

namespace Claims

open Licensetypes Spec

/-- C24, evaluated at the failing input: the license built from a payload with `state`
"EVALUATING" and `free_until` 2023-10-05T14:48:00Z is updated with a payload with `state`
"ACTIVE" and no `free_until`. `License.Update` succeeds; afterwards the data map holds the
`state` "ACTIVE" and no `free_until`, while `State` is still "EVALUATING" and `FreeUntil` is
still the old time. PlanName, Status, ValidFrom and ValidUntil agree with the data map. -/
theorem C24_Update_keeps_State_and_FreeUntil :
    NewLicense (Sample.env [ (Sample.payloadText, Sample.payloadMap) ]) ⟨1700000000⟩
        Sample.payloadText Sample.org = .ok Sample.payloadLicense ∧
      (License.Update (Sample.env [ (Sample.renewalText, Sample.renewalMap) ]) ⟨1700000100⟩
        ⟨1700000100⟩ Sample.payloadLicense Sample.renewalText).2 = none ∧
      stateOf (License.Update (Sample.env [ (Sample.renewalText, Sample.renewalMap) ])
        ⟨1700000100⟩ ⟨1700000100⟩ Sample.payloadLicense Sample.renewalText).1.Data
        = "ACTIVE" ∧
      (License.Update (Sample.env [ (Sample.renewalText, Sample.renewalMap) ]) ⟨1700000100⟩
        ⟨1700000100⟩ Sample.payloadLicense Sample.renewalText).1.State = "EVALUATING" ∧
      freeUntilOf (Sample.env [ (Sample.renewalText, Sample.renewalMap) ])
        (License.Update (Sample.env [ (Sample.renewalText, Sample.renewalMap) ]) ⟨1700000100⟩
          ⟨1700000100⟩ Sample.payloadLicense Sample.renewalText).1.Data = Time.zero ∧
      (License.Update (Sample.env [ (Sample.renewalText, Sample.renewalMap) ]) ⟨1700000100⟩
        ⟨1700000100⟩ Sample.payloadLicense Sample.renewalText).1.FreeUntil = ⟨1696517280⟩ ∧
      (License.Update (Sample.env [ (Sample.renewalText, Sample.renewalMap) ]) ⟨1700000100⟩
        ⟨1700000100⟩ Sample.payloadLicense Sample.renewalText).1.ValidFrom
        = numberOf (License.Update (Sample.env [ (Sample.renewalText, Sample.renewalMap) ])
          ⟨1700000100⟩ ⟨1700000100⟩ Sample.payloadLicense Sample.renewalText).1.Data
          "valid_from" :=
  ⟨by rfl, by rfl, by rfl, by rfl, by rfl, by rfl, by rfl⟩

end Claims
